import Mathlib

/-!
PtmrBackend: relational write coupled to a side effect, and the task queue.

A shallow embedding of the Go sources of the repository:

* `pkg/db/sqlc/tx_*.go`: the side-effect-coupled transactions;
* `pkg/worker/*.go`: the task distributor and the task processor;
* `pkg/elasticsearch/*.go`: the document-store client used by the handlers;
* `cmd/UserService/api/past_experience.go`: the past-experience endpoints.

Go values of type `error` are `Option GoError` (`none` is `nil`).  Code with
effects is written in state-passing style; every call to a collaborator
(relational query, callback, broker, document store, mailer) is appended to a
log so that the calls a function makes can be counted.
-/

namespace Ptmr

/-! ## Go errors -/

/-- Go error values, as the chain that `errors.Unwrap` walks.
`skipRetry` is the sentinel `asynq.SkipRetry`; `errorsNew` is a value made by
`errors.New` or by `fmt.Errorf` without `%w`; `wrapf msg inner` is
`fmt.Errorf(msg + ": %w", inner)`. -/
inductive GoError where
  | skipRetry
  | errorsNew (msg : String)
  | wrapf (msg : String) (inner : GoError)
  deriving DecidableEq, Repr

namespace GoError

/-- The method `Error()`: the message of an error value. -/
def Error : GoError → String
  | skipRetry => "skip retry for the task"
  | errorsNew msg => msg
  | wrapf msg inner => msg ++ ": " ++ inner.Error

/-- The function `errors.Is(err, target)`: `target` occurs in the chain of `err`. -/
def errorsIs : GoError → GoError → Bool
  | wrapf msg inner, target => decide (wrapf msg inner = target) || errorsIs inner target
  | err, target => decide (err = target)

end GoError

/-- `errors.Is` on a possibly nil error: a nil error wraps nothing. -/
def wraps (err : Option GoError) (target : GoError) : Bool :=
  match err with
  | none => false
  | some e => e.errorsIs target

/-! ## Side-effect-coupled transactions (`pkg/db/sqlc`) -/

/-- A call made while a transaction function runs. -/
inductive TxEvent where
  | query (name : String)
  | callback (name : String)
  deriving DecidableEq, Repr

/-- What a transaction function acts on: the relational state seen through the
open transaction, the state outside the database (reached by callbacks), and
the log of calls made so far, oldest first. -/
structure TxWorld (σ ω : Type) where
  db : σ
  ext : ω
  log : List TxEvent

/-- The record types generated by sqlc whose fields the transactions never read. -/
structure Models where
  Candidate : Type
  CreateCandidateParams : Type
  UpdateCandidateParams : Type
  PastExperience : Type
  CreatePastExperienceParams : Type
  UpdatePastExperienceParams : Type
  CreateCandidateApplicationParams : Type
  DeleteCandidateApplicationParams : Type
  DeleteEmployerApplicationParams : Type
  CandidateApplicationRow : Type
  AppDoc : Type

/-- The type `db.DeletePastExperienceParams`. -/
structure DeletePastExperienceParams where
  ID : Int
  CandidateID : Int
  deriving DecidableEq, Repr

/-- The type `db.CandidateApplication`: the column `ElasticsearchDocID`, which
the transaction reads, and the remaining columns. -/
structure CandidateApplication (Row : Type) where
  ElasticsearchDocID : String
  row : Row

/-- The relational queries (`*Queries`) used by the transactions: each takes
its parameters and the relational state, and returns its Go results and the
new state. -/
structure Queries (M : Models) (σ : Type) where
  CreateCandidate : M.CreateCandidateParams → σ → (M.Candidate × Option GoError) × σ
  UpdateCandidate : M.UpdateCandidateParams → σ → (M.Candidate × Option GoError) × σ
  CreatePastExperience :
    M.CreatePastExperienceParams → σ → (M.PastExperience × Option GoError) × σ
  UpdatePastExperience :
    M.UpdatePastExperienceParams → σ → (M.PastExperience × Option GoError) × σ
  DeletePastExperience : DeletePastExperienceParams → σ → Option GoError × σ
  CreateCandidateApplication :
    M.CreateCandidateApplicationParams → σ →
      (CandidateApplication M.CandidateApplicationRow × Option GoError) × σ
  DeleteCandidateApplication : M.DeleteCandidateApplicationParams → σ → Option GoError × σ
  DeleteEmployerApplication : M.DeleteEmployerApplicationParams → σ → Option GoError × σ

/-- A function run inside a transaction (`func(q *Queries) error`), together
with the value it leaves in the variables it captured. -/
abbrev TxBody (σ ω α : Type) := TxWorld σ ω → (α × Option GoError) × TxWorld σ ω

/-- The transaction executor `execTx`. -/
abbrev Executor (σ ω : Type) := (α : Type) → TxBody σ ω α → TxBody σ ω α

/-- An executor that commits exactly when the function returns nil: it runs the
function once on the current world and returns what the function returned; the
relational state afterwards is the function's when the function returned nil,
and the state before the call otherwise. -/
def CommitsExactlyOnNil {σ ω : Type} (execTx : Executor σ ω) : Prop :=
  ∀ (α : Type) (fn : TxBody σ ω α) (w : TxWorld σ ω),
    execTx α fn w =
      ((fn w).1, if (fn w).1.2.isNone then (fn w).2 else { (fn w).2 with db := w.db })

/-- Modelled from the spec: execTx, which is not among the sources.  The
executor begins a transaction, runs the function, rolls the transaction back
and returns the error if the function returns one, and commits otherwise. -/
def execTx {σ ω : Type} : Executor σ ω := fun _ fn w =>
  match fn w with
  | ((r, none), w1) => ((r, none), w1)
  | ((r, some e), w1) => ((r, some e), { w1 with db := w.db })

section Tx

variable {M : Models} {σ ω : Type}

/-- Run a query that returns a row: the state changes and the call is logged. -/
def callQuery {P R : Type} (name : String) (query : P → σ → (R × Option GoError) × σ)
    (p : P) (w : TxWorld σ ω) : (R × Option GoError) × TxWorld σ ω :=
  ((query p w.db).1, { w with db := (query p w.db).2, log := w.log ++ [TxEvent.query name] })

/-- Run a query that returns only an error. -/
def callExec {P : Type} (name : String) (query : P → σ → Option GoError × σ)
    (p : P) (w : TxWorld σ ω) : Option GoError × TxWorld σ ω :=
  ((query p w.db).1, { w with db := (query p w.db).2, log := w.log ++ [TxEvent.query name] })

/-- Invoke a callback: it acts on the state outside the database and the call is logged. -/
def callCallback (name : String) (cb : ω → Option GoError × ω) (w : TxWorld σ ω) :
    Option GoError × TxWorld σ ω :=
  ((cb w.ext).1, { w with ext := (cb w.ext).2, log := w.log ++ [TxEvent.callback name] })

/-- The type `CreateCandidateTxParams`. -/
structure CreateCandidateTxParams (M : Models) (ω : Type) where
  CreateCandidateParams : M.CreateCandidateParams
  AfterCreate : M.Candidate → ω → Option GoError × ω

/-- The type `UpdateCandidateTxParams`. -/
structure UpdateCandidateTxParams (M : Models) (ω : Type) where
  UpdateCandidateParams : M.UpdateCandidateParams
  AfterCreate : M.Candidate → ω → Option GoError × ω

/-- The type `CreatePastExperienceTxParams`. -/
structure CreatePastExperienceTxParams (M : Models) (ω : Type) where
  CreatePastExperienceParams : M.CreatePastExperienceParams
  AfterCreate : M.PastExperience → ω → Option GoError × ω

/-- The type `UpdatePastExperienceTxParams`. -/
structure UpdatePastExperienceTxParams (M : Models) (ω : Type) where
  UpdatePastExperienceParams : M.UpdatePastExperienceParams
  AfterUpdate : M.PastExperience → ω → Option GoError × ω

/-- The type `DeletePastExperienceTxParams`; the callback is declared as
`func(candidateID int64, pastExperienceID int64) error`. -/
structure DeletePastExperienceTxParams (ω : Type) where
  DeletePastExperienceParams : DeletePastExperienceParams
  AfterDelete : (candidateID : Int) → (pastExperienceID : Int) → ω → Option GoError × ω

/-- The type `CreateCandidateApplicationTxParams`. -/
structure CreateCandidateApplicationTxParams (M : Models) (ω : Type) where
  CreateCandidateApplicationParams : M.CreateCandidateApplicationParams
  AppDoc : M.AppDoc
  AfterCreate : (docID : String) → (appDoc : M.AppDoc) → ω → Option GoError × ω

/-- The type `DeleteApplicationTxParams`. -/
structure DeleteApplicationTxParams (M : Models) (ω : Type) where
  DeleteCandidateApplicationParams : M.DeleteCandidateApplicationParams
  DeleteEmployerApplicationParams : M.DeleteEmployerApplicationParams
  IsEmployer : Bool
  DocID : String
  AfterDelete : (docID : String) → ω → Option GoError × ω

/-- The function literal passed to `execTx` by `CreateCandidateApplicationTx`;
the first component of the result is `result.CandidateApplication`. -/
def CreateCandidateApplicationTxFn (q : Queries M σ)
    (arg : CreateCandidateApplicationTxParams M ω) :
    TxBody σ ω (CandidateApplication M.CandidateApplicationRow) := fun w =>
  match callQuery "CreateCandidateApplication" q.CreateCandidateApplication
      arg.CreateCandidateApplicationParams w with
  | ((app, some err), w1) => ((app, some err), w1)
  | ((app, none), w1) =>
    match callCallback "AfterCreate" (arg.AfterCreate app.ElasticsearchDocID arg.AppDoc) w1 with
    | (err, w2) => ((app, err), w2)

/-- The method `CreateCandidateApplicationTx`. -/
def CreateCandidateApplicationTx (exec : Executor σ ω) (q : Queries M σ)
    (arg : CreateCandidateApplicationTxParams M ω) :
    TxBody σ ω (CandidateApplication M.CandidateApplicationRow) :=
  exec _ (CreateCandidateApplicationTxFn q arg)

/-- The function literal passed to `execTx` by `DeleteApplicationTx`. -/
def DeleteApplicationTxFn (q : Queries M σ) (arg : DeleteApplicationTxParams M ω) :
    TxBody σ ω Unit := fun w =>
  if arg.IsEmployer then
    match callExec "DeleteEmployerApplication" q.DeleteEmployerApplication
        arg.DeleteEmployerApplicationParams w with
    | (some err, w1) => (((), some err), w1)
    | (none, w1) =>
      match callCallback "AfterDelete" (arg.AfterDelete arg.DocID) w1 with
      | (err, w2) => (((), err), w2)
  else
    match callExec "DeleteCandidateApplication" q.DeleteCandidateApplication
        arg.DeleteCandidateApplicationParams w with
    | (some err, w1) => (((), some err), w1)
    | (none, w1) =>
      match callCallback "AfterDelete" (arg.AfterDelete arg.DocID) w1 with
      | (err, w2) => (((), err), w2)

/-- The method `DeleteApplicationTx`. -/
def DeleteApplicationTx (exec : Executor σ ω) (q : Queries M σ)
    (arg : DeleteApplicationTxParams M ω) : TxBody σ ω Unit :=
  exec _ (DeleteApplicationTxFn q arg)

/-- The function literal passed to `execTx` by `CreateCandidateTx`; the first
component of the result is `result.Candidate`. -/
def CreateCandidateTxFn (q : Queries M σ) (arg : CreateCandidateTxParams M ω) :
    TxBody σ ω M.Candidate := fun w =>
  match callQuery "CreateCandidate" q.CreateCandidate arg.CreateCandidateParams w with
  | ((candidate, some err), w1) => ((candidate, some err), w1)
  | ((candidate, none), w1) =>
    match callCallback "AfterCreate" (arg.AfterCreate candidate) w1 with
    | (err, w2) => ((candidate, err), w2)

/-- The method `CreateCandidateTx`. -/
def CreateCandidateTx (exec : Executor σ ω) (q : Queries M σ)
    (arg : CreateCandidateTxParams M ω) : TxBody σ ω M.Candidate :=
  exec _ (CreateCandidateTxFn q arg)

/-- The function literal passed to `execTx` by `UpdateCandidateTx`. -/
def UpdateCandidateTxFn (q : Queries M σ) (arg : UpdateCandidateTxParams M ω) :
    TxBody σ ω M.Candidate := fun w =>
  match callQuery "UpdateCandidate" q.UpdateCandidate arg.UpdateCandidateParams w with
  | ((candidate, some err), w1) => ((candidate, some err), w1)
  | ((candidate, none), w1) =>
    match callCallback "AfterCreate" (arg.AfterCreate candidate) w1 with
    | (err, w2) => ((candidate, err), w2)

/-- The method `UpdateCandidateTx`. -/
def UpdateCandidateTx (exec : Executor σ ω) (q : Queries M σ)
    (arg : UpdateCandidateTxParams M ω) : TxBody σ ω M.Candidate :=
  exec _ (UpdateCandidateTxFn q arg)

/-- The function literal passed to `execTx` by `CreatePastExperienceTx`. -/
def CreatePastExperienceTxFn (q : Queries M σ) (arg : CreatePastExperienceTxParams M ω) :
    TxBody σ ω M.PastExperience := fun w =>
  match callQuery "CreatePastExperience" q.CreatePastExperience
      arg.CreatePastExperienceParams w with
  | ((pastExperience, some err), w1) => ((pastExperience, some err), w1)
  | ((pastExperience, none), w1) =>
    match callCallback "AfterCreate" (arg.AfterCreate pastExperience) w1 with
    | (err, w2) => ((pastExperience, err), w2)

/-- The method `CreatePastExperienceTx`. -/
def CreatePastExperienceTx (exec : Executor σ ω) (q : Queries M σ)
    (arg : CreatePastExperienceTxParams M ω) : TxBody σ ω M.PastExperience :=
  exec _ (CreatePastExperienceTxFn q arg)

/-- The function literal passed to `execTx` by `UpdatePastExperienceTx`. -/
def UpdatePastExperienceTxFn (q : Queries M σ) (arg : UpdatePastExperienceTxParams M ω) :
    TxBody σ ω M.PastExperience := fun w =>
  match callQuery "UpdatePastExperience" q.UpdatePastExperience
      arg.UpdatePastExperienceParams w with
  | ((pastExperience, some err), w1) => ((pastExperience, some err), w1)
  | ((pastExperience, none), w1) =>
    match callCallback "AfterUpdate" (arg.AfterUpdate pastExperience) w1 with
    | (err, w2) => ((pastExperience, err), w2)

/-- The method `UpdatePastExperienceTx`. -/
def UpdatePastExperienceTx (exec : Executor σ ω) (q : Queries M σ)
    (arg : UpdatePastExperienceTxParams M ω) : TxBody σ ω M.PastExperience :=
  exec _ (UpdatePastExperienceTxFn q arg)

/-- The function literal passed to `execTx` by `DeletePastExperienceTx`.  The
callback receives `params.ID` first and `params.CandidateID` second, as written
in the source. -/
def DeletePastExperienceTxFn (q : Queries M σ) (arg : DeletePastExperienceTxParams ω) :
    TxBody σ ω Unit := fun w =>
  let params := arg.DeletePastExperienceParams
  match callExec "DeletePastExperience" q.DeletePastExperience params w with
  | (some err, w1) => (((), some err), w1)
  | (none, w1) =>
    match callCallback "AfterDelete" (arg.AfterDelete params.ID params.CandidateID) w1 with
    | (err, w2) => (((), err), w2)

/-- The method `DeletePastExperienceTx`. -/
def DeletePastExperienceTx (exec : Executor σ ω) (q : Queries M σ)
    (arg : DeletePastExperienceTxParams ω) : TxBody σ ω Unit :=
  exec _ (DeletePastExperienceTxFn q arg)

end Tx

/-- The outcome `out` of an operation started in world `w`: it returned the
error `e` and the relational state is the one before the operation. -/
def FailedUncommitted {σ ω α : Type} (w : TxWorld σ ω) (e : GoError)
    (out : (α × Option GoError) × TxWorld σ ω) : Prop :=
  out.1.2 = some e ∧ out.2.db = w.db

/-! ### A small concrete instance -/

/-- Record types for the concrete instance: every record is a number, an
application document is a string. -/
def demoModels : Models :=
  { Candidate := Nat, CreateCandidateParams := Nat, UpdateCandidateParams := Nat,
    PastExperience := Nat, CreatePastExperienceParams := Nat,
    UpdatePastExperienceParams := Nat, CreateCandidateApplicationParams := Nat,
    DeleteCandidateApplicationParams := Nat, DeleteEmployerApplicationParams := Nat,
    CandidateApplicationRow := Nat, AppDoc := String }

/-- Queries over a table of numbers: creation and update insert the row,
deletion removes it; a query on the number `0` fails without changing the table. -/
def demoQueries : Queries demoModels (List Nat) :=
  { CreateCandidate := fun (p : Nat) db =>
      if p = 0 then ((p, some (GoError.errorsNew "constraint")), db) else ((p, none), p :: db),
    UpdateCandidate := fun (p : Nat) db =>
      if p = 0 then ((p, some (GoError.errorsNew "constraint")), db) else ((p, none), p :: db),
    CreatePastExperience := fun (p : Nat) db =>
      if p = 0 then ((p, some (GoError.errorsNew "constraint")), db) else ((p, none), p :: db),
    UpdatePastExperience := fun (p : Nat) db =>
      if p = 0 then ((p, some (GoError.errorsNew "constraint")), db) else ((p, none), p :: db),
    DeletePastExperience := fun p db =>
      if p.ID = 0 then (some (GoError.errorsNew "constraint"), db)
      else (none, db.filter (fun x => decide ((x : Int) ≠ p.ID))),
    CreateCandidateApplication := fun (p : Nat) db =>
      if p = 0 then ((⟨"0_0", p⟩, some (GoError.errorsNew "constraint")), db)
      else ((⟨"5_7", p⟩, none), p :: db),
    DeleteCandidateApplication := fun (p : Nat) db =>
      if p = 0 then (some (GoError.errorsNew "constraint"), db)
      else (none, db.filter (fun x => decide (x ≠ p))),
    DeleteEmployerApplication := fun (p : Nat) db =>
      if p = 0 then (some (GoError.errorsNew "constraint"), db)
      else (none, db.filter (fun x => decide (x ≠ p))) }

/-- The error a failing broker reports in the concrete instance. -/
def brokerDown : GoError := GoError.errorsNew "broker unreachable"

/-- A callback that records its call outside the database and then fails. -/
def failingCallback (note : String) : List String → Option GoError × List String :=
  fun ext => (some brokerDown, ext ++ [note])

/-- A callback that records its call outside the database and succeeds. -/
def recordingCallback (note : String) : List String → Option GoError × List String :=
  fun ext => (none, ext ++ [note])

/-- The starting world of the concrete instance: one row, nothing outside, no calls yet. -/
def demoWorld : TxWorld (List Nat) (List String) := { db := [3], ext := [], log := [] }

/-- The outcome `out` of an operation started in world `w` whose mutation
`queryName` succeeded: the calls made are the mutation and then the callback
`cbName`, once; the state outside the database is what one run of the callback
`cb` leaves; the operation returns what the callback returned. -/
def CallbackOnceAfterMutation {σ ω α : Type} (w : TxWorld σ ω) (queryName cbName : String)
    (cb : ω → Option GoError × ω) (out : (α × Option GoError) × TxWorld σ ω) : Prop :=
  out.2.log = w.log ++ [TxEvent.query queryName, TxEvent.callback cbName] ∧
    out.2.ext = (cb w.ext).2 ∧ out.1.2 = (cb w.ext).1

/-- The outcome `out` of an operation started in world `w` whose mutation
`queryName` failed with `e`: the only call made is the mutation, the state
outside the database is untouched, and the operation returns `e`. -/
def CallbackNeverInvoked {σ ω α : Type} (w : TxWorld σ ω) (queryName : String) (e : GoError)
    (out : (α × Option GoError) × TxWorld σ ω) : Prop :=
  out.2.log = w.log ++ [TxEvent.query queryName] ∧ out.2.ext = w.ext ∧ out.1.2 = some e

/-- Arguments of `CreateCandidateApplicationTx` in the concrete instance. -/
def demoCreateAppArg (row : Nat) (cb : String → List String → Option GoError × List String) :
    CreateCandidateApplicationTxParams demoModels (List String) :=
  { CreateCandidateApplicationParams := row, AppDoc := "hi", AfterCreate := fun docID _ => cb docID
      }

/-- Arguments of `DeleteApplicationTx` in the concrete instance. -/
def demoDeleteAppArg (row : Nat) (isEmployer : Bool)
    (cb : String → List String → Option GoError × List String) :
    DeleteApplicationTxParams demoModels (List String) :=
  { DeleteCandidateApplicationParams := row, DeleteEmployerApplicationParams := row,
    IsEmployer := isEmployer, DocID := "5_7", AfterDelete := cb }

/-- Arguments of `CreateCandidateTx` in the concrete instance. -/
def demoCreateCandidateArg (row : Nat)
    (cb : String → List String → Option GoError × List String) :
    CreateCandidateTxParams demoModels (List String) :=
  { CreateCandidateParams := row, AfterCreate := fun (_ : Nat) => cb "candidate" }

/-- Arguments of `UpdateCandidateTx` in the concrete instance. -/
def demoUpdateCandidateArg (row : Nat)
    (cb : String → List String → Option GoError × List String) :
    UpdateCandidateTxParams demoModels (List String) :=
  { UpdateCandidateParams := row, AfterCreate := fun (_ : Nat) => cb "candidate" }

/-- Arguments of `CreatePastExperienceTx` in the concrete instance. -/
def demoCreatePastExperienceArg (row : Nat)
    (cb : String → List String → Option GoError × List String) :
    CreatePastExperienceTxParams demoModels (List String) :=
  { CreatePastExperienceParams := row, AfterCreate := fun (_ : Nat) => cb "experience" }

/-- Arguments of `UpdatePastExperienceTx` in the concrete instance. -/
def demoUpdatePastExperienceArg (row : Nat)
    (cb : String → List String → Option GoError × List String) :
    UpdatePastExperienceTxParams demoModels (List String) :=
  { UpdatePastExperienceParams := row, AfterUpdate := fun (_ : Nat) => cb "experience" }

/-- Arguments of `DeletePastExperienceTx` in the concrete instance. -/
def demoDeletePastExperienceArg (row : Int)
    (cb : String → List String → Option GoError × List String) :
    DeletePastExperienceTxParams (List String) :=
  { DeletePastExperienceParams := { ID := row, CandidateID := 9 },
    AfterDelete := fun _ _ => cb "experience" }

/-! ## JSON, time and tasks (`encoding/json`, `time`, `asynq`) -/

/-- A byte slice. -/
abbrev Bytes := List UInt8

/-- JSON values; an object keeps its members in a list. -/
inductive Json where
  | null
  | bool (b : Bool)
  | num (q : ℚ)
  | str (s : String)
  | arr (items : List Json)
  | obj (members : List (String × Json))
  deriving Repr

/-- The Go type `map[string]interface{}`. -/
abbrev JsonMap := List (String × Json)

/-- The value of a member of a JSON object: the first member with that name. -/
def getField : JsonMap → String → Option Json
  | [], _ => none
  | (k, v) :: rest, name => if k = name then some v else getField rest name

/-- Assignment to a member of a JSON object: the member is replaced where it
stands, or added at the end. -/
def setField : JsonMap → String → Json → JsonMap
  | [], name, value => [(name, value)]
  | (k, v) :: rest, name, value =>
    if k = name then (k, value) :: rest else (k, v) :: setField rest name value

/-- A `time.Time` in UTC: the calendar date and the nanoseconds since midnight. -/
structure Time where
  Year : Int
  Month : Nat
  Day : Nat
  nanos : Nat
  deriving DecidableEq, Repr

/-- The zero `time.Time`: January 1 of year 1, 00:00:00 UTC. -/
def Time.zero : Time := { Year := 1, Month := 1, Day := 1, nanos := 0 }

instance : Inhabited Time := ⟨Time.zero⟩

/-- The method `IsZero`. -/
def Time.IsZero (t : Time) : Bool := decide (t = Time.zero)

/-- An `asynq.Option` given at enqueue time; a duration is in nanoseconds. -/
inductive AsynqOption where
  | MaxRetry (n : Int)
  | ProcessIn (d : Int)
  | Queue (name : String)
  deriving DecidableEq, Repr

/-- An `asynq.Task`: its type name, its payload bytes and its options. -/
structure Task where
  typename : String
  payload : Bytes
  opts : List AsynqOption
  deriving DecidableEq, Repr

/-- The function `asynq.NewTask`. -/
def NewTask (typename : String) (payload : Bytes) (opts : List AsynqOption) : Task :=
  { typename := typename, payload := payload, opts := opts }

/-- An `asynq.TaskInfo`, of which the code reads the queue and the retry budget. -/
structure TaskInfo where
  Queue : String
  MaxRetry : Int
  deriving DecidableEq, Repr

/-- The package `encoding/json` at one Go type `α`.  `Marshal` encodes a `*α`
(`none` is the nil pointer); `checkValid` is the well-formedness scan that
`json.Unmarshal` runs first; `decode` is the decoding into a `*α` that follows,
returning the error and the value then pointed to. -/
structure JsonCodec (α : Type) where
  Marshal : Option α → Except GoError Bytes
  checkValid : Bytes → Option GoError
  decode : Bytes → α → Option GoError × α

/-- The second argument of `json.Unmarshal`: a pointer to a variable, or the
value of a variable passed directly. -/
inductive JsonTarget (α : Type) where
  | pointer (pointee : α)
  | value (v : α)

/-- The error type `*json.InvalidUnmarshalError`. -/
def InvalidUnmarshalError : GoError := GoError.errorsNew "json: Unmarshal(non-pointer)"

/-- The function `json.Unmarshal(data, v)`: it checks that `data` is well
formed, rejects a `v` that is not a pointer, and otherwise decodes into the
pointee.  The result is the error and the value of the variable afterwards. -/
def jsonUnmarshal {α : Type} (codec : JsonCodec α) (data : Bytes) :
    JsonTarget α → Option GoError × α
  | JsonTarget.value v =>
    match codec.checkValid data with
    | some err => (some err, v)
    | none => (some InvalidUnmarshalError, v)
  | JsonTarget.pointer v =>
    match codec.checkValid data with
    | some err => (some err, v)
    | none => codec.decode data v

/-! ## Payloads and collaborators of the worker (`pkg/worker`) -/

namespace db

/-- The type `db.Candidate`, with the fields the sources assign in `RandomCandidate`. -/
structure Candidate where
  ID : Int
  Username : String
  FullName : String
  PhoneNumber : String
  Education : String
  Location : String
  SkillSet : List String
  IndustryOfInterest : String
  JobPreference : String
  TimeAvailability : Bytes
  AccountVerified : Bool
  ResumeFile : String
  ProfilePhoto : String
  Description : String
  deriving DecidableEq, Repr, Inhabited

end db

namespace es

/-- The type `es.PastExperience`. -/
structure PastExperience where
  ID : String
  Industry : String
  Employer : String
  JobTitle : String
  StartDate : Time
  EndDate : Time
  Present : Bool
  Description : String
  deriving DecidableEq, Repr, Inhabited

end es

/-- The constant `TaskSendVerifyEmail`. -/
def TaskSendVerifyEmail : String := "task:send_verify_email"
/-- The constant `TaskCreateCandidate`. -/
def TaskCreateCandidate : String := "task:create_candidate"
/-- The constant `TaskUpdateCandidate`. -/
def TaskUpdateCandidate : String := "task:update_candidate"
/-- The constant `TaskUpdateCandidateV2`. -/
def TaskUpdateCandidateV2 : String := "task:update_candidate_v2"
/-- The constant `TaskAddPastExperience`. -/
def TaskAddPastExperience : String := "task:add_past_experience"
/-- The constant `TaskUpdatePastExperience`. -/
def TaskUpdatePastExperience : String := "task:update_past_experience"
/-- The constant `TaskDeletePastExperience`. -/
def TaskDeletePastExperience : String := "task:delete_past_experience"
/-- The constant `TaskCreateCandidateApp`. -/
def TaskCreateCandidateApp : String := "task:create_candidate_app"
/-- The constant `TaskCreateEmployerApp`. -/
def TaskCreateEmployerApp : String := "task:create_employer_app"
/-- The constant `TaskDeleteCandidateApp`. -/
def TaskDeleteCandidateApp : String := "task:delete_candidate_app"
/-- The constant `TaskDeleteEmployerApp`. -/
def TaskDeleteEmployerApp : String := "task:delete_employer_app"

/-- The constant `QueueCritical`. -/
def QueueCritical : String := "critical"
/-- The constant `QueueDefault`. -/
def QueueDefault : String := "default"

/-- The type `PayloadSendVerifyEmail`. -/
structure PayloadSendVerifyEmail where
  Name : String
  Email : String
  VerificationLink : String
  deriving DecidableEq, Repr, Inhabited

/-- The type `PayloadCandidate`. -/
structure PayloadCandidate where
  Candidate : db.Candidate
  deriving DecidableEq, Repr, Inhabited

/-- The type `PayloadPastExperience`. -/
structure PayloadPastExperience where
  PastExperience : es.PastExperience
  UserUID : String
  deriving DecidableEq, Repr, Inhabited

/-- The type `PayloadDeletePastExperience`. -/
structure PayloadDeletePastExperience where
  PastExperienceID : String
  UserUID : String
  deriving DecidableEq, Repr, Inhabited

/-- The type `PayloadCreateApplication`. -/
structure PayloadCreateApplication where
  AppDoc : JsonMap
  DocID : String
  deriving Repr, Inhabited

/-- The type `PayloadDeleteApplication`. -/
structure PayloadDeleteApplication where
  DocID : String
  deriving DecidableEq, Repr, Inhabited

/-- The JSON encoding and decoding of each payload type. -/
structure Codecs where
  sendVerifyEmail : JsonCodec PayloadSendVerifyEmail
  candidate : JsonCodec PayloadCandidate
  pastExperience : JsonCodec PayloadPastExperience
  deletePastExperience : JsonCodec PayloadDeletePastExperience
  createApplication : JsonCodec PayloadCreateApplication
  deleteApplication : JsonCodec PayloadDeleteApplication

/-- A call a task handler makes to the document store or to the mailer. -/
inductive Call where
  | IndexCandidate (candidate : db.Candidate)
  | UpdateCandidate (candidate : db.Candidate)
  | AddPastExperienceToCandidate (userUID : String) (pastExperience : es.PastExperience)
  | UpdatePastExperienceInCandidate (userUID : String) (pastExperience : es.PastExperience)
  | DeletePastExperienceFromCandidate (userUID : String) (pastExperienceID : String)
  | IndexCandidateApplication (id : String) (application : JsonMap)
  | IndexEmployerApplication (id : String) (application : JsonMap)
  | DeleteCandidateApplication (id : String)
  | DeleteEmployerApplication (id : String)
  | SendEmail (subject content : String) (to_ cc bcc attachFiles : List String)
      (inlineFiles : List (String × String))
  deriving Repr

/-- What a task handler acts on: the state of the systems behind the document
store and the mailer, and the log of calls made to them, oldest first. -/
structure HandlerWorld (S : Type) where
  ext : S
  calls : List Call

/-- Make one logged call to a collaborator. -/
def invoke {S : Type} (call : Call) (f : S → Option GoError × S) (w : HandlerWorld S) :
    Option GoError × HandlerWorld S :=
  ((f w.ext).1, { ext := (f w.ext).2, calls := w.calls ++ [call] })

/-- The methods of the interface `elasticsearch.ESClient` that the handlers call. -/
structure ESClient (S : Type) where
  IndexCandidate : db.Candidate → S → Option GoError × S
  UpdateCandidate : db.Candidate → S → Option GoError × S
  AddPastExperienceToCandidate : String → es.PastExperience → S → Option GoError × S
  UpdatePastExperienceInCandidate : String → es.PastExperience → S → Option GoError × S
  DeletePastExperienceFromCandidate : String → String → S → Option GoError × S
  IndexCandidateApplication : String → JsonMap → S → Option GoError × S
  IndexEmployerApplication : String → JsonMap → S → Option GoError × S
  DeleteCandidateApplication : String → S → Option GoError × S
  DeleteEmployerApplication : String → S → Option GoError × S

/-- The interface `mail.EmailSender`. -/
structure EmailSender (S : Type) where
  SendEmail : (subject content : String) → (to_ cc bcc attachFiles : List String) →
    (inlineFiles : List (String × String)) → S → Option GoError × S

/-- The operating-system calls of `ProcessTaskSendVerifyEmail`: `os.Getwd`,
`filepath.Join`, and whether `os.Stat` of a path fails with a does-not-exist error. -/
structure OS where
  Getwd : Except GoError String
  Join : List String → String
  statIsNotExist : String → Bool

/-- The type `RedisTaskProcessor` as the handlers use it: the document-store
client and the mailer, with the JSON library, the operating system and the text
of the verification email (a function of the name and the link). -/
structure RedisTaskProcessor (S : Type) where
  esClient : ESClient S
  mailer : EmailSender S
  json : Codecs
  os : OS
  verifyEmailContent : String → String → String

/-! ## Task handlers (`pkg/worker/task_*.go`) -/

section Handlers

variable {S : Type}

/-- The result of a handler whose payload did not decode:
`fmt.Errorf("failed to unmarshal payload: %w", asynq.SkipRetry)`. -/
def unmarshalFailure : GoError := GoError.wrapf "failed to unmarshal payload" GoError.skipRetry

/-- The method `processCandidateTask`; `payload` is the `interface{}` argument,
which the callers fill with a pointer to a `PayloadCandidate`. -/
def processCandidateTask (processor : RedisTaskProcessor S) (task : Task)
    (payload : JsonTarget PayloadCandidate)
    (processFunc : db.Candidate → HandlerWorld S → Option GoError × HandlerWorld S)
    (w : HandlerWorld S) : Option GoError × HandlerWorld S :=
  match jsonUnmarshal processor.json.candidate task.payload payload with
  | (some _, _) => (some unmarshalFailure, w)
  | (none, decoded) =>
    let candidate := decoded.Candidate
    match processFunc candidate w with
    | (some err, w1) => (some (GoError.wrapf "failed to process candidate" err), w1)
    | (none, w1) => (none, w1)

/-- The method `ProcessTaskCreateCandidate`. -/
def ProcessTaskCreateCandidate (processor : RedisTaskProcessor S) (task : Task) :
    HandlerWorld S → Option GoError × HandlerWorld S :=
  processCandidateTask processor task (JsonTarget.pointer default)
    (fun candidate => invoke (Call.IndexCandidate candidate)
      (processor.esClient.IndexCandidate candidate))

/-- The method `ProcessTaskUpdateCandidate`. -/
def ProcessTaskUpdateCandidate (processor : RedisTaskProcessor S) (task : Task) :
    HandlerWorld S → Option GoError × HandlerWorld S :=
  processCandidateTask processor task (JsonTarget.pointer default)
    (fun candidate => invoke (Call.UpdateCandidate candidate)
      (processor.esClient.UpdateCandidate candidate))

/-- The method `processPastExperienceTask`. -/
def processPastExperienceTask (processor : RedisTaskProcessor S) (task : Task)
    (payload : JsonTarget PayloadPastExperience)
    (processFunc : String → es.PastExperience → HandlerWorld S →
      Option GoError × HandlerWorld S)
    (w : HandlerWorld S) : Option GoError × HandlerWorld S :=
  match jsonUnmarshal processor.json.pastExperience task.payload payload with
  | (some _, _) => (some unmarshalFailure, w)
  | (none, params) =>
    match processFunc params.UserUID params.PastExperience w with
    | (some err, w1) => (some (GoError.wrapf "failed to process candidate" err), w1)
    | (none, w1) => (none, w1)

/-- The method `processDeletePastExperienceTask`. -/
def processDeletePastExperienceTask (processor : RedisTaskProcessor S) (task : Task)
    (payload : JsonTarget PayloadDeletePastExperience)
    (processFunc : String → String → HandlerWorld S → Option GoError × HandlerWorld S)
    (w : HandlerWorld S) : Option GoError × HandlerWorld S :=
  match jsonUnmarshal processor.json.deletePastExperience task.payload payload with
  | (some _, _) => (some unmarshalFailure, w)
  | (none, params) =>
    match processFunc params.UserUID params.PastExperienceID w with
    | (some err, w1) => (some (GoError.wrapf "failed to process candidate" err), w1)
    | (none, w1) => (none, w1)

/-- The method `ProcessTaskAddPastExperience`. -/
def ProcessTaskAddPastExperience (processor : RedisTaskProcessor S) (task : Task) :
    HandlerWorld S → Option GoError × HandlerWorld S :=
  processPastExperienceTask processor task (JsonTarget.pointer default)
    (fun userUID pastExperience =>
      invoke (Call.AddPastExperienceToCandidate userUID pastExperience)
        (processor.esClient.AddPastExperienceToCandidate userUID pastExperience))

/-- The method `ProcessTaskUpdatePastExperience`. -/
def ProcessTaskUpdatePastExperience (processor : RedisTaskProcessor S) (task : Task) :
    HandlerWorld S → Option GoError × HandlerWorld S :=
  processPastExperienceTask processor task (JsonTarget.pointer default)
    (fun userUID pastExperience =>
      invoke (Call.UpdatePastExperienceInCandidate userUID pastExperience)
        (processor.esClient.UpdatePastExperienceInCandidate userUID pastExperience))

/-- The method `ProcessTaskDeletePastExperience`. -/
def ProcessTaskDeletePastExperience (processor : RedisTaskProcessor S) (task : Task) :
    HandlerWorld S → Option GoError × HandlerWorld S :=
  processDeletePastExperienceTask processor task (JsonTarget.pointer default)
    (fun userUID pastExperienceID =>
      invoke (Call.DeletePastExperienceFromCandidate userUID pastExperienceID)
        (processor.esClient.DeletePastExperienceFromCandidate userUID pastExperienceID))

/-- The method `processCreateApplicationTask`; `payload` is a
`PayloadCreateApplication` taken by value and handed to `json.Unmarshal` as it is. -/
def processCreateApplicationTask (processor : RedisTaskProcessor S) (task : Task)
    (payload : PayloadCreateApplication)
    (processFunc : String → JsonMap → HandlerWorld S → Option GoError × HandlerWorld S)
    (w : HandlerWorld S) : Option GoError × HandlerWorld S :=
  match jsonUnmarshal processor.json.createApplication task.payload
      (JsonTarget.value payload) with
  | (some _, _) => (some unmarshalFailure, w)
  | (none, payload) =>
    let appDoc := payload.AppDoc
    let docID := payload.DocID
    match processFunc docID appDoc w with
    | (some err, w1) => (some (GoError.wrapf "failed to process task" err), w1)
    | (none, w1) => (none, w1)

/-- The method `processDeleteApplicationTask`; `payload` is a
`PayloadDeleteApplication` taken by value and handed to `json.Unmarshal` as it is. -/
def processDeleteApplicationTask (processor : RedisTaskProcessor S) (task : Task)
    (payload : PayloadDeleteApplication)
    (processFunc : String → HandlerWorld S → Option GoError × HandlerWorld S)
    (w : HandlerWorld S) : Option GoError × HandlerWorld S :=
  match jsonUnmarshal processor.json.deleteApplication task.payload
      (JsonTarget.value payload) with
  | (some _, _) => (some unmarshalFailure, w)
  | (none, payload) =>
    let docID := payload.DocID
    match processFunc docID w with
    | (some err, w1) => (some (GoError.wrapf "failed to process task" err), w1)
    | (none, w1) => (none, w1)

/-- The method `ProcessTaskCreateCandidateApplication`. -/
def ProcessTaskCreateCandidateApplication (processor : RedisTaskProcessor S) (task : Task) :
    HandlerWorld S → Option GoError × HandlerWorld S :=
  processCreateApplicationTask processor task default
    (fun id application => invoke (Call.IndexCandidateApplication id application)
      (processor.esClient.IndexCandidateApplication id application))

/-- The method `ProcessTaskCreateEmployerApplication`. -/
def ProcessTaskCreateEmployerApplication (processor : RedisTaskProcessor S) (task : Task) :
    HandlerWorld S → Option GoError × HandlerWorld S :=
  processCreateApplicationTask processor task default
    (fun id application => invoke (Call.IndexEmployerApplication id application)
      (processor.esClient.IndexEmployerApplication id application))

/-- The method `ProcessTaskDeleteCandidateApplication`. -/
def ProcessTaskDeleteCandidateApplication (processor : RedisTaskProcessor S) (task : Task) :
    HandlerWorld S → Option GoError × HandlerWorld S :=
  processDeleteApplicationTask processor task default
    (fun id => invoke (Call.DeleteCandidateApplication id)
      (processor.esClient.DeleteCandidateApplication id))

/-- The method `ProcessTaskDeleteEmployerApplication`. -/
def ProcessTaskDeleteEmployerApplication (processor : RedisTaskProcessor S) (task : Task) :
    HandlerWorld S → Option GoError × HandlerWorld S :=
  processDeleteApplicationTask processor task default
    (fun id => invoke (Call.DeleteEmployerApplication id)
      (processor.esClient.DeleteEmployerApplication id))

/-- The method `ProcessTaskSendVerifyEmail`. -/
def ProcessTaskSendVerifyEmail (processor : RedisTaskProcessor S) (task : Task)
    (w : HandlerWorld S) : Option GoError × HandlerWorld S :=
  match jsonUnmarshal processor.json.sendVerifyEmail task.payload
      (JsonTarget.pointer default) with
  | (some _, _) => (some unmarshalFailure, w)
  | (none, payload) =>
    if payload.Name = "" ∨ payload.Email = "" ∨ payload.VerificationLink = "" then
      (some (GoError.wrapf "missing required fields" GoError.skipRetry), w)
    else
      match processor.os.Getwd with
      | Except.error err => (some (GoError.wrapf "failed to get working directory" err), w)
      | Except.ok workingDir =>
        let logoPath := processor.os.Join [workingDir, "assets", "images", "logo.png"]
        let iconPath := processor.os.Join [workingDir, "assets", "images", "email-icon.png"]
        if processor.os.statIsNotExist logoPath then
          (some (GoError.errorsNew ("logo image not found: " ++ logoPath)), w)
        else if processor.os.statIsNotExist iconPath then
          (some (GoError.errorsNew ("icon image not found: " ++ iconPath)), w)
        else
          let attachments := [("logo", logoPath), ("email-icon", iconPath)]
          let subject := "Welcome to Part Timer"
          let content := processor.verifyEmailContent payload.Name payload.VerificationLink
          let to_ := [payload.Email]
          match invoke (Call.SendEmail subject content to_ [] [] [] attachments)
              (processor.mailer.SendEmail subject content to_ [] [] [] attachments) w with
          | (some err, w1) => (some (GoError.wrapf "failed to send verify email" err), w1)
          | (none, w1) => (none, w1)

end Handlers

/-! ## Task processor start-up (`pkg/worker/processor.go`) -/

/-- The ten `Process...` methods of `RedisTaskProcessor`, by name. -/
inductive ProcessFn where
  | ProcessTaskSendVerifyEmail
  | ProcessTaskCreateCandidate
  | ProcessTaskUpdateCandidate
  | ProcessTaskAddPastExperience
  | ProcessTaskUpdatePastExperience
  | ProcessTaskDeletePastExperience
  | ProcessTaskCreateCandidateApplication
  | ProcessTaskCreateEmployerApplication
  | ProcessTaskDeleteCandidateApplication
  | ProcessTaskDeleteEmployerApplication
  deriving DecidableEq, Repr

/-- The method a name stands for. -/
def runProcessFn {S : Type} (processor : RedisTaskProcessor S) :
    ProcessFn → Task → HandlerWorld S → Option GoError × HandlerWorld S
  | ProcessFn.ProcessTaskSendVerifyEmail => ProcessTaskSendVerifyEmail processor
  | ProcessFn.ProcessTaskCreateCandidate => ProcessTaskCreateCandidate processor
  | ProcessFn.ProcessTaskUpdateCandidate => ProcessTaskUpdateCandidate processor
  | ProcessFn.ProcessTaskAddPastExperience => ProcessTaskAddPastExperience processor
  | ProcessFn.ProcessTaskUpdatePastExperience => ProcessTaskUpdatePastExperience processor
  | ProcessFn.ProcessTaskDeletePastExperience => ProcessTaskDeletePastExperience processor
  | ProcessFn.ProcessTaskCreateCandidateApplication =>
    ProcessTaskCreateCandidateApplication processor
  | ProcessFn.ProcessTaskCreateEmployerApplication =>
    ProcessTaskCreateEmployerApplication processor
  | ProcessFn.ProcessTaskDeleteCandidateApplication =>
    ProcessTaskDeleteCandidateApplication processor
  | ProcessFn.ProcessTaskDeleteEmployerApplication =>
    ProcessTaskDeleteEmployerApplication processor

/-- An `asynq.ServeMux`: the registered patterns with their handlers, in the
order of registration. -/
structure ServeMux where
  m : List (String × ProcessFn)
  deriving DecidableEq, Repr

/-- The function `asynq.NewServeMux`. -/
def NewServeMux : ServeMux := { m := [] }

/-- The method `ServeMux.HandleFunc` of asynq: it panics (`Except.error`) on a
pattern that is empty or all white space and on a pattern that is already registered, and otherwise adds
the registration. -/
def ServeMux.HandleFunc (mux : ServeMux) (pattern : String) (handler : ProcessFn) :
    Except String ServeMux :=
  if pattern.toList.all Char.isWhitespace then Except.error "asynq: invalid pattern"
  else if mux.m.any (fun e => decide (e.1 = pattern)) then
    Except.error ("asynq: multiple registrations for " ++ pattern)
  else Except.ok { m := mux.m ++ [(pattern, handler)] }

/-- Of two registrations, the one with the longer pattern (the first on a tie). -/
def longerPattern (best : Option (String × ProcessFn)) (e : String × ProcessFn) :
    Option (String × ProcessFn) :=
  match best with
  | none => some e
  | some b => if b.1.length < e.1.length then some e else some b

/-- The handler asynq's `ServeMux` selects for a task type: the registration
whose pattern equals the type if there is one, and otherwise the registration
with the longest pattern that is a prefix of the type. -/
def ServeMux.matchType (mux : ServeMux) (typename : String) : Option ProcessFn :=
  match mux.m.find? (fun e => decide (e.1 = typename)) with
  | some e => some e.2
  | none =>
    ((mux.m.filter (fun e => e.1.toList.isPrefixOf typename.toList)).foldl
      longerPattern none).map Prod.snd

/-- The method `RedisTaskProcessor.Start`: the multiplexer it builds and hands
to `server.Start`, or the panic of a registration. -/
def RedisTaskProcessor.Start : Except String ServeMux := do
  let mux := NewServeMux
  let mux ← mux.HandleFunc TaskSendVerifyEmail ProcessFn.ProcessTaskSendVerifyEmail
  let mux ← mux.HandleFunc TaskCreateCandidate ProcessFn.ProcessTaskCreateCandidate
  let mux ← mux.HandleFunc TaskUpdateCandidate ProcessFn.ProcessTaskUpdateCandidate
  let mux ← mux.HandleFunc TaskAddPastExperience ProcessFn.ProcessTaskAddPastExperience
  let mux ← mux.HandleFunc TaskUpdatePastExperience ProcessFn.ProcessTaskUpdatePastExperience
  let mux ← mux.HandleFunc TaskDeletePastExperience ProcessFn.ProcessTaskDeletePastExperience
  let mux ← mux.HandleFunc TaskCreateCandidateApp ProcessFn.ProcessTaskCreateCandidateApplication
  let mux ← mux.HandleFunc TaskCreateEmployerApp ProcessFn.ProcessTaskCreateEmployerApplication
  let mux ← mux.HandleFunc TaskDeleteCandidateApp ProcessFn.ProcessTaskDeleteCandidateApplication
  let mux ← mux.HandleFunc TaskDeleteEmployerApp ProcessFn.ProcessTaskDeleteEmployerApplication
  return mux

/-- The registrations `Start` makes (none if a registration panics). -/
def startRegistrations : List (String × ProcessFn) :=
  match RedisTaskProcessor.Start with
  | Except.ok mux => mux.m
  | Except.error _ => []

/-- The task-kind constants declared in package `worker`, in the order of the
source files `task_send_verify_email.go`, `task_candidate_es.go`,
`task_past_experience_es.go` and `task_application.go`. -/
def declaredTaskKinds : List String :=
  [TaskSendVerifyEmail, TaskCreateCandidate, TaskUpdateCandidate, TaskUpdateCandidateV2,
    TaskAddPastExperience, TaskUpdatePastExperience, TaskDeletePastExperience,
    TaskCreateCandidateApp, TaskCreateEmployerApp, TaskDeleteCandidateApp,
    TaskDeleteEmployerApp]

/-- The number of registrations `Start` makes for a task kind. -/
def registrationCount (kind : String) : Nat :=
  (startRegistrations.filter (fun e => decide (e.1 = kind))).length

/-! ## Task distributor (`pkg/worker/distributor.go`) -/

/-- What the distributor acts on: the state of the broker and the log of tasks
handed to the broker's enqueue, oldest first. -/
structure BrokerWorld (B : Type) where
  broker : B
  enqueueCalls : List Task

/-- The asynq client: `EnqueueContext` returns the task info or an error. -/
structure AsynqClient (B : Type) where
  EnqueueContext : Task → B → Except GoError TaskInfo × B

/-- The type `RedisTaskDistributor`, with the JSON library it encodes payloads with. -/
structure RedisTaskDistributor (B : Type) where
  client : AsynqClient B
  json : Codecs

/-- One logged call of `distributor.client.EnqueueContext`. -/
def enqueueContext {B : Type} (client : AsynqClient B) (task : Task) (w : BrokerWorld B) :
    Except GoError TaskInfo × BrokerWorld B :=
  ((client.EnqueueContext task w.broker).1,
    { broker := (client.EnqueueContext task w.broker).2,
      enqueueCalls := w.enqueueCalls ++ [task] })

/-- The method `distributeTask`; `Marshal` is `json.Marshal` at the dynamic
type of `payload`. -/
def distributeTask {B α : Type} (distributor : RedisTaskDistributor B)
    (Marshal : α → Except GoError Bytes) (taskType : String) (payload : α)
    (opts : List AsynqOption) (w : BrokerWorld B) : Option GoError × BrokerWorld B :=
  match Marshal payload with
  | Except.error err => (some (GoError.wrapf "failed to marshal task payload" err), w)
  | Except.ok jsonPayload =>
    let task := NewTask taskType jsonPayload opts
    match enqueueContext distributor.client task w with
    | (Except.error err, w1) => (some (GoError.wrapf "failed to enqueue task" err), w1)
    | (Except.ok _, w1) => (none, w1)

/-- The method `DistributeTaskSendVerifyEmail`, which does not go through `distributeTask`. -/
def DistributeTaskSendVerifyEmail {B : Type} (distributor : RedisTaskDistributor B)
    (payload : Option PayloadSendVerifyEmail) (opts : List AsynqOption) (w : BrokerWorld B) :
    Option GoError × BrokerWorld B :=
  match distributor.json.sendVerifyEmail.Marshal payload with
  | Except.error err => (some (GoError.wrapf "failed to marshal task payload" err), w)
  | Except.ok jsonPayload =>
    let task := NewTask TaskSendVerifyEmail jsonPayload opts
    match enqueueContext distributor.client task w with
    | (Except.error err, w1) => (some (GoError.wrapf "failed to enqueue task" err), w1)
    | (Except.ok _, w1) => (none, w1)

/-- The method `DistributeTaskCreateCandidate`. -/
def DistributeTaskCreateCandidate {B : Type} (distributor : RedisTaskDistributor B)
    (payload : Option PayloadCandidate) (opts : List AsynqOption) :
    BrokerWorld B → Option GoError × BrokerWorld B :=
  distributeTask distributor distributor.json.candidate.Marshal TaskCreateCandidate payload opts

/-- The method `DistributeTaskUpdateCandidate`. -/
def DistributeTaskUpdateCandidate {B : Type} (distributor : RedisTaskDistributor B)
    (payload : Option PayloadCandidate) (opts : List AsynqOption) :
    BrokerWorld B → Option GoError × BrokerWorld B :=
  distributeTask distributor distributor.json.candidate.Marshal TaskUpdateCandidate payload opts

/-- The method `DistributeTaskAddPastExperience`. -/
def DistributeTaskAddPastExperience {B : Type} (distributor : RedisTaskDistributor B)
    (payload : Option PayloadPastExperience) (opts : List AsynqOption) :
    BrokerWorld B → Option GoError × BrokerWorld B :=
  distributeTask distributor distributor.json.pastExperience.Marshal TaskAddPastExperience
    payload opts

/-- The method `DistributeTaskUpdatePastExperience`. -/
def DistributeTaskUpdatePastExperience {B : Type} (distributor : RedisTaskDistributor B)
    (payload : Option PayloadPastExperience) (opts : List AsynqOption) :
    BrokerWorld B → Option GoError × BrokerWorld B :=
  distributeTask distributor distributor.json.pastExperience.Marshal TaskUpdatePastExperience
    payload opts

/-- The method `DistributeTaskDeletePastExperience`. -/
def DistributeTaskDeletePastExperience {B : Type} (distributor : RedisTaskDistributor B)
    (payload : Option PayloadDeletePastExperience) (opts : List AsynqOption) :
    BrokerWorld B → Option GoError × BrokerWorld B :=
  distributeTask distributor distributor.json.deletePastExperience.Marshal
    TaskDeletePastExperience payload opts

/-- The method `DistributeTaskCreateCandidateApplication`. -/
def DistributeTaskCreateCandidateApplication {B : Type} (distributor : RedisTaskDistributor B)
    (payload : Option PayloadCreateApplication) (opts : List AsynqOption) :
    BrokerWorld B → Option GoError × BrokerWorld B :=
  distributeTask distributor distributor.json.createApplication.Marshal TaskCreateCandidateApp
    payload opts

/-- The method `DistributeTaskCreateEmployerApplication`. -/
def DistributeTaskCreateEmployerApplication {B : Type} (distributor : RedisTaskDistributor B)
    (payload : Option PayloadCreateApplication) (opts : List AsynqOption) :
    BrokerWorld B → Option GoError × BrokerWorld B :=
  distributeTask distributor distributor.json.createApplication.Marshal TaskCreateEmployerApp
    payload opts

/-- The method `DistributeTaskDeleteCandidateApplication`. -/
def DistributeTaskDeleteCandidateApplication {B : Type} (distributor : RedisTaskDistributor B)
    (payload : Option PayloadDeleteApplication) (opts : List AsynqOption) :
    BrokerWorld B → Option GoError × BrokerWorld B :=
  distributeTask distributor distributor.json.deleteApplication.Marshal TaskDeleteCandidateApp
    payload opts

/-- The method `DistributeTaskDeleteEmployerApplication`. -/
def DistributeTaskDeleteEmployerApplication {B : Type} (distributor : RedisTaskDistributor B)
    (payload : Option PayloadDeleteApplication) (opts : List AsynqOption) :
    BrokerWorld B → Option GoError × BrokerWorld B :=
  distributeTask distributor distributor.json.deleteApplication.Marshal TaskDeleteEmployerApp
    payload opts

/-! ### Decoding and calls, per handler -/

/-- Whether the payload bytes decode as JSON into the payload type of the task
kind that the handler is registered for (the type its distribute function
encodes), when `json.Unmarshal` is given a pointer to a fresh value of that type. -/
def payloadDecodes (json : Codecs) : ProcessFn → Bytes → Bool
  | ProcessFn.ProcessTaskSendVerifyEmail, data =>
    (jsonUnmarshal json.sendVerifyEmail data (JsonTarget.pointer default)).1.isNone
  | ProcessFn.ProcessTaskCreateCandidate, data =>
    (jsonUnmarshal json.candidate data (JsonTarget.pointer default)).1.isNone
  | ProcessFn.ProcessTaskUpdateCandidate, data =>
    (jsonUnmarshal json.candidate data (JsonTarget.pointer default)).1.isNone
  | ProcessFn.ProcessTaskAddPastExperience, data =>
    (jsonUnmarshal json.pastExperience data (JsonTarget.pointer default)).1.isNone
  | ProcessFn.ProcessTaskUpdatePastExperience, data =>
    (jsonUnmarshal json.pastExperience data (JsonTarget.pointer default)).1.isNone
  | ProcessFn.ProcessTaskDeletePastExperience, data =>
    (jsonUnmarshal json.deletePastExperience data (JsonTarget.pointer default)).1.isNone
  | ProcessFn.ProcessTaskCreateCandidateApplication, data =>
    (jsonUnmarshal json.createApplication data (JsonTarget.pointer default)).1.isNone
  | ProcessFn.ProcessTaskCreateEmployerApplication, data =>
    (jsonUnmarshal json.createApplication data (JsonTarget.pointer default)).1.isNone
  | ProcessFn.ProcessTaskDeleteCandidateApplication, data =>
    (jsonUnmarshal json.deleteApplication data (JsonTarget.pointer default)).1.isNone
  | ProcessFn.ProcessTaskDeleteEmployerApplication, data =>
    (jsonUnmarshal json.deleteApplication data (JsonTarget.pointer default)).1.isNone

/-- What a logged call does when it is made on the processor's collaborators. -/
def performCall {S : Type} (processor : RedisTaskProcessor S) : Call → S → Option GoError × S
  | Call.IndexCandidate candidate => processor.esClient.IndexCandidate candidate
  | Call.UpdateCandidate candidate => processor.esClient.UpdateCandidate candidate
  | Call.AddPastExperienceToCandidate userUID pastExperience =>
    processor.esClient.AddPastExperienceToCandidate userUID pastExperience
  | Call.UpdatePastExperienceInCandidate userUID pastExperience =>
    processor.esClient.UpdatePastExperienceInCandidate userUID pastExperience
  | Call.DeletePastExperienceFromCandidate userUID pastExperienceID =>
    processor.esClient.DeletePastExperienceFromCandidate userUID pastExperienceID
  | Call.IndexCandidateApplication id application =>
    processor.esClient.IndexCandidateApplication id application
  | Call.IndexEmployerApplication id application =>
    processor.esClient.IndexEmployerApplication id application
  | Call.DeleteCandidateApplication id => processor.esClient.DeleteCandidateApplication id
  | Call.DeleteEmployerApplication id => processor.esClient.DeleteEmployerApplication id
  | Call.SendEmail subject content to_ cc bcc attachFiles inlineFiles =>
    processor.mailer.SendEmail subject content to_ cc bcc attachFiles inlineFiles

/-- The candidate, past-experience and verify-email handlers. -/
def candidateExperienceEmailHandlers : List ProcessFn :=
  [ProcessFn.ProcessTaskCreateCandidate, ProcessFn.ProcessTaskUpdateCandidate,
    ProcessFn.ProcessTaskAddPastExperience, ProcessFn.ProcessTaskUpdatePastExperience,
    ProcessFn.ProcessTaskDeletePastExperience, ProcessFn.ProcessTaskSendVerifyEmail]

/-! ### A small concrete processor -/

/-- The bytes of an ASCII string. -/
def bytesOf (s : String) : Bytes := s.toList.map (fun c => UInt8.ofNat c.toNat)

/-- A JSON library that knows one encoding: `good` is the encoding of `value`,
and every other byte string is rejected as malformed. -/
def demoCodec {α : Type} (good : Bytes) (value : α) : JsonCodec α :=
  { Marshal := fun _ => Except.ok good,
    checkValid := fun data =>
      if data = good then none else some (GoError.errorsNew "invalid character"),
    decode := fun _ _ => (none, value) }

/-- The application payload of the scenario: document id `5_7`, document `message: hi`. -/
def demoCreateApplication : PayloadCreateApplication :=
  { AppDoc := [("message", Json.str "hi")], DocID := "5_7" }

/-- The JSON encoding of `demoCreateApplication`. -/
def demoCreateApplicationBytes : Bytes :=
  bytesOf "\x7b\"app_doc\":\x7b\"message\":\"hi\"\x7d,\"doc_id\":\"5_7\"\x7d"

/-- A verification-email payload with all three fields set. -/
def demoSendVerifyEmail : PayloadSendVerifyEmail :=
  { Name := "Ann", Email := "ann@example.com", VerificationLink := "https://example.com/v" }

/-- A candidate payload: the zero candidate with id 5. -/
def demoCandidate : PayloadCandidate := { Candidate := { (default : db.Candidate) with ID := 5 } }

/-- A past-experience payload for user `u1`. -/
def demoPastExperience : PayloadPastExperience :=
  { PastExperience := { (default : es.PastExperience) with ID := "e1" }, UserUID := "u1" }

/-- The byte string that stands for the encoding of the other payloads. -/
def demoBytes : Bytes := bytesOf "\x7b\x7d"

/-- A byte string that is not JSON. -/
def demoGarbage : Bytes := bytesOf "not json"

/-- The JSON library of the concrete processor. -/
def demoCodecs : Codecs :=
  { sendVerifyEmail := demoCodec demoBytes demoSendVerifyEmail,
    candidate := demoCodec demoBytes demoCandidate,
    pastExperience := demoCodec demoBytes demoPastExperience,
    deletePastExperience := demoCodec demoBytes { PastExperienceID := "e1", UserUID := "u1" },
    createApplication := demoCodec demoCreateApplicationBytes demoCreateApplication,
    deleteApplication := demoCodec demoBytes { DocID := "5_7" } }

/-- A document store kept as a list of documents by id.  Every operation
returns `fail`; when `fail` is nil an indexing operation stores the document
and a deletion removes it. -/
def demoESClient (fail : Option GoError) : ESClient (List (String × JsonMap)) :=
  { IndexCandidate := fun _ s => (fail, s),
    UpdateCandidate := fun _ s => (fail, s),
    AddPastExperienceToCandidate := fun _ _ s => (fail, s),
    UpdatePastExperienceInCandidate := fun _ _ s => (fail, s),
    DeletePastExperienceFromCandidate := fun _ _ s => (fail, s),
    IndexCandidateApplication := fun id doc s =>
      (fail, if fail.isNone then (id, doc) :: s.filter (fun e => decide (e.1 ≠ id)) else s),
    IndexEmployerApplication := fun id doc s =>
      (fail, if fail.isNone then (id, doc) :: s.filter (fun e => decide (e.1 ≠ id)) else s),
    DeleteCandidateApplication := fun id s =>
      (fail, if fail.isNone then s.filter (fun e => decide (e.1 ≠ id)) else s),
    DeleteEmployerApplication := fun id s =>
      (fail, if fail.isNone then s.filter (fun e => decide (e.1 ≠ id)) else s) }

/-- The concrete processor: the store above, a mailer that returns `fail`, a
working directory `/srv` in which every file exists. -/
def demoProcessor (fail : Option GoError) : RedisTaskProcessor (List (String × JsonMap)) :=
  { esClient := demoESClient fail,
    mailer := { SendEmail := fun _ _ _ _ _ _ _ s => (fail, s) },
    json := demoCodecs,
    os := { Getwd := Except.ok "/srv", Join := fun parts => "/".intercalate parts,
            statIsNotExist := fun _ => false },
    verifyEmailContent := fun name link => "Hi! " ++ name ++ " " ++ link }

/-- The task of the scenario: kind create-candidate-application, payload the
encoding of `demoCreateApplication`. -/
def demoCreateApplicationTask : Task :=
  { typename := TaskCreateCandidateApp, payload := demoCreateApplicationBytes, opts := [] }

/-- A handler world with an empty store and no calls made. -/
def emptyHandlerWorld : HandlerWorld (List (String × JsonMap)) := { ext := [], calls := [] }

/-- The error of an unreachable backend in the concrete processor. -/
def backendDown : GoError := GoError.errorsNew "connection refused"

/-- The call the verify-email handler of the concrete processor makes for `demoSendVerifyEmail`. -/
def demoSendEmailCall : Call :=
  Call.SendEmail "Welcome to Part Timer" "Hi! Ann https://example.com/v" ["ann@example.com"]
    [] [] [] [("logo", "/srv/assets/images/logo.png"),
      ("email-icon", "/srv/assets/images/email-icon.png")]

/-! ### The contract of an enqueue -/

/-- The contract of an enqueue, for an outcome `out` of a distribute function
started in world `w` with the encoder `Marshal`, the task type and the options
it uses: the broker's enqueue is called at most once; if encoding the
payload fails, an error is returned and the broker is not called; if the
broker's enqueue fails with `err`, the error returned wraps `err`; and nil is
returned only if the payload was encoded and the broker accepted the task. -/
def EnqueueContract {B α : Type} (client : AsynqClient B) (Marshal : α → Except GoError Bytes)
    (taskType : String) (payload : α) (opts : List AsynqOption) (w : BrokerWorld B)
    (out : Option GoError × BrokerWorld B) : Prop :=
  out.2.enqueueCalls.length ≤ w.enqueueCalls.length + 1 ∧
  (∀ err, Marshal payload = Except.error err → out.1 ≠ none ∧ out.2 = w) ∧
  (∀ jsonPayload err, Marshal payload = Except.ok jsonPayload →
    (client.EnqueueContext (NewTask taskType jsonPayload opts) w.broker).1 = Except.error err →
    out.1 ≠ none ∧ wraps out.1 err = true ∧
      out.2.enqueueCalls = w.enqueueCalls ++ [NewTask taskType jsonPayload opts]) ∧
  (out.1 = none → ∃ jsonPayload info, Marshal payload = Except.ok jsonPayload ∧
    (client.EnqueueContext (NewTask taskType jsonPayload opts) w.broker).1 = Except.ok info ∧
    out.2.enqueueCalls = w.enqueueCalls ++ [NewTask taskType jsonPayload opts])

/-- A broker kept as the list of accepted tasks: it rejects every task with
`fail` when `fail` is an error, and accepts every task otherwise. -/
def demoClient (fail : Option GoError) : AsynqClient (List Task) :=
  { EnqueueContext := fun task b =>
      match fail with
      | some e => (Except.error e, b)
      | none => (Except.ok { Queue := QueueDefault, MaxRetry := 25 }, b ++ [task]) }

/-- The concrete distributor over that broker. -/
def demoDistributor (fail : Option GoError) : RedisTaskDistributor (List Task) :=
  { client := demoClient fail, json := demoCodecs }

/-- An encoder that fails, as `json.Marshal` does on a document holding a NaN. -/
def failingMarshal : Option PayloadCreateApplication → Except GoError Bytes :=
  fun _ => Except.error (GoError.errorsNew "json: unsupported value: NaN")

/-- A broker world with an empty queue and no calls made. -/
def emptyBrokerWorld : BrokerWorld (List Task) := { broker := [], enqueueCalls := [] }

/-! ### Kinds and payload types, per distribute method -/

/-- The ten `DistributeTask...` methods of `RedisTaskDistributor`, by name. -/
inductive DistributeFn where
  | DistributeTaskSendVerifyEmail
  | DistributeTaskCreateCandidate
  | DistributeTaskUpdateCandidate
  | DistributeTaskAddPastExperience
  | DistributeTaskUpdatePastExperience
  | DistributeTaskDeletePastExperience
  | DistributeTaskCreateCandidateApplication
  | DistributeTaskCreateEmployerApplication
  | DistributeTaskDeleteCandidateApplication
  | DistributeTaskDeleteEmployerApplication
  deriving DecidableEq, Repr

/-- The six payload types of package `worker` that are encoded into tasks, by name. -/
inductive PayloadType where
  | PayloadSendVerifyEmail
  | PayloadCandidate
  | PayloadPastExperience
  | PayloadDeletePastExperience
  | PayloadCreateApplication
  | PayloadDeleteApplication
  deriving DecidableEq, Repr

/-- The type a payload-type name stands for. -/
def PayloadType.type : PayloadType → Type
  | PayloadType.PayloadSendVerifyEmail => Ptmr.PayloadSendVerifyEmail
  | PayloadType.PayloadCandidate => Ptmr.PayloadCandidate
  | PayloadType.PayloadPastExperience => Ptmr.PayloadPastExperience
  | PayloadType.PayloadDeletePastExperience => Ptmr.PayloadDeletePastExperience
  | PayloadType.PayloadCreateApplication => Ptmr.PayloadCreateApplication
  | PayloadType.PayloadDeleteApplication => Ptmr.PayloadDeleteApplication

/-- The payload type in the signature of each distribute method. -/
def DistributeFn.payloadType : DistributeFn → PayloadType
  | DistributeFn.DistributeTaskSendVerifyEmail => PayloadType.PayloadSendVerifyEmail
  | DistributeFn.DistributeTaskCreateCandidate => PayloadType.PayloadCandidate
  | DistributeFn.DistributeTaskUpdateCandidate => PayloadType.PayloadCandidate
  | DistributeFn.DistributeTaskAddPastExperience => PayloadType.PayloadPastExperience
  | DistributeFn.DistributeTaskUpdatePastExperience => PayloadType.PayloadPastExperience
  | DistributeFn.DistributeTaskDeletePastExperience => PayloadType.PayloadDeletePastExperience
  | DistributeFn.DistributeTaskCreateCandidateApplication => PayloadType.PayloadCreateApplication
  | DistributeFn.DistributeTaskCreateEmployerApplication => PayloadType.PayloadCreateApplication
  | DistributeFn.DistributeTaskDeleteCandidateApplication => PayloadType.PayloadDeleteApplication
  | DistributeFn.DistributeTaskDeleteEmployerApplication => PayloadType.PayloadDeleteApplication

/-- The task-type constant each distribute method enqueues under. -/
def DistributeFn.taskType : DistributeFn → String
  | DistributeFn.DistributeTaskSendVerifyEmail => TaskSendVerifyEmail
  | DistributeFn.DistributeTaskCreateCandidate => TaskCreateCandidate
  | DistributeFn.DistributeTaskUpdateCandidate => TaskUpdateCandidate
  | DistributeFn.DistributeTaskAddPastExperience => TaskAddPastExperience
  | DistributeFn.DistributeTaskUpdatePastExperience => TaskUpdatePastExperience
  | DistributeFn.DistributeTaskDeletePastExperience => TaskDeletePastExperience
  | DistributeFn.DistributeTaskCreateCandidateApplication => TaskCreateCandidateApp
  | DistributeFn.DistributeTaskCreateEmployerApplication => TaskCreateEmployerApp
  | DistributeFn.DistributeTaskDeleteCandidateApplication => TaskDeleteCandidateApp
  | DistributeFn.DistributeTaskDeleteEmployerApplication => TaskDeleteEmployerApp

/-- The method a distribute name stands for. -/
def runDistributeFn {B : Type} (distributor : RedisTaskDistributor B) :
    (d : DistributeFn) → Option d.payloadType.type → List AsynqOption → BrokerWorld B →
      Option GoError × BrokerWorld B
  | DistributeFn.DistributeTaskSendVerifyEmail => Ptmr.DistributeTaskSendVerifyEmail distributor
  | DistributeFn.DistributeTaskCreateCandidate => Ptmr.DistributeTaskCreateCandidate distributor
  | DistributeFn.DistributeTaskUpdateCandidate => Ptmr.DistributeTaskUpdateCandidate distributor
  | DistributeFn.DistributeTaskAddPastExperience => Ptmr.DistributeTaskAddPastExperience distributor
  | DistributeFn.DistributeTaskUpdatePastExperience => Ptmr.DistributeTaskUpdatePastExperience
      distributor
  | DistributeFn.DistributeTaskDeletePastExperience => Ptmr.DistributeTaskDeletePastExperience
      distributor
  | DistributeFn.DistributeTaskCreateCandidateApplication =>
      Ptmr.DistributeTaskCreateCandidateApplication distributor
  | DistributeFn.DistributeTaskCreateEmployerApplication =>
      Ptmr.DistributeTaskCreateEmployerApplication distributor
  | DistributeFn.DistributeTaskDeleteCandidateApplication =>
      Ptmr.DistributeTaskDeleteCandidateApplication distributor
  | DistributeFn.DistributeTaskDeleteEmployerApplication =>
      Ptmr.DistributeTaskDeleteEmployerApplication distributor

/-! ## Past-experience endpoints (`cmd/UserService/api/past_experience.go`) -/

/-- The interface `worker.TaskDistributor`, acting on a world `W`. -/
structure TaskDistributor (W : Type) where
  DistributeTaskSendVerifyEmail :
    Option PayloadSendVerifyEmail → List AsynqOption → W → Option GoError × W
  DistributeTaskCreateCandidate :
    Option PayloadCandidate → List AsynqOption → W → Option GoError × W
  DistributeTaskUpdateCandidate :
    Option PayloadCandidate → List AsynqOption → W → Option GoError × W
  DistributeTaskAddPastExperience :
    Option PayloadPastExperience → List AsynqOption → W → Option GoError × W
  DistributeTaskUpdatePastExperience :
    Option PayloadPastExperience → List AsynqOption → W → Option GoError × W
  DistributeTaskDeletePastExperience :
    Option PayloadDeletePastExperience → List AsynqOption → W → Option GoError × W
  DistributeTaskCreateCandidateApplication :
    Option PayloadCreateApplication → List AsynqOption → W → Option GoError × W
  DistributeTaskCreateEmployerApplication :
    Option PayloadCreateApplication → List AsynqOption → W → Option GoError × W
  DistributeTaskDeleteEmployerApplication :
    Option PayloadDeleteApplication → List AsynqOption → W → Option GoError × W
  DistributeTaskDeleteCandidateApplication :
    Option PayloadDeleteApplication → List AsynqOption → W → Option GoError × W

/-- The `RedisTaskDistributor` as an implementation of the interface. -/
def RedisTaskDistributor.toTaskDistributor {B : Type} (distributor : RedisTaskDistributor B) :
    TaskDistributor (BrokerWorld B) :=
  { DistributeTaskSendVerifyEmail := DistributeTaskSendVerifyEmail distributor,
    DistributeTaskCreateCandidate := DistributeTaskCreateCandidate distributor,
    DistributeTaskUpdateCandidate := DistributeTaskUpdateCandidate distributor,
    DistributeTaskAddPastExperience := DistributeTaskAddPastExperience distributor,
    DistributeTaskUpdatePastExperience := DistributeTaskUpdatePastExperience distributor,
    DistributeTaskDeletePastExperience := DistributeTaskDeletePastExperience distributor,
    DistributeTaskCreateCandidateApplication :=
      DistributeTaskCreateCandidateApplication distributor,
    DistributeTaskCreateEmployerApplication :=
      DistributeTaskCreateEmployerApplication distributor,
    DistributeTaskDeleteEmployerApplication :=
      DistributeTaskDeleteEmployerApplication distributor,
    DistributeTaskDeleteCandidateApplication :=
      DistributeTaskDeleteCandidateApplication distributor }

/-- A value stored in a `gin.Context` under a key: a `map[string]interface{}`
or a value of another type. -/
inductive ContextValue where
  | claims (claimsMap : JsonMap)
  | other

/-- The parts of a `gin.Context` a past-experience endpoint reads: the result
of binding the request body to the request type, and the value stored under
`AuthorizationPayloadKey`, if any. -/
structure GinContext (Req : Type) where
  ShouldBindJSON : Except GoError Req
  authorizationPayload : Option ContextValue

/-- An HTTP response written with `ctx.JSON`: the status code and the body. -/
structure Response where
  status : Nat
  body : JsonMap

/-- The constant `http.StatusOK`. -/
def StatusOK : Nat := 200
/-- The constant `http.StatusBadRequest`. -/
def StatusBadRequest : Nat := 400
/-- The constant `http.StatusUnauthorized`. -/
def StatusUnauthorized : Nat := 401
/-- The constant `http.StatusInternalServerError`. -/
def StatusInternalServerError : Nat := 500

/-- The constant `time.Second`, in nanoseconds. -/
def Second : Int := 1000000000

/-- The function `errorResponse`. -/
def errorResponse (err : GoError) : JsonMap := [("error", Json.str err.Error)]

/-- The function `statusResponse`. -/
def statusResponse (msg : String) : JsonMap := [("status", Json.str msg)]

/-- The function `firebase.GetUIDFromClaims`. -/
def GetUIDFromClaims {Req : Type} (ctx : GinContext Req) : String × Option GoError :=
  match ctx.authorizationPayload with
  | none => ("", some (GoError.errorsNew "authorization payload missing"))
  | some ContextValue.other => ("", some (GoError.errorsNew "invalid claims format"))
  | some (ContextValue.claims claimsMap) =>
    match getField claimsMap "uid" with
    | some (Json.str uid) => (uid, none)
    | _ => ("", some (GoError.errorsNew "uid not found in claims"))

/-- The type `createPastExperienceRequest`. -/
structure createPastExperienceRequest where
  UserUID : String
  Industry : String
  Employer : String
  JobTitle : String
  StartDate : Time
  EndDate : Time
  Present : Bool
  Description : String
  deriving DecidableEq, Repr, Inhabited

/-- The type `updatePastExperienceRequest`. -/
structure updatePastExperienceRequest where
  UserUID : String
  ID : String
  Industry : String
  Employer : String
  JobTitle : String
  StartDate : Time
  EndDate : Time
  Present : Bool
  Description : String
  deriving DecidableEq, Repr, Inhabited

/-- The type `deletePastExperienceRequest`. -/
structure deletePastExperienceRequest where
  UserUID : String
  ID : String
  deriving DecidableEq, Repr, Inhabited

/-- The `Server` of the user service as the past-experience endpoints use it:
the task distributor, with the clock reading `time.Now().String()` and the
hexadecimal SHA-256 digest the creation endpoint derives an id from. -/
structure Server (W : Type) where
  taskDistributor : TaskDistributor W
  now : String
  sha256Hex : String → String

/-- The error of an endpoint whose caller is not the user in the request. -/
def notAuthenticatedUser : GoError :=
  GoError.errorsNew "account doesn't belong to the authenticated user"

/-- The payload `createPastExperience` builds from a bound request. -/
def createPastExperiencePayload {W : Type} (server : Server W)
    (req : createPastExperienceRequest) : PayloadPastExperience :=
  { PastExperience :=
      { ID := server.sha256Hex (req.UserUID ++ server.now),
        Industry := req.Industry,
        Employer := req.Employer,
        JobTitle := req.JobTitle,
        StartDate := req.StartDate,
        EndDate := req.EndDate,
        Present := req.Present,
        Description := req.Description },
    UserUID := req.UserUID }

/-- The options `createPastExperience` enqueues with. -/
def createPastExperienceOpts : List AsynqOption :=
  [AsynqOption.MaxRetry 5, AsynqOption.ProcessIn (5 * Second), AsynqOption.Queue QueueDefault]

/-- The method `createPastExperience`. -/
def createPastExperience {W : Type} (server : Server W)
    (ctx : GinContext createPastExperienceRequest) (w : W) : Response × W :=
  match ctx.ShouldBindJSON with
  | Except.error err => ({ status := StatusBadRequest, body := errorResponse err }, w)
  | Except.ok req =>
    match GetUIDFromClaims ctx with
    | (authUID, err) =>
      if authUID ≠ req.UserUID ∨ err ≠ none then
        ({ status := StatusUnauthorized, body := errorResponse notAuthenticatedUser }, w)
      else
        let payload := createPastExperiencePayload server req
        let opts := createPastExperienceOpts
        match server.taskDistributor.DistributeTaskAddPastExperience (some payload) opts w with
        | (some err, w1) =>
          ({ status := StatusInternalServerError,
             body := errorResponse (GoError.wrapf "failed to distribute task" err) }, w1)
        | (none, w1) =>
          ({ status := StatusOK, body := [("status", Json.str "task queued successfully")] }, w1)

/-- The payload `updatePastExperience` builds from a bound request. -/
def updatePastExperiencePayload (req : updatePastExperienceRequest) : PayloadPastExperience :=
  { PastExperience :=
      { ID := req.ID,
        Industry := req.Industry,
        Employer := req.Employer,
        JobTitle := req.JobTitle,
        StartDate := req.StartDate,
        EndDate := req.EndDate,
        Present := req.Present,
        Description := req.Description },
    UserUID := req.UserUID }

/-- The options `updatePastExperience` enqueues with. -/
def updatePastExperienceOpts : List AsynqOption :=
  [AsynqOption.MaxRetry 5, AsynqOption.ProcessIn (5 * Second), AsynqOption.Queue QueueDefault]

/-- The method `updatePastExperience`. -/
def updatePastExperience {W : Type} (server : Server W)
    (ctx : GinContext updatePastExperienceRequest) (w : W) : Response × W :=
  match ctx.ShouldBindJSON with
  | Except.error err => ({ status := StatusBadRequest, body := errorResponse err }, w)
  | Except.ok req =>
    match GetUIDFromClaims ctx with
    | (authUID, err) =>
      if authUID ≠ req.UserUID ∨ err ≠ none then
        ({ status := StatusUnauthorized, body := errorResponse notAuthenticatedUser }, w)
      else
        let payload := updatePastExperiencePayload req
        let opts := updatePastExperienceOpts
        match server.taskDistributor.DistributeTaskUpdatePastExperience (some payload) opts
            w with
        | (some err, w1) =>
          ({ status := StatusInternalServerError,
             body := errorResponse (GoError.wrapf "failed to distribute task" err) }, w1)
        | (none, w1) =>
          ({ status := StatusOK,
             body := statusResponse "update past experience task queued successfully" }, w1)

/-- The payload `deletePastExperience` builds from a bound request. -/
def deletePastExperiencePayload (req : deletePastExperienceRequest) :
    PayloadDeletePastExperience :=
  { PastExperienceID := req.ID, UserUID := req.UserUID }

/-- The options `deletePastExperience` enqueues with. -/
def deletePastExperienceOpts : List AsynqOption :=
  [AsynqOption.MaxRetry 5, AsynqOption.ProcessIn (2 * Second), AsynqOption.Queue QueueCritical]

/-- The method `deletePastExperience`. -/
def deletePastExperience {W : Type} (server : Server W)
    (ctx : GinContext deletePastExperienceRequest) (w : W) : Response × W :=
  match ctx.ShouldBindJSON with
  | Except.error err => ({ status := StatusBadRequest, body := errorResponse err }, w)
  | Except.ok req =>
    match GetUIDFromClaims ctx with
    | (authUID, err) =>
      if authUID ≠ req.UserUID ∨ err ≠ none then
        ({ status := StatusUnauthorized, body := errorResponse notAuthenticatedUser }, w)
      else
        let payload := deletePastExperiencePayload req
        let opts := deletePastExperienceOpts
        match server.taskDistributor.DistributeTaskDeletePastExperience (some payload) opts
            w with
        | (some err, w1) =>
          ({ status := StatusInternalServerError,
             body := errorResponse (GoError.wrapf "failed to distribute task" err) }, w1)
        | (none, w1) =>
          ({ status := StatusOK,
             body := statusResponse "delete past experience task queued successfully" }, w1)

/-- The response of a past-experience endpoint to an authorised and well-formed
request, given the error `r` its distribute call returned: if `r` is an error
`e`, the status is 500 and the body is the error body of `failed to distribute
task` wrapping `e`; and the status is 200 exactly when `r` is nil. -/
def ReflectsDistributorResult (r : Option GoError) (resp : Response) : Prop :=
  (∀ e, r = some e → resp.status = StatusInternalServerError ∧
    resp.body = errorResponse (GoError.wrapf "failed to distribute task" e)) ∧
  (resp.status = StatusOK ↔ r = none)

/-- The concrete user-service server: the concrete distributor, a fixed clock
and a digest that returns its argument. -/
def demoServer (fail : Option GoError) : Server (BrokerWorld (List Task)) :=
  { taskDistributor := (demoDistributor fail).toTaskDistributor,
    now := "2024-01-01 00:00:00 +0000 UTC",
    sha256Hex := fun data => data }

/-- A context of an authenticated caller `u1` with the bound request `req`. -/
def demoContext {Req : Type} (req : Req) : GinContext Req :=
  { ShouldBindJSON := Except.ok req,
    authorizationPayload :=
      some (ContextValue.claims [("uid", Json.str "u1"), ("role", Json.str "candidate")]) }

/-- A creation request of user `u1`. -/
def demoCreateRequest : createPastExperienceRequest :=
  { (default : createPastExperienceRequest) with
    UserUID := "u1", Industry := "food", Employer := "cafe", JobTitle := "barista",
    Description := "coffee" }

/-- An update request of user `u1`. -/
def demoUpdateRequest : updatePastExperienceRequest :=
  { (default : updatePastExperienceRequest) with UserUID := "u1", ID := "e1" }

/-- A deletion request of user `u1`. -/
def demoDeleteRequest : deletePastExperienceRequest := { UserUID := "u1", ID := "e1" }

/-! ## The document store (Elasticsearch, reached through `olivere/elastic`) -/

mutual
/-- The value a member takes in a partial-document update: two objects are
merged, and any other pair is settled by the new value. -/
def mergeValue (old : Option Json) : Json → Json
  | Json.obj changes =>
    match old with
    | some (Json.obj source) => Json.obj (mergeMap source changes)
    | _ => Json.obj changes
  | Json.null => Json.null
  | Json.bool b => Json.bool b
  | Json.num q => Json.num q
  | Json.str s => Json.str s
  | Json.arr items => Json.arr items
/-- The merge of a partial document into a stored source, member by member. -/
def mergeMap (source : JsonMap) : JsonMap → JsonMap
  | [] => source
  | (k, v) :: rest => mergeMap (setField source k (mergeValue (getField source k) v)) rest
end

mutual
/-- A JSON value in which every object reached through objects has distinct
member names, as the encoding of a Go map has. -/
def Json.distinctKeys : Json → Bool
  | Json.obj members => distinctKeys members
  | _ => true
/-- A JSON object with distinct member names, at every level of nested objects. -/
def distinctKeys : JsonMap → Bool
  | [] => true
  | (k, v) :: rest =>
    !(rest.any (fun e => decide (e.1 = k))) && v.distinctKeys && distinctKeys rest
end

/-- The documents of Elasticsearch: for an index name and a document id, the
stored source if there is one. -/
abbrev Documents := String → String → Option JsonMap

/-- The documents after the source at `(index, id)` is set to `body`. -/
def putDocument (docs : Documents) (index id : String) (body : JsonMap) : Documents :=
  fun i d => if i = index ∧ d = id then some body else docs i d

/-- The documents after the source at `(index, id)` is removed. -/
def removeDocument (docs : Documents) (index id : String) : Documents :=
  fun i d => if i = index ∧ d = id then none else docs i d

/-- The error of a request for a document that does not exist. -/
def documentMissing : GoError := GoError.errorsNew "elastic: Error 404 (Not Found)"

/-- The error of a script that throws. -/
def scriptException : GoError := GoError.errorsNew
    "elastic: Error 400 (Bad Request): script_exception"

/-- The request `Index().Index(index).Id(id).BodyJson(body)`: the document is
created or overwritten. -/
def esIndex (index id : String) (body : JsonMap) (docs : Documents) :
    Option GoError × Documents :=
  (none, putDocument docs index id body)

/-- The request `Update().Index(index).Id(id).Doc(doc)`: the partial document
is merged into the stored source; a missing document is an error. -/
def esUpdateDoc (index id : String) (doc : JsonMap) (docs : Documents) :
    Option GoError × Documents :=
  match docs index id with
  | none => (some documentMissing, docs)
  | some source => (none, putDocument docs index id (mergeMap source doc))

/-- The request `Update().Index(index).Id(id).Script(script)`: the script runs
on the stored source; a missing document is an error, and a script that throws
leaves the document as it was. -/
def esUpdateScript (index id : String) (script : JsonMap → Except GoError JsonMap)
    (docs : Documents) : Option GoError × Documents :=
  match docs index id with
  | none => (some documentMissing, docs)
  | some source =>
    match script source with
    | Except.error err => (some err, docs)
    | Except.ok source1 => (none, putDocument docs index id source1)

/-- The request `Delete().Index(index).Id(id)`; a missing document is an error. -/
def esDelete (index id : String) (docs : Documents) : Option GoError × Documents :=
  match docs index id with
  | none => (some documentMissing, docs)
  | some _ => (none, removeDocument docs index id)

/-! ## The document-store client (`pkg/elasticsearch`) -/

/-- The constant `CandidateIdx`. -/
def CandidateIdx : String := "candidates"
/-- The constant `CandidateAppIdx`. -/
def CandidateAppIdx : String := "candidate_applications"
/-- The constant `EmployerAppIdx`. -/
def EmployerAppIdx : String := "employer_applications"
/-- The constant `ErrIndexFailure`. -/
def ErrIndexFailure : String := "failed to index"
/-- The constant `ErrDeleteFailure`. -/
def ErrDeleteFailure : String := "failed to delete"

/-- The number of days of a month of the Gregorian calendar. -/
def daysInMonth (year : Int) (month : Nat) : Nat :=
  if month = 2 then
    if (year % 4 = 0 ∧ year % 100 ≠ 0) ∨ year % 400 = 0 then 29 else 28
  else if month = 4 ∨ month = 6 ∨ month = 9 ∨ month = 11 then 30
  else 31

/-- The function `YearsBetween`, with the `float64` arithmetic done in exact
rational arithmetic. -/
def YearsBetween (startDate endDate : Time) : ℚ :=
  let totalMonths : Int :=
    (endDate.Year - startDate.Year) * 12 + ((endDate.Month : Int) - (startDate.Month : Int))
  let years : ℚ := (totalMonths : ℚ) / 12
  let startDay : Int := startDate.Day
  let endDay : Int :=
    if endDate.Day < startDate.Day then
      (endDate.Day : Int) + (daysInMonth startDate.Year startDate.Month : Int)
    else endDate.Day
  let dayDifference : ℚ := ((endDay - startDay : Int) : ℚ) / 30
  years + dayDifference / 12

/-- What the client's functions act on: the documents, and the state of the
package-level random generator `seededRand`. -/
structure ESState (R : Type) where
  docs : Documents
  rng : R

/-- The libraries under the client: `json.Marshal` of a `db.Candidate`,
`json.Unmarshal` into a map and into a `[]string`, the JSON text of a
`time.Time`, and `seededRand.Intn`. -/
structure ESEnv (R : Type) where
  MarshalCandidate : db.Candidate → Except GoError Bytes
  UnmarshalMap : Bytes → Except GoError JsonMap
  UnmarshalStrings : Bytes → Except GoError (List String)
  formatTime : Time → String
  Intn : Nat → R → Nat × R

/-- The rendering of an error by `%v`. -/
def errorfV (msg : String) (err : GoError) : GoError :=
  GoError.errorsNew (msg ++ ": " ++ err.Error)

/-- The function `structToMap`. -/
def structToMap {R : Type} (env : ESEnv R) (candidate : db.Candidate) :
    Except GoError JsonMap :=
  match env.MarshalCandidate candidate with
  | Except.error err => Except.error err
  | Except.ok data =>
    match env.UnmarshalMap data with
    | Except.error err => Except.error err
    | Except.ok candidateMap => Except.ok candidateMap

/-- The loop of `unmarshalTimeAvailabilityJSON` over the decoded strings. -/
def unmarshalAvailabilities {R : Type} (env : ESEnv R) :
    List String → List JsonMap → Except GoError (List JsonMap)
  | [], availabilities => Except.ok availabilities
  | jsonString :: rest, availabilities =>
    match env.UnmarshalMap jsonString.toUTF8.toList with
    | Except.error err =>
      Except.error (errorfV "failed to unmarshal availability JSON string" err)
    | Except.ok availability => unmarshalAvailabilities env rest (availabilities ++ [availability])

/-- The function `unmarshalTimeAvailabilityJSON`. -/
def unmarshalTimeAvailabilityJSON {R : Type} (env : ESEnv R) (data : Bytes) :
    Except GoError (List JsonMap) :=
  match env.UnmarshalStrings data with
  | Except.error err => Except.error (errorfV "failed to unmarshal time_availability" err)
  | Except.ok timeAvailability => unmarshalAvailabilities env timeAvailability []

/-- The JSON text of a `[]map[string]interface{}`: `null` for the nil slice. -/
def sliceJson (maps : List JsonMap) : Json :=
  if maps.isEmpty then Json.null else Json.arr (maps.map Json.obj)

/-- The function `util.RandomRating`. -/
def RandomRating {R : Type} (env : ESEnv R) (rng : R) : Nat × R := env.Intn 100 rng

/-- The method `IndexCandidate`. -/
def IndexCandidate {R : Type} (env : ESEnv R) (candidate : db.Candidate) (st : ESState R) :
    Option GoError × ESState R :=
  match structToMap env candidate with
  | Except.error err =>
    (some (errorfV "failed to convert candidate struct to map" err), st)
  | Except.ok candidateMap =>
    let rating := RandomRating env st.rng
    let candidateMap := setField candidateMap "rating" (Json.num (rating.1 : ℚ))
    match unmarshalTimeAvailabilityJSON env candidate.TimeAvailability with
    | Except.error err =>
      (some (errorfV "failed to convert candidate time availability from binary to map" err),
        { st with rng := rating.2 })
    | Except.ok availabilities =>
      let candidateMap := setField candidateMap "time_availability" (sliceJson availabilities)
      match esIndex CandidateIdx (toString candidate.ID) candidateMap st.docs with
      | (some err, docs) =>
        (some (errorfV "failed to index candidate" err), { docs := docs, rng := rating.2 })
      | (none, docs) => (none, { docs := docs, rng := rating.2 })

/-- The method `UpdateCandidate`. -/
def UpdateCandidate {R : Type} (env : ESEnv R) (candidate : db.Candidate) (st : ESState R) :
    Option GoError × ESState R :=
  match structToMap env candidate with
  | Except.error err => (some (errorfV "error converting candidate struct to map" err), st)
  | Except.ok candidateMap =>
    match unmarshalTimeAvailabilityJSON env candidate.TimeAvailability with
    | Except.error err =>
      (some (errorfV "failed to convert candidate time availability from binary to map" err),
        st)
    | Except.ok availabilities =>
      let candidateMap := setField candidateMap "time_availability" (sliceJson availabilities)
      match esUpdateDoc CandidateIdx (toString candidate.ID) candidateMap st.docs with
      | (some err, docs) =>
        (some (errorfV "error updating candidate" err), { st with docs := docs })
      | (none, docs) => (none, { st with docs := docs })

/-- The member `start_date` of an array entry, when the entry is an object and
the member is a string. -/
def startDateOf : Json → Option String
  | Json.obj entry =>
    match getField entry "start_date" with
    | some (Json.str date) => some date
    | _ => none
  | _ => none

/-- The method `compareTo` of strings, as a less-than test. -/
def compareToLt (a b : String) : Bool := decide (a.toList < b.toList)

/-- Each entry paired with its start date; nothing if an entry has none. -/
def keyedByStartDate : List Json → Option (List (String × Json))
  | [] => some []
  | item :: rest =>
    match startDateOf item, keyedByStartDate rest with
    | some date, some keyed => some ((date, item) :: keyed)
    | _, _ => none

/-- Insertion of an entry after the entries that do not come later. -/
def insertByStartDate (x : String × Json) : List (String × Json) → List (String × Json)
  | [] => [x]
  | y :: ys => if compareToLt x.1 y.1 then x :: y :: ys else y :: insertByStartDate x ys

/-- The call `past_experience.sort((a, b) -> a.start_date.compareTo(b.start_date))`:
a stable sort by start date, which throws when two or more entries are
compared and one of them has no start date. -/
def sortByStartDate (items : List Json) : Option (List Json) :=
  if items.length < 2 then some items
  else
    match keyedByStartDate items with
    | none => none
    | some keyed => some ((keyed.foldl (fun acc x => insertByStartDate x acc) []).map Prod.snd)

/-- The script of `AddPastExperienceToCandidate`, with `params.pastExperience`. -/
def addPastExperienceScript (pastExperience : JsonMap) (source : JsonMap) :
    Except GoError JsonMap :=
  match getField source "past_experience" with
  | none => Except.ok (setField source "past_experience" (Json.arr [Json.obj pastExperience]))
  | some Json.null =>
    Except.ok (setField source "past_experience" (Json.arr [Json.obj pastExperience]))
  | some (Json.arr items) =>
    match sortByStartDate (items ++ [Json.obj pastExperience]) with
    | none => Except.error scriptException
    | some sorted => Except.ok (setField source "past_experience" (Json.arr sorted))
  | some _ => Except.error scriptException

/-- The map `pastExperienceMap` that `AddPastExperienceToCandidate` builds and
passes to its script as `params.pastExperience`. -/
def addPastExperienceMap {R : Type} (env : ESEnv R) (pastExperience : es.PastExperience) :
    JsonMap :=
  [("id", Json.str pastExperience.ID),
    ("industry", Json.str pastExperience.Industry),
    ("employer", Json.str pastExperience.Employer),
    ("job_title", Json.str pastExperience.JobTitle),
    ("start_date", Json.str (env.formatTime pastExperience.StartDate)),
    ("end_date", Json.str (env.formatTime pastExperience.EndDate)),
    ("length", Json.num (YearsBetween pastExperience.StartDate pastExperience.EndDate)),
    ("present", Json.bool pastExperience.Present),
    ("description", Json.str pastExperience.Description)]

/-- The method `AddPastExperienceToCandidate`. -/
def AddPastExperienceToCandidate {R : Type} (env : ESEnv R) (userUID : String)
    (pastExperience : es.PastExperience) (st : ESState R) : Option GoError × ESState R :=
  let pastExperienceMap := addPastExperienceMap env pastExperience
  match esUpdateScript CandidateIdx userUID (addPastExperienceScript pastExperienceMap)
      st.docs with
  | (some err, docs) => (some (errorfV "error updating candidate" err), { st with docs := docs })
  | (none, docs) => (none, { st with docs := docs })

mutual
/-- Equality of JSON values, as the operator `==` of a script decides it. -/
def Json.equals : Json → Json → Bool
  | Json.null, Json.null => true
  | Json.bool a, Json.bool b => a == b
  | Json.num a, Json.num b => a == b
  | Json.str a, Json.str b => a == b
  | Json.arr a, Json.arr b => Json.equalsList a b
  | Json.obj a, Json.obj b => Json.equalsMembers a b
  | _, _ => false
/-- Equality of JSON arrays. -/
def Json.equalsList : List Json → List Json → Bool
  | [], [] => true
  | a :: as, b :: bs => Json.equals a b && Json.equalsList as bs
  | _, _ => false
/-- Equality of JSON objects. -/
def Json.equalsMembers : List (String × Json) → List (String × Json) → Bool
  | [], [] => true
  | (k, a) :: as, (l, b) :: bs => k == l && Json.equals a b && Json.equalsMembers as bs
  | _, _ => false
end

/-- The value of a member as a script reads it: `null` when the member is absent. -/
def memberOrNull (object : JsonMap) (name : String) : Json :=
  (getField object name).getD Json.null

/-- The statement `if (params.pastExperience.containsKey(name)) entry.name = params.pastExperience.name`. -/
def copyIfPresent (pastExperience : JsonMap) (name : String) (entry : JsonMap) : JsonMap :=
  match getField pastExperience name with
  | some value => setField entry name value
  | none => entry

/-- The assignments the update script makes to the entry it has found. -/
def applyPastExperience (pastExperience : JsonMap) (entry : JsonMap) : JsonMap :=
  let entry := copyIfPresent pastExperience "industry" entry
  let entry := copyIfPresent pastExperience "job_title" entry
  let entry := copyIfPresent pastExperience "description" entry
  let entry := copyIfPresent pastExperience "start_date" entry
  let entry := copyIfPresent pastExperience "end_date" entry
  let entry := setField entry "length" (memberOrNull pastExperience "length")
  copyIfPresent pastExperience "present" entry

/-- The loop of the update script: the first entry whose `id` equals
`params.pastExperience.id` is updated and the loop ends; reading `id` from an
entry that is not an object throws. -/
def updateFirstMatching (pastExperience : JsonMap) : List Json → Option (List Json)
  | [] => some []
  | Json.obj entry :: rest =>
    if (memberOrNull entry "id").equals (memberOrNull pastExperience "id") then
      some (Json.obj (applyPastExperience pastExperience entry) :: rest)
    else
      match updateFirstMatching pastExperience rest with
      | none => none
      | some rest1 => some (Json.obj entry :: rest1)
  | _ :: _ => none

/-- The script of `UpdatePastExperienceInCandidate`, with `params.pastExperience`. -/
def updatePastExperienceScript (pastExperience : JsonMap) (source : JsonMap) :
    Except GoError JsonMap :=
  match getField source "past_experience" with
  | some (Json.arr items) =>
    match updateFirstMatching pastExperience items with
    | none => Except.error scriptException
    | some items1 => Except.ok (setField source "past_experience" (Json.arr items1))
  | _ => Except.error scriptException

/-- The map `pastExperienceMap` that `UpdatePastExperienceInCandidate` builds
and passes to its script as `params.pastExperience`. -/
def updatePastExperienceMap {R : Type} (env : ESEnv R) (pastExperience : es.PastExperience) :
    JsonMap :=
  let length : ℚ :=
    if !pastExperience.StartDate.IsZero && !pastExperience.EndDate.IsZero then
      YearsBetween pastExperience.StartDate pastExperience.EndDate
    else 0
  let pastExperienceMap : JsonMap := []
  let pastExperienceMap := setField pastExperienceMap "id" (Json.str pastExperience.ID)
  let pastExperienceMap :=
    if pastExperience.Industry ≠ "" then
      setField pastExperienceMap "industry" (Json.str pastExperience.Industry)
    else pastExperienceMap
  let pastExperienceMap :=
    if pastExperience.JobTitle ≠ "" then
      setField pastExperienceMap "job_title" (Json.str pastExperience.JobTitle)
    else pastExperienceMap
  let pastExperienceMap :=
    if pastExperience.Description ≠ "" then
      setField pastExperienceMap "description" (Json.str pastExperience.Description)
    else pastExperienceMap
  let pastExperienceMap :=
    if !pastExperience.StartDate.IsZero then
      setField pastExperienceMap "start_date"
        (Json.str (env.formatTime pastExperience.StartDate))
    else pastExperienceMap
  let pastExperienceMap :=
    if !pastExperience.EndDate.IsZero then
      setField pastExperienceMap "end_date" (Json.str (env.formatTime pastExperience.EndDate))
    else pastExperienceMap
  let pastExperienceMap := setField pastExperienceMap "present" (Json.bool pastExperience.Present)
  setField pastExperienceMap "length" (Json.num length)

/-- The method `UpdatePastExperienceInCandidate`. -/
def UpdatePastExperienceInCandidate {R : Type} (env : ESEnv R) (userUID : String)
    (pastExperience : es.PastExperience) (st : ESState R) : Option GoError × ESState R :=
  let pastExperienceMap := updatePastExperienceMap env pastExperience
  match esUpdateScript CandidateIdx userUID (updatePastExperienceScript pastExperienceMap)
      st.docs with
  | (some err, docs) =>
    (some (errorfV "error updating past experience" err), { st with docs := docs })
  | (none, docs) => (none, { st with docs := docs })

/-- The call `past_experience.removeIf(exp -> exp.id == params.id)`; reading
`id` from an entry that is not an object throws. -/
def removeMatching (id : Json) : List Json → Option (List Json)
  | [] => some []
  | Json.obj entry :: rest =>
    match removeMatching id rest with
    | none => none
    | some rest1 =>
      if (memberOrNull entry "id").equals id then some rest1 else some (Json.obj entry :: rest1)
  | _ :: _ => none

/-- The script of `DeletePastExperienceFromCandidate`, with `params.id`. -/
def deletePastExperienceScript (id : Json) (source : JsonMap) : Except GoError JsonMap :=
  match getField source "past_experience" with
  | none => Except.ok source
  | some Json.null => Except.ok source
  | some (Json.arr items) =>
    match removeMatching id items with
    | none => Except.error scriptException
    | some items1 => Except.ok (setField source "past_experience" (Json.arr items1))
  | some _ => Except.error scriptException

/-- The method `DeletePastExperienceFromCandidate`. -/
def DeletePastExperienceFromCandidate {R : Type} (userUID : String)
    (pastExperienceID : String) (st : ESState R) : Option GoError × ESState R :=
  match esUpdateScript CandidateIdx userUID
      (deletePastExperienceScript (Json.str pastExperienceID)) st.docs with
  | (some err, docs) =>
    (some (errorfV "error deleting past experience" err), { st with docs := docs })
  | (none, docs) => (none, { st with docs := docs })

/-- The method `indexDocument`. -/
def indexDocument {R : Type} (index id : String) (document : JsonMap) (st : ESState R) :
    Option GoError × ESState R :=
  match esIndex index id document st.docs with
  | (some err, docs) => (some (GoError.wrapf ErrIndexFailure err), { st with docs := docs })
  | (none, docs) => (none, { st with docs := docs })

/-- The method `deleteDocument`. -/
def deleteDocument {R : Type} (index id : String) (st : ESState R) :
    Option GoError × ESState R :=
  match esDelete index id st.docs with
  | (some err, docs) => (some (GoError.wrapf ErrDeleteFailure err), { st with docs := docs })
  | (none, docs) => (none, { st with docs := docs })

/-- The type `ESClientImpl` as an implementation of the interface: the methods
of the client that the handlers call. -/
def ESClientImpl {R : Type} (env : ESEnv R) : ESClient (ESState R) :=
  { IndexCandidate := IndexCandidate env,
    UpdateCandidate := UpdateCandidate env,
    AddPastExperienceToCandidate := AddPastExperienceToCandidate env,
    UpdatePastExperienceInCandidate := UpdatePastExperienceInCandidate env,
    DeletePastExperienceFromCandidate := DeletePastExperienceFromCandidate,
    IndexCandidateApplication := indexDocument CandidateAppIdx,
    IndexEmployerApplication := indexDocument EmployerAppIdx,
    DeleteCandidateApplication := deleteDocument CandidateAppIdx,
    DeleteEmployerApplication := deleteDocument EmployerAppIdx }

/-! ### Handlers over the client, run once and twice -/

/-- The handlers that write to the document store: index candidate, update
candidate, and add, update and delete past experience. -/
def storeWritingHandlers : List ProcessFn :=
  [ProcessFn.ProcessTaskCreateCandidate, ProcessFn.ProcessTaskUpdateCandidate,
    ProcessFn.ProcessTaskAddPastExperience, ProcessFn.ProcessTaskUpdatePastExperience,
    ProcessFn.ProcessTaskDeletePastExperience]

/-- The documents after a handler has processed a task once. -/
def docsAfter {R : Type} (processor : RedisTaskProcessor (ESState R)) (h : ProcessFn)
    (task : Task) (w : HandlerWorld (ESState R)) : Documents :=
  (runProcessFn processor h task w).2.ext.docs

/-- The documents after a handler has processed the same task twice in a row. -/
def docsAfterTwice {R : Type} (processor : RedisTaskProcessor (ESState R)) (h : ProcessFn)
    (task : Task) (w : HandlerWorld (ESState R)) : Documents :=
  (runProcessFn processor h task (runProcessFn processor h task w).2).2.ext.docs

/-- The number of entries of the array `past_experience` of a document. -/
def pastExperienceCount : Option JsonMap → Nat
  | some source =>
    match getField source "past_experience" with
    | some (Json.arr items) => items.length
    | _ => 0
  | none => 0

/-- The member `rating` of a document, when it is a number. -/
def ratingOf : Option JsonMap → Option ℚ
  | some source =>
    match getField source "rating" with
    | some (Json.num q) => some q
    | _ => none
  | none => none

/-- Libraries for the concrete client: every candidate encodes to the same
bytes, which decode to a map with the member `id`; the availability list is
empty; a time is written as one of two fixed texts; the random generator is a
counter, and `Intn n` returns the counter modulo `n`. -/
def demoESEnv : ESEnv Nat :=
  { MarshalCandidate := fun _ => Except.ok demoBytes,
    UnmarshalMap := fun _ => Except.ok [("id", Json.num 5)],
    UnmarshalStrings := fun _ => Except.ok [],
    formatTime := fun t => if t.IsZero then "0001-01-01T00:00:00Z" else "2024-01-01T00:00:00Z",
    Intn := fun n rng => (rng % n, rng + 1) }

/-- The concrete processor over the client of `pkg/elasticsearch`. -/
def demoESProcessor : RedisTaskProcessor (ESState Nat) :=
  { esClient := ESClientImpl demoESEnv,
    mailer := { SendEmail := fun _ _ _ _ _ _ _ s => (none, s) },
    json := demoCodecs,
    os := { Getwd := Except.ok "/srv", Join := fun parts => "/".intercalate parts,
            statIsNotExist := fun _ => false },
    verifyEmailContent := fun name link => "Hi! " ++ name ++ " " ++ link }

/-- A store with two candidate documents: that of user `u1`, without past
experience, and that of the candidate with id 5. -/
def demoDocuments : Documents :=
  putDocument
    (putDocument (fun _ _ => none) CandidateIdx "u1" [("user_uid", Json.str "u1")])
    CandidateIdx "5" [("id", Json.num 5), ("full_name", Json.str "Ann")]

/-- The handler world over that store, with the random generator at zero. -/
def demoESWorld : HandlerWorld (ESState Nat) :=
  { ext := { docs := demoDocuments, rng := 0 }, calls := [] }

/-! ## Request validation of the application service (`cmd/ApplicationService/api`) -/

/-- The function `validateIDs` of `application.go`; the method of the same name
on `updateApplicationRequest` has the same body.  Its comment reads "checks
that at least one ID (CandidateID or EmployerID) is provided". -/
def validateIDs (candidateID employerID : Int) : Option GoError :=
  if candidateID = 0 ∨ employerID = 0 then
    some (GoError.errorsNew "either candidate_id or employer_id must be provided")
  else none

/-! ## The callback arguments of `DeletePastExperienceTx` -/

/-- A callback for `DeletePastExperienceTx` that records, under the name of each
parameter declared by `AfterDelete`, the value it received for it. -/
def recordDeleteArguments (candidateID pastExperienceID : Int) (ext : List (String × Int)) :
    Option GoError × List (String × Int) :=
  (none, ext ++ [("candidateID", candidateID), ("pastExperienceID", pastExperienceID)])

/-- A world in which nothing has been recorded yet. -/
def demoDeleteWorld : TxWorld (List Nat) (List (String × Int)) :=
  { db := [3, 7], ext := [], log := [] }

/-! ## Queue configuration of the processor (`pkg/worker/processor.go`) -/

/-- The fields of `asynq.Config` that `NewRedisTaskProcessor` could set and
that decide which queues are served and which errors count as failures: the
map `Queues` from queue name to priority weight, and the predicate `IsFailure`
(nil when left unset). -/
structure AsynqConfig where
  Queues : List (String × Int)
  IsFailure : Option (GoError → Bool)

/-- The configuration `NewRedisTaskProcessor` passes to `asynq.NewServer`: two
queues, no `IsFailure`, no `RetryDelayFunc`; the error handler only logs. -/
def NewRedisTaskProcessorConfig : AsynqConfig :=
  { Queues := [(QueueCritical, 10), (QueueDefault, 5)], IsFailure := none }

/-- The weight the configuration gives to a queue, if it configures the queue. -/
def AsynqConfig.weight (config : AsynqConfig) (queue : String) : Option Int :=
  config.Queues.lookup queue

/-! ## Rate limiter of the user service (`cmd/UserService/api/rate_limiter.go`) -/

/-- A `time.Time` as an instant: the wall-clock reading in nanoseconds since
January 1 of year 1, 00:00:00 UTC, and the monotonic-clock reading in
nanoseconds when the value carries one (as the values of `time.Now` do). -/
structure Instant where
  wall : Int
  mono : Option Int
  deriving DecidableEq, Repr

/-- The zero `time.Time` as an instant. -/
def Instant.zero : Instant := { wall := 0, mono := none }

/-- The least `time.Duration`, in nanoseconds. -/
def minDuration : Int := -9223372036854775808

/-- The greatest `time.Duration`, in nanoseconds. -/
def maxDuration : Int := 9223372036854775807

/-- A difference of clock readings as a `time.Duration`: out of range it is
replaced by the least or the greatest duration. -/
def saturate (d : Int) : Int :=
  if d < minDuration then minDuration else if maxDuration < d then maxDuration else d

/-- The time elapsed from `u` to `t` on the clock `Time.Sub` reads: the
monotonic clock when both values carry a monotonic reading, the wall clock
otherwise. -/
def Instant.elapsed (t u : Instant) : Int :=
  match t.mono, u.mono with
  | some a, some b => a - b
  | _, _ => t.wall - u.wall

/-- The method `Time.Sub`: the elapsed time as a duration. -/
def Instant.Sub (t u : Instant) : Int := saturate (t.elapsed u)

/-- The type `RateLimiter`: its field `lastSent` is a Go map, which is either
nil (`none`, the zero value of the struct) or a finite map from user id to the
time of the last email. -/
structure RateLimiter where
  lastSent : Option (String → Option Instant)

/-- The function `NewRateLimiter`: the map is made empty, not nil. -/
def NewRateLimiter : RateLimiter := { lastSent := some (fun _ => none) }

/-- The entry of the map for `uid`; a nil map has no entries. -/
def RateLimiter.entry (r : RateLimiter) (uid : String) : Option Instant :=
  match r.lastSent with
  | none => none
  | some m => m uid

/-- The method `GetLastSent`: the two-valued map read, which yields the zero
time and `false` for a missing key. -/
def RateLimiter.GetLastSent (r : RateLimiter) (uid : String) : Instant × Bool :=
  match r.entry uid with
  | some lastSent => (lastSent, true)
  | none => (Instant.zero, false)

/-- The method `SetLastSent`: the map assignment, which panics (`none`) on a
nil map. -/
def RateLimiter.SetLastSent (r : RateLimiter) (uid : String) (timestamp : Instant) :
    Option RateLimiter :=
  match r.lastSent with
  | none => none
  | some m => some { lastSent := some (fun u => if u = uid then some timestamp else m u) }

/-- The method `CanSend`. -/
def RateLimiter.CanSend (r : RateLimiter) (uid : String) (limit : Int)
    (currentTime : Instant) : Bool :=
  match r.GetLastSent uid with
  | (lastSent, found) =>
    if !found then true
    else decide (currentTime.Sub lastSent ≥ limit)

/-- The constant `time.Minute`, in nanoseconds. -/
def Minute : Int := 60 * Second

/-- The zero value of `RateLimiter`, whose map is nil. -/
def zeroRateLimiter : RateLimiter := { lastSent := none }

/-- An instant read from the clock: both readings are present. -/
def demoNow : Instant := { wall := 63900000000000000000, mono := some 5000000000 }

/-- The instant `d` nanoseconds after `t` (`Time.Add` within range). -/
def demoAdd (t : Instant) (d : Int) : Instant :=
  { wall := t.wall + d, mono := t.mono.map (fun m => m + d) }

/-! ## Status transactions (`pkg/db/sqlc/tx_application.go`) -/

/-- The constants of the generated `models.go` that `getSwipe` reads.  The file
is not among the sources, so their values are parameters; `ApplicationStatus`
and `Swipe` are string types. -/
structure StatusConstants where
  ApplicationStatusAccepted : String
  ApplicationStatusRejected : String
  SwipeAccept : String
  SwipeReject : String

/-- The type `UpdateCandidateApplicationStatusParams`. -/
structure UpdateCandidateApplicationStatusParams where
  CandidateID : Int
  EmployerID : Int
  ApplicationStatus : String
  deriving DecidableEq, Repr

/-- The type `UpdateEmployerApplicationStatusParams`. -/
structure UpdateEmployerApplicationStatusParams where
  CandidateID : Int
  EmployerID : Int
  ApplicationStatus : String
  deriving DecidableEq, Repr

/-- The type `CreateCandidateSwipeParams`. -/
structure CreateCandidateSwipeParams where
  CandidateID : Int
  JobID : String
  Swipe : String
  deriving DecidableEq, Repr

/-- The type `CreateEmployerSwipesParams`. -/
structure CreateEmployerSwipesParams where
  EmployerID : Int
  CandidateID : Int
  Swipe : String
  deriving DecidableEq, Repr

/-- The two generated queries the status transactions call. -/
structure StatusQueries (σ : Type) where
  UpdateCandidateApplicationStatus :
    UpdateCandidateApplicationStatusParams → σ → Option GoError × σ
  UpdateEmployerApplicationStatus :
    UpdateEmployerApplicationStatusParams → σ → Option GoError × σ

/-- The type `UpdateCandidateApplicationStatusTxParams`. -/
structure UpdateCandidateApplicationStatusTxParams (ω : Type) where
  UpdateCandidateApplicationStatusParams : UpdateCandidateApplicationStatusParams
  AfterUpdate : CreateCandidateSwipeParams → ω → Option GoError × ω

/-- The type `UpdateEmployerApplicationStatusTxParams`. -/
structure UpdateEmployerApplicationStatusTxParams (ω : Type) where
  UpdateEmployerApplicationStatusParams : UpdateEmployerApplicationStatusParams
  AfterUpdate : CreateEmployerSwipesParams → ω → Option GoError × ω

/-- The function `getSwipe`. -/
def getSwipe (k : StatusConstants) (applicationStatus : String) : String × Option GoError :=
  if applicationStatus = k.ApplicationStatusAccepted then (k.SwipeAccept, none)
  else if applicationStatus = k.ApplicationStatusRejected then (k.SwipeReject, none)
  else ("", some (GoError.errorsNew "invalid application status request: use accepted or rejected"))

/-- The call `fmt.Sprintf("%d_%d", a, b)`: decimal `a`, an underscore, decimal `b`. -/
def sprintfIDs (a b : Int) : String := toString a ++ "_" ++ toString b

section StatusTx

variable {σ ω : Type}

/-- The function literal passed to `execTx` by `UpdateCandidateApplicationStatusTx`. -/
def UpdateCandidateApplicationStatusTxFn (k : StatusConstants) (q : StatusQueries σ)
    (arg : UpdateCandidateApplicationStatusTxParams ω) : TxBody σ ω Unit := fun w =>
  match callExec "UpdateCandidateApplicationStatus" q.UpdateCandidateApplicationStatus
    arg.UpdateCandidateApplicationStatusParams w with
  | (some err, w1) => (((), some err), w1)
  | (none, w1) =>
    let appStatusParams := arg.UpdateCandidateApplicationStatusParams
    match getSwipe k appStatusParams.ApplicationStatus with
    | (_, some err) => (((), some err), w1)
    | (swipe, none) =>
      let params : CreateCandidateSwipeParams :=
        { CandidateID := appStatusParams.CandidateID,
          JobID := sprintfIDs appStatusParams.CandidateID appStatusParams.EmployerID,
          Swipe := swipe }
      match callCallback "AfterUpdate" (arg.AfterUpdate params) w1 with
      | (err, w2) => (((), err), w2)

/-- The method `UpdateCandidateApplicationStatusTx`. -/
def UpdateCandidateApplicationStatusTx (exec : Executor σ ω) (k : StatusConstants)
    (q : StatusQueries σ) (arg : UpdateCandidateApplicationStatusTxParams ω) :
    TxBody σ ω Unit :=
  exec _ (UpdateCandidateApplicationStatusTxFn k q arg)

/-- The function literal passed to `execTx` by `UpdateEmployerApplicationStatusTx`. -/
def UpdateEmployerApplicationStatusTxFn (k : StatusConstants) (q : StatusQueries σ)
    (arg : UpdateEmployerApplicationStatusTxParams ω) : TxBody σ ω Unit := fun w =>
  match callExec "UpdateEmployerApplicationStatus" q.UpdateEmployerApplicationStatus
    arg.UpdateEmployerApplicationStatusParams w with
  | (some err, w1) => (((), some err), w1)
  | (none, w1) =>
    let appStatusParams := arg.UpdateEmployerApplicationStatusParams
    match getSwipe k appStatusParams.ApplicationStatus with
    | (_, some err) => (((), some err), w1)
    | (swipe, none) =>
      let params : CreateEmployerSwipesParams :=
        { EmployerID := appStatusParams.EmployerID,
          CandidateID := appStatusParams.CandidateID,
          Swipe := swipe }
      match callCallback "AfterUpdate" (arg.AfterUpdate params) w1 with
      | (err, w2) => (((), err), w2)

/-- The method `UpdateEmployerApplicationStatusTx`. -/
def UpdateEmployerApplicationStatusTx (exec : Executor σ ω) (k : StatusConstants)
    (q : StatusQueries σ) (arg : UpdateEmployerApplicationStatusTxParams ω) :
    TxBody σ ω Unit :=
  exec _ (UpdateEmployerApplicationStatusTxFn k q arg)

end StatusTx

/-- Values for the constants in the concrete instance. -/
def demoStatusConstants : StatusConstants :=
  { ApplicationStatusAccepted := "accepted", ApplicationStatusRejected := "rejected",
    SwipeAccept := "accept", SwipeReject := "reject" }

/-- Status queries over a table of (candidate, employer, status) rows: the
update replaces the status of the pair, and fails when the candidate id is 0. -/
def demoStatusQueries : StatusQueries (List (Int × Int × String)) :=
  { UpdateCandidateApplicationStatus := fun p db =>
      if p.CandidateID = 0 then (some (GoError.errorsNew "constraint"), db)
      else (none, db.map (fun row =>
        if row.1 = p.CandidateID ∧ row.2.1 = p.EmployerID then
          (row.1, row.2.1, p.ApplicationStatus) else row)),
    UpdateEmployerApplicationStatus := fun p db =>
      if p.CandidateID = 0 then (some (GoError.errorsNew "constraint"), db)
      else (none, db.map (fun row =>
        if row.1 = p.CandidateID ∧ row.2.1 = p.EmployerID then
          (row.1, row.2.1, p.ApplicationStatus) else row)) }

/-- A world with one pending application of candidate 5 to employer 7. -/
def demoStatusWorld (ω : Type) : TxWorld (List (Int × Int × String)) (List ω) :=
  { db := [(5, 7, "pending")], ext := [], log := [] }

/-- A callback that stores the swipe it is given. -/
def storeSwipe {P : Type} (params : P) (ext : List P) : Option GoError × List P :=
  (none, ext ++ [params])

/-! ## Enqueue callbacks of the application service (`cmd/ApplicationService/api/application.go`) -/

/-- The part of the application service's `Server` that the callbacks read. -/
structure ApplicationServer (W : Type) where
  taskDistributor : TaskDistributor W

/-- The options `enqueueCreateAppTask` enqueues with. -/
def enqueueCreateAppTaskOpts : List AsynqOption :=
  [AsynqOption.MaxRetry 10, AsynqOption.ProcessIn (10 * Second), AsynqOption.Queue QueueCritical]

/-- The method `enqueueCreateAppTask`: the callback it returns, applied to a
document id and an application document. -/
def enqueueCreateAppTask {W : Type} (server : ApplicationServer W) (taskType : String)
    (docID : String) (appDoc : JsonMap) (w : W) : Option GoError × W :=
  let taskPayload : PayloadCreateApplication := { AppDoc := appDoc, DocID := docID }
  let opts := enqueueCreateAppTaskOpts
  if taskType = TaskCreateCandidateApp then
    server.taskDistributor.DistributeTaskCreateCandidateApplication (some taskPayload) opts w
  else if taskType = TaskCreateEmployerApp then
    server.taskDistributor.DistributeTaskCreateEmployerApplication (some taskPayload) opts w
  else (some (GoError.errorsNew "unsupported task type"), w)

/-- The method `afterCandidateCreateApp`, which `createApplication` passes as
`AfterCreate` for a candidate application. -/
def afterCandidateCreateApp {W : Type} (server : ApplicationServer W) :
    String → JsonMap → W → Option GoError × W :=
  enqueueCreateAppTask server TaskCreateCandidateApp

/-- The method `afterEmployerCreateApp`. -/
def afterEmployerCreateApp {W : Type} (server : ApplicationServer W) :
    String → JsonMap → W → Option GoError × W :=
  enqueueCreateAppTask server TaskCreateEmployerApp

/-- The options `enqueueDeleteAppTask` enqueues with. -/
def enqueueDeleteAppTaskOpts : List AsynqOption :=
  [AsynqOption.MaxRetry 10, AsynqOption.ProcessIn (10 * Second), AsynqOption.Queue QueueCritical]

/-- The method `enqueueDeleteAppTask`: the callback it returns, applied to a
document id. -/
def enqueueDeleteAppTask {W : Type} (server : ApplicationServer W) (taskType : String)
    (docID : String) (w : W) : Option GoError × W :=
  let taskPayload : PayloadDeleteApplication := { DocID := docID }
  let opts := enqueueDeleteAppTaskOpts
  if taskType = TaskDeleteCandidateApp then
    server.taskDistributor.DistributeTaskDeleteCandidateApplication (some taskPayload) opts w
  else if taskType = TaskDeleteEmployerApp then
    server.taskDistributor.DistributeTaskDeleteEmployerApplication (some taskPayload) opts w
  else (some (GoError.errorsNew "unsupported task type"), w)

/-- The method `afterCandidateDeleteApp`, which `deleteApplication` passes as
`AfterDelete` when the caller is a candidate. -/
def afterCandidateDeleteApp {W : Type} (server : ApplicationServer W) :
    String → W → Option GoError × W :=
  enqueueDeleteAppTask server TaskDeleteCandidateApp

/-- The method `afterEmployerDeleteApp`, which `deleteApplication` passes as
`AfterDelete` when the caller is an employer. -/
def afterEmployerDeleteApp {W : Type} (server : ApplicationServer W) :
    String → W → Option GoError × W :=
  enqueueDeleteAppTask server TaskDeleteEmployerApp

/-- The application service over the Redis distributor of the concrete instance. -/
def demoApplicationServer (fail : Option GoError) :
    ApplicationServer (BrokerWorld (List Task)) :=
  { taskDistributor := (demoDistributor fail).toTaskDistributor }

/-! ## Options at the enqueue call sites of the API handlers -/

/-- The options `sendEmailVerification` enqueues with (`user.go`). -/
def sendEmailVerificationOpts : List AsynqOption :=
  [AsynqOption.MaxRetry 10, AsynqOption.ProcessIn (10 * Second), AsynqOption.Queue QueueCritical]

/-- The options `resendEmailVerification` enqueues with (`user.go`). -/
def resendEmailVerificationOpts : List AsynqOption :=
  [AsynqOption.MaxRetry 10, AsynqOption.ProcessIn (10 * Second), AsynqOption.Queue QueueCritical]

/-- The option lists built at the call sites of the distributor in the API
handlers, each under the name of the function that builds it. -/
def enqueueCallSites : List (String × List AsynqOption) :=
  [("enqueueCreateAppTask", enqueueCreateAppTaskOpts),
   ("enqueueDeleteAppTask", enqueueDeleteAppTaskOpts),
   ("createPastExperience", createPastExperienceOpts),
   ("updatePastExperience", updatePastExperienceOpts),
   ("deletePastExperience", deletePastExperienceOpts),
   ("sendEmailVerification", sendEmailVerificationOpts),
   ("resendEmailVerification", resendEmailVerificationOpts)]

/-! ## Firebase authorization middleware (`pkg/firebase/middleware.go`) -/

/-- The constant `http.StatusForbidden`. -/
def StatusForbidden : Nat := 403

/-- The constant `AuthorizationHeaderKey`. -/
def AuthorizationHeaderKey : String := "Authorization"

/-- An `auth.Token`, of which the code reads the user id and the claims. -/
structure Token where
  UID : String
  Claims : JsonMap

/-- The interface `AuthClientFirebase`, of which the middleware calls
`VerifyIDToken`. -/
structure AuthClientFirebase where
  VerifyIDToken : String → Except GoError Token

/-- A `gin.Context` as the middleware reads and writes it: the request headers
(`GetHeader` yields the empty string for a header that is absent), the response
written with `ctx.JSON`, whether `ctx.Abort` was called, which keeps gin from
running the handlers that follow, and the value stored under
`AuthorizationPayloadKey`. -/
structure MiddlewareContext where
  GetHeader : String → String
  response : Option Response
  aborted : Bool
  authorizationPayload : Option ContextValue

/-- The function `strings.TrimPrefix`. -/
def TrimPrefix (s pre : String) : String :=
  if pre.toList.isPrefixOf s.toList then String.mk (s.toList.drop pre.length) else s

/-- The calls `ctx.JSON(status, gin.H{"error": msg})` and `ctx.Abort()`. -/
def abortWithError (status : Nat) (msg : String) (ctx : MiddlewareContext) :
    MiddlewareContext :=
  { ctx with response := some { status := status, body := [("error", Json.str msg)] },
             aborted := true }

/-- The handler returned by `AuthMiddleware`; `next` is what `ctx.Next()` runs,
the handlers that follow the middleware. -/
def AuthMiddleware (client : AuthClientFirebase) (requiredRole : String)
    (next : MiddlewareContext → MiddlewareContext) (ctx : MiddlewareContext) :
    MiddlewareContext :=
  let authHeader := ctx.GetHeader AuthorizationHeaderKey
  if authHeader = "" then abortWithError StatusUnauthorized "Authorization header missing" ctx
  else
    let idToken := TrimPrefix authHeader "Bearer "
    match client.VerifyIDToken idToken with
    | Except.error _ => abortWithError StatusUnauthorized "Invalid ID token" ctx
    | Except.ok token =>
      let claims := token.Claims
      match getField claims "role" with
      | some (Json.str role) =>
        if role ≠ requiredRole then abortWithError StatusForbidden "Forbidden" ctx
        else next { ctx with authorizationPayload := some (ContextValue.claims claims) }
      | _ => abortWithError StatusForbidden "Forbidden" ctx

/-- A client that verifies the token `good-candidate` of a candidate, the token
`good-employer` of an employer and the token `no-role` without role claim. -/
def demoAuthClient : AuthClientFirebase :=
  { VerifyIDToken := fun idToken =>
      if idToken = "good-candidate" then
        Except.ok { UID := "u1",
                    Claims := [("uid", Json.str "u1"), ("role", Json.str "candidate")] }
      else if idToken = "good-employer" then
        Except.ok { UID := "u2",
                    Claims := [("uid", Json.str "u2"), ("role", Json.str "employer")] }
      else if idToken = "no-role" then
        Except.ok { UID := "u3", Claims := [("uid", Json.str "u3"), ("role", Json.num 1)] }
      else Except.error (GoError.errorsNew "ID token is invalid") }

/-- A request whose `Authorization` header is the given string. -/
def demoRequest (authorization : String) : MiddlewareContext :=
  { GetHeader := fun key => if key = "Authorization" then authorization else "",
    response := none, aborted := false, authorizationPayload := none }

/-- A handler that answers 200. -/
def demoHandler (ctx : MiddlewareContext) : MiddlewareContext :=
  { ctx with response := some { status := StatusOK, body := statusResponse "ok" } }

/-! ## Retries of a failed task

The retry accounting is done by the asynq library, which is not among the
sources: the repository only passes `MaxRetry` at enqueue and configures the
server.  The definitions below follow section 4.3 of the specification and
asynq's processor. -/

/-- The retry budget asynq gives a task enqueued without a `MaxRetry` option. -/
def defaultMaxRetry : Nat := 25

/-- Modelled from the spec: the retry budget (`max_retry`) the broker records
for a task enqueued with the given options, which asynq computes: that of the
last `MaxRetry` option, a negative value counting as zero. -/
def composeRetry (opts : List AsynqOption) : Nat :=
  opts.foldl (fun retry opt =>
    match opt with
    | AsynqOption.MaxRetry n => n.toNat
    | _ => retry) defaultMaxRetry

/-- The state of a task in the broker. -/
inductive TaskState where
  | pending
  | retry
  | archived
  | completed
  deriving DecidableEq, Repr

/-- What the broker keeps of a task for retrying: the retry budget `Retry`, the
number `Retried` of failed attempts so far, and the state. -/
structure TaskMessage where
  Retry : Nat
  Retried : Nat
  state : TaskState
  deriving DecidableEq, Repr

/-- The message of a task just enqueued with the given options. -/
def enqueueMessage (opts : List AsynqOption) : TaskMessage :=
  { Retry := composeRetry opts, Retried := 0, state := TaskState.pending }

/-- Whether the server counts an error as a failure: the configured `IsFailure`,
and every error when none is configured. -/
def AsynqConfig.isFailure (config : AsynqConfig) (err : GoError) : Bool :=
  match config.IsFailure with
  | none => true
  | some f => f err

/-- Modelled from the spec: the handling of a failed attempt, asynq's
`handleFailedMessage`, which is not among the sources.  An error that is not a
failure schedules a retry without counting it; a failure archives the task
when the budget is used up or the error wraps `asynq.SkipRetry`, and otherwise
counts one more failed attempt and schedules a retry. -/
def handleFailedMessage (config : AsynqConfig) (msg : TaskMessage) (err : GoError) :
    TaskMessage :=
  if !config.isFailure err then { msg with state := TaskState.retry }
  else if msg.Retried ≥ msg.Retry ∨ err.errorsIs GoError.skipRetry = true then
    { msg with state := TaskState.archived }
  else { msg with Retried := msg.Retried + 1, state := TaskState.retry }

/-- A task under processing: its message, the number of times its handler has
been invoked, and the world the handler acts on. -/
structure Processing (H : Type) where
  msg : TaskMessage
  invocations : Nat
  world : H

/-- Modelled from the spec: one pass of asynq's processor over the task, which
is not among the sources.  A task that is pending, or whose retry is due, is
handed to the handler, and is completed when the handler returns nil; an
archived or completed task is not handed to any handler. -/
def processTask {H : Type} (config : AsynqConfig) (handler : H → Option GoError × H)
    (p : Processing H) : Processing H :=
  match p.msg.state with
  | TaskState.archived => p
  | TaskState.completed => p
  | _ =>
    match handler p.world with
    | (none, w) =>
      { msg := { p.msg with state := TaskState.completed },
        invocations := p.invocations + 1, world := w }
    | (some err, w) =>
      { msg := handleFailedMessage config p.msg err,
        invocations := p.invocations + 1, world := w }

/-- The task as enqueued with the given options, before any attempt. -/
def enqueued {H : Type} (opts : List AsynqOption) (world : H) : Processing H :=
  { msg := enqueueMessage opts, invocations := 0, world := world }

/-- A handler that fails with a retryable error on every attempt and counts
its attempts. -/
def alwaysFailing (attempts : Nat) : Option GoError × Nat :=
  (some (GoError.wrapf "failed to index document" brokerDown), attempts + 1)

/-! ## Concrete instances for the later claims -/

/-- The JSON encoding of `PayloadDeleteApplication` with document id `5_7`. -/
def demoDeleteApplicationBytes : Bytes := bytesOf "\x7b\"doc_id\":\"5_7\"\x7d"

/-- The concrete processor with a JSON library that decodes
`demoDeleteApplicationBytes` to the payload with document id `5_7`. -/
def demoDeleteProcessor : RedisTaskProcessor (List (String × JsonMap)) :=
  { demoProcessor none with
    json := { demoCodecs with
      deleteApplication := demoCodec demoDeleteApplicationBytes { DocID := "5_7" } } }

/-- A handler world whose store holds the application document `5_7`. -/
def demoApplicationWorld : HandlerWorld (List (String × JsonMap)) :=
  { ext := [("5_7", [("message", Json.str "hi")])], calls := [] }

/-- The concrete processor with a JSON library that decodes `demoBytes` to the
given verification-email payload. -/
def demoEmailProcessor (payload : PayloadSendVerifyEmail) :
    RedisTaskProcessor (List (String × JsonMap)) :=
  { demoProcessor none with
    json := { demoCodecs with sendVerifyEmail := demoCodec demoBytes payload } }

/-- Whether the instant of `t` is not after that of `u`, both in UTC. -/
def Time.notAfter (t u : Time) : Bool :=
  decide (t.Year < u.Year) ||
    (decide (t.Year = u.Year) &&
      (decide (t.Month < u.Month) ||
        (decide (t.Month = u.Month) &&
          (decide (t.Day < u.Day) || (decide (t.Day = u.Day) && decide (t.nanos ≤ u.nanos))))))

/-- The day `year`-`month`-`day` at midnight UTC. -/
def dateOf (year : Int) (month day : Nat) : Time :=
  { Year := year, Month := month, Day := day, nanos := 0 }

/-! ## Decimal digits -/

/-- The value of a decimal digit character. -/
def digitValue (c : Char) : Nat := c.toNat - 48

/-- The number a list of decimal digits stands for, the digits read so far
standing for `acc`. -/
def readDigits (acc : Nat) (ds : List Char) : Nat :=
  ds.foldl (fun n c => n * 10 + digitValue c) acc

/-! ## Verification emails (`cmd/UserService/api/user.go`) -/

/-- The constant `http.StatusTooManyRequests`. -/
def StatusTooManyRequests : Nat := 429

/-- An `auth.UserRecord`, of which the code reads the display name and whether
the email is verified. -/
structure UserRecord where
  DisplayName : String
  EmailVerified : Bool

/-- The interface `AuthClientFirebase` with the methods the email endpoints
call besides `VerifyIDToken`. -/
structure UserAuthClient extends AuthClientFirebase where
  SetUserRole : String → String → Option GoError
  GenerateEmailVerificationLink : String → String → Except GoError String
  GetUserByEmail : String → Except GoError UserRecord

/-- The type `resendEmailRequest`. -/
structure resendEmailRequest where
  Email : String
  Role : String
  deriving DecidableEq, Repr, Inhabited

/-- The parts of the user service's `Server` that `resendEmailVerification`
reads: the Firebase client and the task distributor; `elapse` is the time that
passes between two readings of the clock. -/
structure EmailServer (W : Type) where
  auth : UserAuthClient
  taskDistributor : TaskDistributor W
  elapse : Instant → Instant

/-- What `resendEmailVerification` acts on: the rate limiter of the server, the
world of the task distributor and the clock. -/
structure EmailWorld (W : Type) where
  rateLimiter : RateLimiter
  broker : W
  clock : Instant

/-- The parts of a `gin.Context` that `resendEmailVerification` reads. -/
structure EmailContext where
  GetHeader : String → String
  ShouldBindJSON : Except GoError resendEmailRequest

/-- The function `time.Now`: the reading of the clock, which then moves on. -/
def timeNow {W : Type} (server : EmailServer W) (w : EmailWorld W) : Instant × EmailWorld W :=
  (w.clock, { w with clock := server.elapse w.clock })

/-- The method `respondWithError`. -/
def respondWithError (statusCode : Nat) (err : GoError) : Response :=
  { status := statusCode, body := errorResponse err }

/-- The condition `found && time.Since(lastSent) < time.Minute`: the clock is
read only when a last-sent time was found. -/
def sentWithinMinute {W : Type} (server : EmailServer W) (lastSent : Instant) (found : Bool)
    (w : EmailWorld W) : Bool × EmailWorld W :=
  if found then
    match timeNow server w with
    | (now, w1) => (decide (now.Sub lastSent < Minute), w1)
  else (false, w)

/-- The method `resendEmailVerification`; the result is `none` when the handler
panics, which it does when the map of the rate limiter is nil. -/
def resendEmailVerification {W : Type} (server : EmailServer W) (ctx : EmailContext)
    (w : EmailWorld W) : Option (Response × EmailWorld W) :=
  let authHeader := ctx.GetHeader "Authorization"
  if authHeader = "" then
    some (respondWithError StatusBadRequest
      (GoError.errorsNew "authorization header is not provided"), w)
  else
    let idToken := TrimPrefix authHeader "Bearer "
    match server.auth.VerifyIDToken idToken with
    | Except.error err => some (respondWithError StatusUnauthorized err, w)
    | Except.ok token =>
      let uid := token.UID
      match ctx.ShouldBindJSON with
      | Except.error err =>
        some (respondWithError StatusBadRequest (GoError.wrapf "invalid request" err), w)
      | Except.ok req =>
        match server.auth.GetUserByEmail req.Email with
        | Except.error err =>
          some (respondWithError StatusInternalServerError
            (GoError.wrapf "could not retrieve user" err), w)
        | Except.ok user =>
          if user.EmailVerified then
            some (respondWithError StatusBadRequest (GoError.errorsNew "email already verified"),
              w)
          else
            match w.rateLimiter.GetLastSent uid with
            | (lastSent, found) =>
              match sentWithinMinute server lastSent found w with
              | (true, w1) =>
                some (respondWithError StatusTooManyRequests
                  (GoError.errorsNew "please wait before resending the email"), w1)
              | (false, w1) =>
                match server.auth.GenerateEmailVerificationLink req.Email req.Role with
                | Except.error err =>
                  some (respondWithError StatusInternalServerError
                    (GoError.wrapf "could not generate verification link" err), w1)
                | Except.ok verificationLink =>
                  match timeNow server w1 with
                  | (now, w2) =>
                    match w2.rateLimiter.SetLastSent uid now with
                    | none => none
                    | some limiter =>
                      let w3 := { w2 with rateLimiter := limiter }
                      let taskPayload : PayloadSendVerifyEmail :=
                        { Name := user.DisplayName, Email := req.Email,
                          VerificationLink := verificationLink }
                      let opts := resendEmailVerificationOpts
                      match server.taskDistributor.DistributeTaskSendVerifyEmail
                          (some taskPayload) opts w3.broker with
                      | (some err, broker) =>
                        some (respondWithError StatusInternalServerError
                          (GoError.wrapf "could not distribute verification task" err),
                          { w3 with broker := broker })
                      | (none, broker) =>
                        some ({ status := StatusOK,
                                body := [("message",
                                  Json.str "Verification email resent successfully.")] },
                          { w3 with broker := broker })

/-- A Firebase client that verifies the token `mock-token` of the user
`mock-uid`, knows the unverified user of `test@example.com` and generates a
link for every email. -/
def demoUserAuthClient : UserAuthClient :=
  { VerifyIDToken := fun idToken =>
      if idToken = "mock-token" then Except.ok { UID := "mock-uid", Claims := [] }
      else Except.error (GoError.errorsNew "ID token is invalid"),
    SetUserRole := fun _ _ => none,
    GenerateEmailVerificationLink := fun email _ => Except.ok ("https://example.com/v/" ++ email),
    GetUserByEmail := fun email =>
      if email = "test@example.com" then
        Except.ok { DisplayName := "Ann", EmailVerified := false }
      else Except.error (GoError.errorsNew "user not found") }

/-- The user service over the concrete distributor, whose broker returns `fail`;
a second passes between two readings of the clock. -/
def demoEmailServer (fail : Option GoError) : EmailServer (BrokerWorld (List Task)) :=
  { auth := demoUserAuthClient,
    taskDistributor := (demoDistributor fail).toTaskDistributor,
    elapse := fun t => demoAdd t Second }

/-- A resend request of the user `mock-uid` for `test@example.com`. -/
def demoResendContext : EmailContext :=
  { GetHeader := fun key => if key = "Authorization" then "Bearer mock-token" else "",
    ShouldBindJSON := Except.ok { Email := "test@example.com", Role := "employer" } }

/-- A world in which no email has been sent: the limiter of `NewRateLimiter`,
an empty broker, the clock at `demoNow`. -/
def demoEmailWorld : EmailWorld (BrokerWorld (List Task)) :=
  { rateLimiter := NewRateLimiter, broker := emptyBrokerWorld, clock := demoNow }

/-! ## Employer and candidate endpoints of the user service (`employer.go`, `candidate.go`) -/

/-- A `token.Payload`, of which the handlers read the user name, the role and
the role id; the routes of these handlers are registered behind the middleware
that stores it in the context. -/
structure TokenPayload where
  Username : String
  Role : String
  RoleID : Int
  deriving DecidableEq, Repr

/-- The constant `http.StatusNotFound`. -/
def StatusNotFound : Nat := 404

/-- An HTTP response written with `ctx.JSON`: the status code and the JSON of
the value passed as body. -/
structure JsonResponse where
  status : Nat
  body : Json

/-- The parts of a `gin.Context` such a handler reads: the three bindings, each
filling the request it is given, and the authorization payload. -/
structure RequestContext (Req : Type) where
  ShouldBindUri : Req → Except GoError Req
  ShouldBindJSON : Req → Except GoError Req
  ShouldBindQuery : Req → Except GoError Req
  authorizationPayload : TokenPayload

/-- The value of an `int32` expression whose mathematical value is `n`. -/
def wrapInt32 (n : Int) : Int := (n + 2147483648) % 4294967296 - 2147483648

/-- The greatest `int32`. -/
def maxInt32 : Int := 2147483647

namespace pgtype

/-- The type `pgtype.Text`. -/
structure Text where
  String : String
  Valid : Bool
  deriving DecidableEq, Repr

end pgtype

/-- The type `updateEmployerRequest`. -/
structure updateEmployerRequest where
  EmployerID : Int
  BusinessName : String
  BusinessEmail : String
  BusinessPhone : String
  Location : String
  Industry : String
  ProfilePhoto : String
  BusinessDescription : String
  deriving DecidableEq, Repr, Inhabited

/-- The type `db.UpdateEmployerParams`. -/
structure UpdateEmployerParams where
  ID : Int
  BusinessName : pgtype.Text
  BusinessEmail : pgtype.Text
  BusinessPhone : pgtype.Text
  Location : pgtype.Text
  Industry : pgtype.Text
  ProfilePhoto : pgtype.Text
  BusinessDescription : pgtype.Text
  deriving DecidableEq, Repr

/-- The types `listEmployerRequest` and `listCandidatesRequest`, which have
the same fields and binding tags: `page_id` is required with minimum 1,
`page_size` is required with minimum 5 and maximum 10, both are `int32`. -/
structure listRequest where
  PageID : Int
  PageSize : Int
  deriving DecidableEq, Repr, Inhabited

/-- The type `listEmployerRequest`. -/
abbrev listEmployerRequest := listRequest

/-- The type `listCandidatesRequest`. -/
abbrev listCandidatesRequest := listRequest

/-- What the binding tags of a list request demand of the bound values. -/
def listRequest.passesValidation (req : listRequest) : Prop :=
  1 ≤ req.PageID ∧ req.PageID ≤ maxInt32 ∧ 5 ≤ req.PageSize ∧ req.PageSize ≤ 10

/-- The types `db.ListEmployersParams` and `db.ListCandidatesParams`, which
have the same fields. -/
structure ListParams where
  Username : String
  Limit : Int
  Offset : Int
  deriving DecidableEq, Repr

/-- The type `db.ListEmployersParams`. -/
abbrev ListEmployersParams := ListParams

/-- The type `db.ListCandidatesParams`. -/
abbrev ListCandidatesParams := ListParams

/-- A call of the relational store made by a handler. -/
inductive StoreCall where
  | UpdateEmployer (arg : UpdateEmployerParams)
  | ListEmployers (arg : ListEmployersParams)
  | ListCandidates (arg : ListCandidatesParams)
  deriving DecidableEq, Repr

/-- What a handler of the user service acts on: the relational state and the
log of the store calls made so far, oldest first. -/
structure StoreWorld (σ : Type) where
  db : σ
  calls : List StoreCall

/-- The methods of `db.Store` these handlers call, over rows of types `E` and
`C`, with the JSON of a row. -/
structure UserStore (σ E C : Type) where
  UpdateEmployer : UpdateEmployerParams → σ → Except GoError E × σ
  ListEmployers : ListEmployersParams → σ → Except GoError (List E) × σ
  ListCandidates : ListCandidatesParams → σ → Except GoError (List C) × σ
  employerJSON : E → Json
  candidateJSON : C → Json

/-- The declarations of package `db` that `handleDatabaseError` reads, which
are not among the sources. -/
structure DatabaseErrors where
  ErrRecordNotFound : GoError
  ErrorCode : GoError → String
  UniqueViolation : String
  ForeignKeyViolation : String

/-- The method `handleDatabaseError`. -/
def handleDatabaseError (k : DatabaseErrors) (err : GoError) : JsonResponse :=
  if err.errorsIs k.ErrRecordNotFound then
    { status := StatusNotFound, body := Json.obj (errorResponse err) }
  else if k.ErrorCode err = k.UniqueViolation then
    { status := StatusForbidden, body := Json.obj (errorResponse err) }
  else if k.ErrorCode err = k.ForeignKeyViolation then
    { status := StatusForbidden, body := Json.obj (errorResponse err) }
  else { status := StatusInternalServerError, body := Json.obj (errorResponse err) }

section UserHandlers

variable {σ E C : Type}

/-- The text of a request field as a `pgtype.Text`: valid when not empty. -/
def textOf (s : String) : pgtype.Text := { String := s, Valid := decide (s ≠ "") }

/-- The value `arg` that `updateEmployer` builds from the payload and the
bound request. -/
def updateEmployerArg (authPayload : TokenPayload) (req : updateEmployerRequest) :
    UpdateEmployerParams :=
  { ID := authPayload.RoleID,
    BusinessName := textOf req.BusinessName,
    BusinessEmail := textOf req.BusinessEmail,
    BusinessPhone := textOf req.BusinessPhone,
    Location := textOf req.Location,
    Industry := textOf req.Industry,
    ProfilePhoto := textOf req.ProfilePhoto,
    BusinessDescription := textOf req.BusinessDescription }

/-- The method `updateEmployer`: the responses written with `ctx.JSON`, in
order, and the world afterwards.  The branch that answers 401 does not return. -/
def updateEmployer (store : UserStore σ E C) (k : DatabaseErrors)
    (ctx : RequestContext updateEmployerRequest) (w : StoreWorld σ) :
    List JsonResponse × StoreWorld σ :=
  match ctx.ShouldBindUri default with
  | Except.error err =>
    ([{ status := StatusBadRequest, body := Json.obj (errorResponse err) }], w)
  | Except.ok req0 =>
    match ctx.ShouldBindJSON req0 with
    | Except.error err =>
      ([{ status := StatusBadRequest, body := Json.obj (errorResponse err) }], w)
    | Except.ok req =>
      let authPayload := ctx.authorizationPayload
      let written : List JsonResponse :=
        if authPayload.RoleID ≠ req.EmployerID then
          [{ status := StatusUnauthorized,
             body := Json.obj (errorResponse
               (GoError.errorsNew "account doesn't belong to the candidate user")) }]
        else []
      let arg := updateEmployerArg authPayload req
      match store.UpdateEmployer arg w.db with
      | (Except.error err, db) =>
        (written ++ [handleDatabaseError k err],
          { db := db, calls := w.calls ++ [StoreCall.UpdateEmployer arg] })
      | (Except.ok employer, db) =>
        (written ++ [{ status := StatusOK, body := store.employerJSON employer }],
          { db := db, calls := w.calls ++ [StoreCall.UpdateEmployer arg] })

/-- The parameters `listEmployer` and `listCandidates` build from a bound
request; the offset is computed in `int32`. -/
def listParams (authPayload : TokenPayload) (req : listRequest) : ListParams :=
  { Username := authPayload.Username,
    Limit := req.PageSize,
    Offset := wrapInt32 (wrapInt32 (req.PageID - 1) * req.PageSize) }

/-- The method `listEmployer`. -/
def listEmployer (store : UserStore σ E C) (ctx : RequestContext listEmployerRequest)
    (w : StoreWorld σ) : List JsonResponse × StoreWorld σ :=
  match ctx.ShouldBindQuery default with
  | Except.error err =>
    ([{ status := StatusBadRequest, body := Json.obj (errorResponse err) }], w)
  | Except.ok req =>
    let authPayload := ctx.authorizationPayload
    let arg := listParams authPayload req
    match store.ListEmployers arg w.db with
    | (Except.error err, db) =>
      ([{ status := StatusInternalServerError, body := Json.obj (errorResponse err) }],
        { db := db, calls := w.calls ++ [StoreCall.ListEmployers arg] })
    | (Except.ok employers, db) =>
      ([{ status := StatusOK, body := Json.arr (employers.map store.employerJSON) }],
        { db := db, calls := w.calls ++ [StoreCall.ListEmployers arg] })

/-- The method `listCandidates`. -/
def listCandidates (store : UserStore σ E C) (ctx : RequestContext listCandidatesRequest)
    (w : StoreWorld σ) : List JsonResponse × StoreWorld σ :=
  match ctx.ShouldBindQuery default with
  | Except.error err =>
    ([{ status := StatusBadRequest, body := Json.obj (errorResponse err) }], w)
  | Except.ok req =>
    let authPayload := ctx.authorizationPayload
    let arg := listParams authPayload req
    match store.ListCandidates arg w.db with
    | (Except.error err, db) =>
      ([{ status := StatusInternalServerError, body := Json.obj (errorResponse err) }],
        { db := db, calls := w.calls ++ [StoreCall.ListCandidates arg] })
    | (Except.ok candidates, db) =>
      ([{ status := StatusOK, body := Json.arr (candidates.map store.candidateJSON) }],
        { db := db, calls := w.calls ++ [StoreCall.ListCandidates arg] })

end UserHandlers

/-- Values for the declarations of package `db` in the concrete instance. -/
def demoDatabaseErrors : DatabaseErrors :=
  { ErrRecordNotFound := GoError.errorsNew "no rows in result set",
    ErrorCode := fun _ => "", UniqueViolation := "23505", ForeignKeyViolation := "23503" }

/-- A store over a table of employers, each an id with a business name:
`UpdateEmployer` renames the employer with the given id when the name is valid;
the list queries return the rows from the offset on, up to the limit. -/
def demoUserStore : UserStore (List (Int × String)) (Int × String) (Int × String) :=
  { UpdateEmployer := fun arg db =>
      match db.find? (fun row => decide (row.1 = arg.ID)) with
      | none => (Except.error (GoError.errorsNew "no rows in result set"), db)
      | some row =>
        let row1 := if arg.BusinessName.Valid then (row.1, arg.BusinessName.String) else row
        (Except.ok row1, db.map (fun r => if r.1 = arg.ID then row1 else r)),
    ListEmployers := fun arg db =>
      (Except.ok ((db.drop arg.Offset.toNat).take arg.Limit.toNat), db),
    ListCandidates := fun arg db =>
      (Except.ok ((db.drop arg.Offset.toNat).take arg.Limit.toNat), db),
    employerJSON := fun row => Json.obj [("id", Json.num row.1), ("business_name", Json.str row.2)],
    candidateJSON := fun row => Json.obj [("id", Json.num row.1), ("full_name", Json.str row.2)] }

/-- A world with the employers 1 and 2 and no calls made. -/
def demoStoreWorld : StoreWorld (List (Int × String)) :=
  { db := [(1, "Ann's"), (2, "Bob's")], calls := [] }

/-- The context of a request by the holder of role id `roleID` whose bindings
yield `req`. -/
def demoRequestContext {Req : Type} (roleID : Int) (req : Req) : RequestContext Req :=
  { ShouldBindUri := fun _ => Except.ok req,
    ShouldBindJSON := fun _ => Except.ok req,
    ShouldBindQuery := fun _ => Except.ok req,
    authorizationPayload := { Username := "ann", Role := "employer", RoleID := roleID } }

/-! ## Application endpoints (`cmd/ApplicationService/api/application.go`) -/

/-- The role constants of the generated `models.go`, which is not among the
sources. -/
structure RoleConstants where
  RoleEmployer : String
  RoleCandidate : String

/-- The type `createApplicationRequest`. -/
structure createApplicationRequest where
  CandidateID : Int
  EmployerID : Int
  ApplicationStatus : String
  ApplicationDoc : Bytes
  JobDocID : String
  deriving DecidableEq, Repr, Inhabited

/-- The type `deleteApplicationRequest`. -/
structure deleteApplicationRequest where
  CandidateUsername : String
  EmployerUsername : String
  CandidateID : Int
  EmployerID : Int
  deriving DecidableEq, Repr, Inhabited

/-- The type `db.CreateCandidateApplicationParams`. -/
structure CreateCandidateApplicationParams where
  CandidateID : Int
  EmployerID : Int
  ElasticsearchDocID : String
  JobDocID : String
  ApplicationStatus : String
  deriving DecidableEq, Repr, Inhabited

/-- The type `db.CreateEmployerApplicationParams`. -/
structure CreateEmployerApplicationParams where
  EmployerID : Int
  CandidateID : Int
  Message : String
  ApplicationStatus : String
  deriving DecidableEq, Repr, Inhabited

/-- The type `db.DeleteCandidateApplicationParams`. -/
structure DeleteCandidateApplicationParams where
  CandidateID : Int
  EmployerID : Int
  deriving DecidableEq, Repr, Inhabited

/-- The type `db.DeleteEmployerApplicationParams`. -/
structure DeleteEmployerApplicationParams where
  CandidateID : Int
  EmployerID : Int
  deriving DecidableEq, Repr, Inhabited

/-- The record types of the application service: the parameter types above, an
application document as a JSON object, and the remaining columns of a
candidate application as `CR`. -/
abbrev applicationModels (CR : Type) : Models :=
  { Candidate := Unit, CreateCandidateParams := Unit, UpdateCandidateParams := Unit,
    PastExperience := Unit, CreatePastExperienceParams := Unit,
    UpdatePastExperienceParams := Unit,
    CreateCandidateApplicationParams := CreateCandidateApplicationParams,
    DeleteCandidateApplicationParams := DeleteCandidateApplicationParams,
    DeleteEmployerApplicationParams := DeleteEmployerApplicationParams,
    CandidateApplicationRow := CR, AppDoc := JsonMap }

/-- The `db.Store` of the application service as the SQL store implements it:
the transaction executor, the generated queries, the query
`CreateEmployerApplication` over rows of type `ER`, and the JSON of a row. -/
structure ApplicationStore (σ W CR ER : Type) where
  execTx : Executor σ W
  queries : Queries (applicationModels CR) σ
  CreateEmployerApplication :
    CreateEmployerApplicationParams → σ → (ER × Option GoError) × σ
  candidateApplicationJSON : CandidateApplication CR → Json
  employerApplicationJSON : ER → Json

/-- The function `convertApplicationDoc`; `unmarshalMap` is `json.Unmarshal`
into a `map[string]interface{}`. -/
def convertApplicationDoc (unmarshalMap : Bytes → Except GoError JsonMap) (app : Bytes) :
    Except GoError JsonMap :=
  match unmarshalMap app with
  | Except.error err => Except.error (errorfV "invalid application_doc" err)
  | Except.ok applicationDoc => Except.ok applicationDoc

/-- The function `getMessageFromApplicationDoc`. -/
def getMessageFromApplicationDoc (unmarshalMap : Bytes → Except GoError JsonMap)
    (doc : Bytes) : Except GoError String :=
  match unmarshalMap doc with
  | Except.error err => Except.error (GoError.wrapf "failed to unmarshal ApplicationDoc" err)
  | Except.ok obj =>
    match getField obj "message" with
    | some (Json.str message) => Except.ok message
    | _ => Except.error (GoError.errorsNew "message key not found or is not a string")

/-- The response `ctx.JSON(status, service.ErrorResponse(err))`. -/
def errorJSON (status : Nat) (err : GoError) : JsonResponse :=
  { status := status, body := Json.obj (errorResponse err) }

section ApplicationHandlers

variable {σ W CR ER : Type}

/-- The method `createApplication`: the responses written and the world
afterwards. -/
def createApplication (server : ApplicationServer W) (store : ApplicationStore σ W CR ER)
    (roles : RoleConstants) (unmarshalMap : Bytes → Except GoError JsonMap)
    (isEmployer : Bool) (ctx : RequestContext createApplicationRequest) (w : TxWorld σ W) :
    List JsonResponse × TxWorld σ W :=
  match ctx.ShouldBindJSON default with
  | Except.error err => ([errorJSON StatusBadRequest err], w)
  | Except.ok req =>
    match validateIDs req.CandidateID req.EmployerID with
    | some err => ([errorJSON StatusBadRequest err], w)
    | none =>
      let authPayload := ctx.authorizationPayload
      match convertApplicationDoc unmarshalMap req.ApplicationDoc with
      | Except.error err => ([errorJSON StatusBadRequest err], w)
      | Except.ok appDoc =>
        if isEmployer then
          if authPayload.Role ≠ roles.RoleEmployer ∨ authPayload.RoleID ≠ req.EmployerID then
            ([errorJSON StatusUnauthorized
              (GoError.errorsNew "account is not employer or belong to user")], w)
          else
            match getMessageFromApplicationDoc unmarshalMap req.ApplicationDoc with
            | Except.error err => ([errorJSON StatusBadRequest err], w)
            | Except.ok message =>
              let arg : CreateEmployerApplicationParams :=
                { EmployerID := authPayload.RoleID, CandidateID := req.CandidateID,
                  Message := message, ApplicationStatus := req.ApplicationStatus }
              match callQuery "CreateEmployerApplication" store.CreateEmployerApplication
                  arg w with
              | ((_, some err), w1) => ([errorJSON StatusInternalServerError err], w1)
              | ((result, none), w1) =>
                ([{ status := StatusOK, body := store.employerApplicationJSON result }], w1)
        else
          if authPayload.Role ≠ roles.RoleCandidate ∨ authPayload.RoleID ≠ req.CandidateID then
            ([errorJSON StatusUnauthorized
              (GoError.errorsNew "account is not candidate or belong to user")], w)
          else
            let docID := sprintfIDs authPayload.RoleID req.EmployerID
            let arg : CreateCandidateApplicationTxParams (applicationModels CR) W :=
              { CreateCandidateApplicationParams :=
                  { CandidateID := authPayload.RoleID, EmployerID := req.EmployerID,
                    ElasticsearchDocID := docID, JobDocID := req.JobDocID,
                    ApplicationStatus := req.ApplicationStatus },
                AppDoc := appDoc,
                AfterCreate := afterCandidateCreateApp server }
            match CreateCandidateApplicationTx store.execTx store.queries arg w with
            | ((_, some err), w1) => ([errorJSON StatusInternalServerError err], w1)
            | ((result, none), w1) =>
              ([{ status := StatusOK, body := store.candidateApplicationJSON result }], w1)

/-- The method `deleteApplication`. -/
def deleteApplication (server : ApplicationServer W) (store : ApplicationStore σ W CR ER)
    (roles : RoleConstants) (isEmployer : Bool)
    (ctx : RequestContext deleteApplicationRequest) (w : TxWorld σ W) :
    List JsonResponse × TxWorld σ W :=
  match ctx.ShouldBindUri default with
  | Except.error err => ([errorJSON StatusBadRequest err], w)
  | Except.ok req0 =>
    match ctx.ShouldBindJSON req0 with
    | Except.error err => ([errorJSON StatusBadRequest err], w)
    | Except.ok req =>
      match validateIDs req.CandidateID req.EmployerID with
      | some err => ([errorJSON StatusBadRequest err], w)
      | none =>
        let authPayload := ctx.authorizationPayload
        if isEmployer then
          if authPayload.Role ≠ roles.RoleEmployer ∨ authPayload.RoleID ≠ req.EmployerID then
            ([errorJSON StatusUnauthorized
              (GoError.errorsNew "account is not employer or belong to user")], w)
          else
            let docID := sprintfIDs authPayload.RoleID req.CandidateID
            let arg : DeleteApplicationTxParams (applicationModels CR) W :=
              { DeleteCandidateApplicationParams := default,
                DeleteEmployerApplicationParams :=
                  { CandidateID := req.CandidateID, EmployerID := authPayload.RoleID },
                IsEmployer := isEmployer, DocID := docID,
                AfterDelete := afterEmployerDeleteApp server }
            match DeleteApplicationTx store.execTx store.queries arg w with
            | ((_, some err), w1) => ([errorJSON StatusInternalServerError err], w1)
            | ((_, none), w1) =>
              ([{ status := StatusOK, body := Json.obj (statusResponse "deleted") }], w1)
        else
          if authPayload.Role ≠ roles.RoleCandidate ∨ authPayload.RoleID ≠ req.CandidateID then
            ([errorJSON StatusUnauthorized
              (GoError.errorsNew "account is not employer or belong to user")], w)
          else
            let docID := sprintfIDs authPayload.RoleID req.EmployerID
            let arg : DeleteApplicationTxParams (applicationModels CR) W :=
              { DeleteCandidateApplicationParams :=
                  { CandidateID := authPayload.RoleID, EmployerID := req.EmployerID },
                DeleteEmployerApplicationParams := default,
                IsEmployer := isEmployer, DocID := docID,
                AfterDelete := afterCandidateDeleteApp server }
            match DeleteApplicationTx store.execTx store.queries arg w with
            | ((_, some err), w1) => ([errorJSON StatusInternalServerError err], w1)
            | ((_, none), w1) =>
              ([{ status := StatusOK, body := Json.obj (statusResponse "deleted") }], w1)

end ApplicationHandlers

/-- Queries of the concrete application store over a table of candidate
applications: creation appends the row and returns it, deletion removes the
rows of the pair. -/
def demoApplicationQueries :
    Queries (applicationModels Unit) (List CreateCandidateApplicationParams) :=
  { CreateCandidate := fun _ db => (((), none), db),
    UpdateCandidate := fun _ db => (((), none), db),
    CreatePastExperience := fun _ db => (((), none), db),
    UpdatePastExperience := fun _ db => (((), none), db),
    DeletePastExperience := fun _ db => (none, db),
    CreateCandidateApplication := fun (p : CreateCandidateApplicationParams) db =>
      (({ ElasticsearchDocID := p.ElasticsearchDocID, row := () }, none), db ++ [p]),
    DeleteCandidateApplication := fun (p : DeleteCandidateApplicationParams) db =>
      (none, db.filter (fun r =>
        !(decide (r.CandidateID = p.CandidateID) && decide (r.EmployerID = p.EmployerID)))),
    DeleteEmployerApplication := fun _ db => (none, db) }

/-- The concrete application store: the executor `execTx` over those queries. -/
def demoApplicationStore :
    ApplicationStore (List CreateCandidateApplicationParams) (BrokerWorld (List Task))
      Unit Unit :=
  { execTx := execTx,
    queries := demoApplicationQueries,
    CreateEmployerApplication := fun _ db => (((), none), db),
    candidateApplicationJSON := fun r =>
      Json.obj [("elasticsearch_doc_id", Json.str r.ElasticsearchDocID)],
    employerApplicationJSON := fun _ => Json.null }

/-- Values for the role constants in the concrete instance. -/
def demoRoles : RoleConstants := { RoleEmployer := "employer", RoleCandidate := "candidate" }

/-- A decoder that knows the document `message: hi`. -/
def demoUnmarshalMap (data : Bytes) : Except GoError JsonMap :=
  if data = bytesOf "\x7b\"message\":\"hi\"\x7d" then Except.ok [("message", Json.str "hi")]
  else Except.error (GoError.errorsNew "invalid character")

/-- The world of the concrete application service before any request. -/
def demoApplicationTxWorld :
    TxWorld (List CreateCandidateApplicationParams) (BrokerWorld (List Task)) :=
  { db := [], ext := emptyBrokerWorld, log := [] }

/-- The context of a request by candidate 5 whose bindings yield `req`. -/
def demoCandidateContext {Req : Type} (req : Req) : RequestContext Req :=
  { ShouldBindUri := fun _ => Except.ok req,
    ShouldBindJSON := fun _ => Except.ok req,
    ShouldBindQuery := fun _ => Except.ok req,
    authorizationPayload := { Username := "ann", Role := "candidate", RoleID := 5 } }

/-- The creation request of candidate 5 for employer 7. -/
def demoCreateApplicationRequest : createApplicationRequest :=
  { CandidateID := 5, EmployerID := 7, ApplicationStatus := "pending",
    ApplicationDoc := bytesOf "\x7b\"message\":\"hi\"\x7d", JobDocID := "job1" }

/-- The deletion request of candidate 5 for employer 7. -/
def demoDeleteApplicationRequest : deleteApplicationRequest :=
  { CandidateUsername := "", EmployerUsername := "", CandidateID := 5, EmployerID := 7 }

/-- The statement `if c { m[name] = value }` on a Go map. -/
def setFieldIf (c : Prop) [Decidable c] (m : JsonMap) (name : String) (value : Json) :
    JsonMap :=
  if c then setField m name value else m

/-- A store with the candidate document of user `u1`, which holds one past
experience: two years in a cafe, still going on. -/
def demoExperienceDocuments : Documents :=
  putDocument (fun _ _ => none) CandidateIdx "u1"
    [("user_uid", Json.str "u1"),
     ("past_experience", Json.arr [Json.obj
       [("id", Json.str "e1"), ("industry", Json.str "food"), ("employer", Json.str "cafe"),
        ("length", Json.num 2), ("present", Json.bool true)]])]

/-- An update of the experience `e1` that carries a new industry and nothing
else: no dates, and the present flag at its zero value. -/
def demoIndustryUpdate : es.PastExperience :=
  { (default : es.PastExperience) with ID := "e1", Industry := "retail" }

/-! ## Theorems -/

/-- The executor modelled from the spec commits exactly when the function returns nil. -/
theorem execTx_commitsExactlyOnNil {σ ω : Type} : CommitsExactlyOnNil (execTx : Executor σ ω) := by
  intro α fn w
  unfold execTx
  rcases h : fn w with ⟨⟨r, _ | e⟩, w1⟩ <;> simp

/-- Under an executor that commits exactly on nil, an operation whose function
returns the error `e` fails with `e` and leaves the relational state as it was. -/
theorem failedUncommitted_of_fn {σ ω α : Type} (exec : Executor σ ω)
    (hexec : CommitsExactlyOnNil exec) (fn : TxBody σ ω α) (w : TxWorld σ ω) (e : GoError)
    (h : (fn w).1.2 = some e) : FailedUncommitted w e (exec α fn w) := by
  rw [hexec α fn w]
  simp [FailedUncommitted, h]

/-- C1: for each of the seven side-effect-coupled transactions, if the
relational mutation succeeds and the callback returns an error `e`, then the
function run inside the transaction returns `e`; hence under an executor that
commits exactly when that function returns nil the operation returns `e` and
the relational state is the one before the operation (nothing is committed). -/
theorem callback_error_is_returned_and_not_committed {M : Models} {σ ω : Type}
    (exec : Executor σ ω) (hexec : CommitsExactlyOnNil exec) (q : Queries M σ)
    (w : TxWorld σ ω) (e : GoError) :
    (∀ arg : CreateCandidateApplicationTxParams M ω,
      (q.CreateCandidateApplication arg.CreateCandidateApplicationParams w.db).1.2 = none →
      (arg.AfterCreate
        (q.CreateCandidateApplication arg.CreateCandidateApplicationParams
            w.db).1.1.ElasticsearchDocID
        arg.AppDoc w.ext).1 = some e →
      (CreateCandidateApplicationTxFn q arg w).1.2 = some e ∧
        FailedUncommitted w e (CreateCandidateApplicationTx exec q arg w)) ∧
    (∀ arg : DeleteApplicationTxParams M ω,
      (if arg.IsEmployer
        then (q.DeleteEmployerApplication arg.DeleteEmployerApplicationParams w.db).1
        else (q.DeleteCandidateApplication arg.DeleteCandidateApplicationParams w.db).1) = none →
      (arg.AfterDelete arg.DocID w.ext).1 = some e →
      (DeleteApplicationTxFn q arg w).1.2 = some e ∧
        FailedUncommitted w e (DeleteApplicationTx exec q arg w)) ∧
    (∀ arg : CreateCandidateTxParams M ω,
      (q.CreateCandidate arg.CreateCandidateParams w.db).1.2 = none →
      (arg.AfterCreate (q.CreateCandidate arg.CreateCandidateParams w.db).1.1 w.ext).1 = some e →
      (CreateCandidateTxFn q arg w).1.2 = some e ∧
        FailedUncommitted w e (CreateCandidateTx exec q arg w)) ∧
    (∀ arg : UpdateCandidateTxParams M ω,
      (q.UpdateCandidate arg.UpdateCandidateParams w.db).1.2 = none →
      (arg.AfterCreate (q.UpdateCandidate arg.UpdateCandidateParams w.db).1.1 w.ext).1 = some e →
      (UpdateCandidateTxFn q arg w).1.2 = some e ∧
        FailedUncommitted w e (UpdateCandidateTx exec q arg w)) ∧
    (∀ arg : CreatePastExperienceTxParams M ω,
      (q.CreatePastExperience arg.CreatePastExperienceParams w.db).1.2 = none →
      (arg.AfterCreate (q.CreatePastExperience arg.CreatePastExperienceParams w.db).1.1
        w.ext).1 = some e →
      (CreatePastExperienceTxFn q arg w).1.2 = some e ∧
        FailedUncommitted w e (CreatePastExperienceTx exec q arg w)) ∧
    (∀ arg : UpdatePastExperienceTxParams M ω,
      (q.UpdatePastExperience arg.UpdatePastExperienceParams w.db).1.2 = none →
      (arg.AfterUpdate (q.UpdatePastExperience arg.UpdatePastExperienceParams w.db).1.1
        w.ext).1 = some e →
      (UpdatePastExperienceTxFn q arg w).1.2 = some e ∧
        FailedUncommitted w e (UpdatePastExperienceTx exec q arg w)) ∧
    (∀ arg : DeletePastExperienceTxParams ω,
      (q.DeletePastExperience arg.DeletePastExperienceParams w.db).1 = none →
      (arg.AfterDelete arg.DeletePastExperienceParams.ID
        arg.DeletePastExperienceParams.CandidateID w.ext).1 = some e →
      (DeletePastExperienceTxFn q arg w).1.2 = some e ∧
        FailedUncommitted w e (DeletePastExperienceTx exec q arg w)) := by
  refine ⟨?_, ?_, ?_, ?_, ?_, ?_, ?_⟩
  · intro arg hq hcb
    have h : (CreateCandidateApplicationTxFn q arg w).1.2 = some e := by
      revert hq hcb
      unfold CreateCandidateApplicationTxFn callQuery callCallback
      rcases q.CreateCandidateApplication arg.CreateCandidateApplicationParams w.db with ⟨⟨r, _ |
          err⟩, db1⟩ <;> simp
    exact ⟨h, failedUncommitted_of_fn exec hexec _ w e h⟩
  · intro arg hq hcb
    have h : (DeleteApplicationTxFn q arg w).1.2 = some e := by
      revert hq hcb
      unfold DeleteApplicationTxFn callExec callCallback
      cases arg.IsEmployer
      · rcases q.DeleteCandidateApplication arg.DeleteCandidateApplicationParams w.db with
          ⟨_ | err, db1⟩ <;> simp
      · rcases q.DeleteEmployerApplication arg.DeleteEmployerApplicationParams w.db with
          ⟨_ | err, db1⟩ <;> simp
    exact ⟨h, failedUncommitted_of_fn exec hexec _ w e h⟩
  · intro arg hq hcb
    have h : (CreateCandidateTxFn q arg w).1.2 = some e := by
      revert hq hcb
      unfold CreateCandidateTxFn callQuery callCallback
      rcases q.CreateCandidate arg.CreateCandidateParams w.db with ⟨⟨r, _ | err⟩, db1⟩ <;> simp
    exact ⟨h, failedUncommitted_of_fn exec hexec _ w e h⟩
  · intro arg hq hcb
    have h : (UpdateCandidateTxFn q arg w).1.2 = some e := by
      revert hq hcb
      unfold UpdateCandidateTxFn callQuery callCallback
      rcases q.UpdateCandidate arg.UpdateCandidateParams w.db with ⟨⟨r, _ | err⟩, db1⟩ <;> simp
    exact ⟨h, failedUncommitted_of_fn exec hexec _ w e h⟩
  · intro arg hq hcb
    have h : (CreatePastExperienceTxFn q arg w).1.2 = some e := by
      revert hq hcb
      unfold CreatePastExperienceTxFn callQuery callCallback
      rcases q.CreatePastExperience arg.CreatePastExperienceParams w.db with ⟨⟨r, _ | err⟩, db1⟩ <;>
          simp
    exact ⟨h, failedUncommitted_of_fn exec hexec _ w e h⟩
  · intro arg hq hcb
    have h : (UpdatePastExperienceTxFn q arg w).1.2 = some e := by
      revert hq hcb
      unfold UpdatePastExperienceTxFn callQuery callCallback
      rcases q.UpdatePastExperience arg.UpdatePastExperienceParams w.db with ⟨⟨r, _ | err⟩, db1⟩ <;>
          simp
    exact ⟨h, failedUncommitted_of_fn exec hexec _ w e h⟩
  · intro arg hq hcb
    have h : (DeletePastExperienceTxFn q arg w).1.2 = some e := by
      revert hq hcb
      simp only [DeletePastExperienceTxFn, callExec, callCallback]
      rcases q.DeletePastExperience arg.DeletePastExperienceParams w.db with ⟨_ | err, db1⟩ <;> simp
    exact ⟨h, failedUncommitted_of_fn exec hexec _ w e h⟩

/-- The witness of C1: in the concrete instance, with the executor modelled
from the spec, each of the seven operations whose callback fails returns the
callback's error and leaves the table as it was. -/
theorem callback_error_is_returned_and_not_committed_witness :
    CommitsExactlyOnNil (execTx : Executor (List Nat) (List String)) ∧
    FailedUncommitted demoWorld brokerDown
      (CreateCandidateApplicationTx execTx demoQueries
        (demoCreateAppArg 7 failingCallback) demoWorld) ∧
    FailedUncommitted demoWorld brokerDown
      (DeleteApplicationTx execTx demoQueries
        (demoDeleteAppArg 3 true failingCallback) demoWorld) ∧
    FailedUncommitted demoWorld brokerDown
      (CreateCandidateTx execTx demoQueries
        (demoCreateCandidateArg 7 failingCallback) demoWorld) ∧
    FailedUncommitted demoWorld brokerDown
      (UpdateCandidateTx execTx demoQueries
        (demoUpdateCandidateArg 7 failingCallback) demoWorld) ∧
    FailedUncommitted demoWorld brokerDown
      (CreatePastExperienceTx execTx demoQueries
        (demoCreatePastExperienceArg 7 failingCallback) demoWorld) ∧
    FailedUncommitted demoWorld brokerDown
      (UpdatePastExperienceTx execTx demoQueries
        (demoUpdatePastExperienceArg 7 failingCallback) demoWorld) ∧
    FailedUncommitted demoWorld brokerDown
      (DeletePastExperienceTx execTx demoQueries
        (demoDeletePastExperienceArg 3 failingCallback) demoWorld) :=
  ⟨execTx_commitsExactlyOnNil,
    ((callback_error_is_returned_and_not_committed execTx execTx_commitsExactlyOnNil
      demoQueries demoWorld brokerDown).1
        (demoCreateAppArg 7 failingCallback) rfl rfl).2,
    ((callback_error_is_returned_and_not_committed execTx execTx_commitsExactlyOnNil
      demoQueries demoWorld brokerDown).2.1
        (demoDeleteAppArg 3 true failingCallback) rfl rfl).2,
    ((callback_error_is_returned_and_not_committed execTx execTx_commitsExactlyOnNil
      demoQueries demoWorld brokerDown).2.2.1
        (demoCreateCandidateArg 7 failingCallback) rfl rfl).2,
    ((callback_error_is_returned_and_not_committed execTx execTx_commitsExactlyOnNil
      demoQueries demoWorld brokerDown).2.2.2.1
        (demoUpdateCandidateArg 7 failingCallback) rfl rfl).2,
    ((callback_error_is_returned_and_not_committed execTx execTx_commitsExactlyOnNil
      demoQueries demoWorld brokerDown).2.2.2.2.1
        (demoCreatePastExperienceArg 7 failingCallback) rfl rfl).2,
    ((callback_error_is_returned_and_not_committed execTx execTx_commitsExactlyOnNil
      demoQueries demoWorld brokerDown).2.2.2.2.2.1
        (demoUpdatePastExperienceArg 7 failingCallback) rfl rfl).2,
    ((callback_error_is_returned_and_not_committed execTx execTx_commitsExactlyOnNil
      demoQueries demoWorld brokerDown).2.2.2.2.2.2
        (demoDeletePastExperienceArg 3 failingCallback) rfl rfl).2⟩

/-- C2: in each of the seven side-effect-coupled transactions (run by an
executor that commits exactly on nil), when the relational mutation returns
without error the calls made are the mutation followed by exactly one
invocation of the callback, whose result is the result of the operation; when
the mutation returns an error `e`, the mutation is the only call made, the
callback is never invoked, and the operation returns `e`. -/
theorem callback_runs_once_after_successful_mutation {M : Models} {σ ω : Type}
    (exec : Executor σ ω) (hexec : CommitsExactlyOnNil exec) (q : Queries M σ)
    (w : TxWorld σ ω) :
    (∀ arg : CreateCandidateApplicationTxParams M ω,
      ((q.CreateCandidateApplication arg.CreateCandidateApplicationParams w.db).1.2 = none →
        CallbackOnceAfterMutation w "CreateCandidateApplication" "AfterCreate"
          (arg.AfterCreate (q.CreateCandidateApplication arg.CreateCandidateApplicationParams
            w.db).1.1.ElasticsearchDocID arg.AppDoc)
          (CreateCandidateApplicationTx exec q arg w)) ∧
      (∀ e : GoError, (q.CreateCandidateApplication arg.CreateCandidateApplicationParams w.db).1.2 =
          some e →
        CallbackNeverInvoked w "CreateCandidateApplication" e (CreateCandidateApplicationTx exec q
            arg w))) ∧
    (∀ arg : DeleteApplicationTxParams M ω,
      (arg.IsEmployer = true →
        ((q.DeleteEmployerApplication arg.DeleteEmployerApplicationParams w.db).1 = none →
          CallbackOnceAfterMutation w "DeleteEmployerApplication" "AfterDelete"
            (arg.AfterDelete arg.DocID) (DeleteApplicationTx exec q arg w)) ∧
        (∀ e : GoError,
          (q.DeleteEmployerApplication arg.DeleteEmployerApplicationParams w.db).1 = some e →
          CallbackNeverInvoked w "DeleteEmployerApplication" e
            (DeleteApplicationTx exec q arg w))) ∧
      (arg.IsEmployer = false →
        ((q.DeleteCandidateApplication arg.DeleteCandidateApplicationParams w.db).1 = none →
          CallbackOnceAfterMutation w "DeleteCandidateApplication" "AfterDelete"
            (arg.AfterDelete arg.DocID) (DeleteApplicationTx exec q arg w)) ∧
        (∀ e : GoError,
          (q.DeleteCandidateApplication arg.DeleteCandidateApplicationParams w.db).1 = some e →
          CallbackNeverInvoked w "DeleteCandidateApplication" e
            (DeleteApplicationTx exec q arg w)))) ∧
    (∀ arg : CreateCandidateTxParams M ω,
      ((q.CreateCandidate arg.CreateCandidateParams w.db).1.2 = none →
        CallbackOnceAfterMutation w "CreateCandidate" "AfterCreate"
          (arg.AfterCreate (q.CreateCandidate arg.CreateCandidateParams w.db).1.1)
          (CreateCandidateTx exec q arg w)) ∧
      (∀ e : GoError, (q.CreateCandidate arg.CreateCandidateParams w.db).1.2 = some e →
        CallbackNeverInvoked w "CreateCandidate" e (CreateCandidateTx exec q arg w))) ∧
    (∀ arg : UpdateCandidateTxParams M ω,
      ((q.UpdateCandidate arg.UpdateCandidateParams w.db).1.2 = none →
        CallbackOnceAfterMutation w "UpdateCandidate" "AfterCreate"
          (arg.AfterCreate (q.UpdateCandidate arg.UpdateCandidateParams w.db).1.1)
          (UpdateCandidateTx exec q arg w)) ∧
      (∀ e : GoError, (q.UpdateCandidate arg.UpdateCandidateParams w.db).1.2 = some e →
        CallbackNeverInvoked w "UpdateCandidate" e (UpdateCandidateTx exec q arg w))) ∧
    (∀ arg : CreatePastExperienceTxParams M ω,
      ((q.CreatePastExperience arg.CreatePastExperienceParams w.db).1.2 = none →
        CallbackOnceAfterMutation w "CreatePastExperience" "AfterCreate"
          (arg.AfterCreate (q.CreatePastExperience arg.CreatePastExperienceParams w.db).1.1)
          (CreatePastExperienceTx exec q arg w)) ∧
      (∀ e : GoError, (q.CreatePastExperience arg.CreatePastExperienceParams w.db).1.2 = some e →
        CallbackNeverInvoked w "CreatePastExperience" e (CreatePastExperienceTx exec q arg w))) ∧
    (∀ arg : UpdatePastExperienceTxParams M ω,
      ((q.UpdatePastExperience arg.UpdatePastExperienceParams w.db).1.2 = none →
        CallbackOnceAfterMutation w "UpdatePastExperience" "AfterUpdate"
          (arg.AfterUpdate (q.UpdatePastExperience arg.UpdatePastExperienceParams w.db).1.1)
          (UpdatePastExperienceTx exec q arg w)) ∧
      (∀ e : GoError, (q.UpdatePastExperience arg.UpdatePastExperienceParams w.db).1.2 = some e →
        CallbackNeverInvoked w "UpdatePastExperience" e (UpdatePastExperienceTx exec q arg w))) ∧
    (∀ arg : DeletePastExperienceTxParams ω,
      ((q.DeletePastExperience arg.DeletePastExperienceParams w.db).1 = none →
        CallbackOnceAfterMutation w "DeletePastExperience" "AfterDelete"
          (arg.AfterDelete arg.DeletePastExperienceParams.ID
            arg.DeletePastExperienceParams.CandidateID)
          (DeletePastExperienceTx exec q arg w)) ∧
      (∀ e : GoError, (q.DeletePastExperience arg.DeletePastExperienceParams w.db).1 = some e →
        CallbackNeverInvoked w "DeletePastExperience" e (DeletePastExperienceTx exec q arg w))) :=
            by
  refine ⟨?_, ?_, ?_, ?_, ?_, ?_, ?_⟩
  · intro arg
    simp only [CreateCandidateApplicationTx, CallbackOnceAfterMutation, CallbackNeverInvoked, hexec
        _ _ w,
      CreateCandidateApplicationTxFn, callQuery, callCallback]
    rcases q.CreateCandidateApplication arg.CreateCandidateApplicationParams w.db with ⟨⟨r, _ |
        err⟩, db1⟩
    · simp
      split <;> simp
    · simp
  · intro arg
    simp only [DeleteApplicationTx, CallbackOnceAfterMutation, CallbackNeverInvoked,
      hexec _ _ w, DeleteApplicationTxFn, callExec, callCallback]
    constructor
    · intro hemp
      rw [hemp]
      rcases q.DeleteEmployerApplication arg.DeleteEmployerApplicationParams w.db with
        ⟨_ | err, db1⟩
      · simp
        split <;> simp
      · simp
    · intro hemp
      rw [hemp]
      rcases q.DeleteCandidateApplication arg.DeleteCandidateApplicationParams w.db with
        ⟨_ | err, db1⟩
      · simp
        split <;> simp
      · simp
  · intro arg
    simp only [CreateCandidateTx, CallbackOnceAfterMutation, CallbackNeverInvoked, hexec _ _ w,
      CreateCandidateTxFn, callQuery, callCallback]
    rcases q.CreateCandidate arg.CreateCandidateParams w.db with ⟨⟨r, _ | err⟩, db1⟩
    · simp
      split <;> simp
    · simp
  · intro arg
    simp only [UpdateCandidateTx, CallbackOnceAfterMutation, CallbackNeverInvoked, hexec _ _ w,
      UpdateCandidateTxFn, callQuery, callCallback]
    rcases q.UpdateCandidate arg.UpdateCandidateParams w.db with ⟨⟨r, _ | err⟩, db1⟩
    · simp
      split <;> simp
    · simp
  · intro arg
    simp only [CreatePastExperienceTx, CallbackOnceAfterMutation, CallbackNeverInvoked, hexec _ _ w,
      CreatePastExperienceTxFn, callQuery, callCallback]
    rcases q.CreatePastExperience arg.CreatePastExperienceParams w.db with ⟨⟨r, _ | err⟩, db1⟩
    · simp
      split <;> simp
    · simp
  · intro arg
    simp only [UpdatePastExperienceTx, CallbackOnceAfterMutation, CallbackNeverInvoked, hexec _ _ w,
      UpdatePastExperienceTxFn, callQuery, callCallback]
    rcases q.UpdatePastExperience arg.UpdatePastExperienceParams w.db with ⟨⟨r, _ | err⟩, db1⟩
    · simp
      split <;> simp
    · simp
  · intro arg
    simp only [DeletePastExperienceTx, CallbackOnceAfterMutation, CallbackNeverInvoked, hexec _ _ w,
      DeletePastExperienceTxFn, callExec, callCallback]
    rcases q.DeletePastExperience arg.DeletePastExperienceParams w.db with ⟨_ | err, db1⟩
    · simp
      split <;> simp
    · simp

/-- The witness of C2: in the concrete instance every operation whose mutation
succeeds runs its callback once after the mutation, and every operation whose
mutation fails returns the mutation's error without running the callback. -/
theorem callback_runs_once_after_successful_mutation_witness :
    CallbackOnceAfterMutation demoWorld "CreateCandidateApplication" "AfterCreate"
        (recordingCallback "5_7")
      (CreateCandidateApplicationTx execTx demoQueries (demoCreateAppArg 3 recordingCallback)
          demoWorld) ∧
    CallbackNeverInvoked demoWorld "CreateCandidateApplication" (GoError.errorsNew "constraint")
      (CreateCandidateApplicationTx execTx demoQueries (demoCreateAppArg 0 recordingCallback)
          demoWorld) ∧
    CallbackOnceAfterMutation demoWorld "DeleteEmployerApplication" "AfterDelete" (recordingCallback
        "5_7")
      (DeleteApplicationTx execTx demoQueries (demoDeleteAppArg 3 true recordingCallback) demoWorld)
          ∧
    CallbackNeverInvoked demoWorld "DeleteEmployerApplication" (GoError.errorsNew "constraint")
      (DeleteApplicationTx execTx demoQueries (demoDeleteAppArg 0 true recordingCallback) demoWorld)
          ∧
    CallbackOnceAfterMutation demoWorld "DeleteCandidateApplication" "AfterDelete"
        (recordingCallback "5_7")
      (DeleteApplicationTx execTx demoQueries (demoDeleteAppArg 3 false recordingCallback)
          demoWorld) ∧
    CallbackNeverInvoked demoWorld "DeleteCandidateApplication" (GoError.errorsNew "constraint")
      (DeleteApplicationTx execTx demoQueries (demoDeleteAppArg 0 false recordingCallback)
          demoWorld) ∧
    CallbackOnceAfterMutation demoWorld "CreateCandidate" "AfterCreate" (recordingCallback
        "candidate")
      (CreateCandidateTx execTx demoQueries (demoCreateCandidateArg 3 recordingCallback) demoWorld)
          ∧
    CallbackNeverInvoked demoWorld "CreateCandidate" (GoError.errorsNew "constraint")
      (CreateCandidateTx execTx demoQueries (demoCreateCandidateArg 0 recordingCallback) demoWorld)
          ∧
    CallbackOnceAfterMutation demoWorld "UpdateCandidate" "AfterCreate" (recordingCallback
        "candidate")
      (UpdateCandidateTx execTx demoQueries (demoUpdateCandidateArg 3 recordingCallback) demoWorld)
          ∧
    CallbackNeverInvoked demoWorld "UpdateCandidate" (GoError.errorsNew "constraint")
      (UpdateCandidateTx execTx demoQueries (demoUpdateCandidateArg 0 recordingCallback) demoWorld)
          ∧
    CallbackOnceAfterMutation demoWorld "CreatePastExperience" "AfterCreate" (recordingCallback
        "experience")
      (CreatePastExperienceTx execTx demoQueries (demoCreatePastExperienceArg 3 recordingCallback)
          demoWorld) ∧
    CallbackNeverInvoked demoWorld "CreatePastExperience" (GoError.errorsNew "constraint")
      (CreatePastExperienceTx execTx demoQueries (demoCreatePastExperienceArg 0 recordingCallback)
          demoWorld) ∧
    CallbackOnceAfterMutation demoWorld "UpdatePastExperience" "AfterUpdate" (recordingCallback
        "experience")
      (UpdatePastExperienceTx execTx demoQueries (demoUpdatePastExperienceArg 3 recordingCallback)
          demoWorld) ∧
    CallbackNeverInvoked demoWorld "UpdatePastExperience" (GoError.errorsNew "constraint")
      (UpdatePastExperienceTx execTx demoQueries (demoUpdatePastExperienceArg 0 recordingCallback)
          demoWorld) ∧
    CallbackOnceAfterMutation demoWorld "DeletePastExperience" "AfterDelete" (recordingCallback
        "experience")
      (DeletePastExperienceTx execTx demoQueries (demoDeletePastExperienceArg 3 recordingCallback)
          demoWorld) ∧
    CallbackNeverInvoked demoWorld "DeletePastExperience" (GoError.errorsNew "constraint")
      (DeletePastExperienceTx execTx demoQueries (demoDeletePastExperienceArg 0 recordingCallback)
          demoWorld) :=
  ⟨(((callback_runs_once_after_successful_mutation execTx execTx_commitsExactlyOnNil
      demoQueries demoWorld).1
        (demoCreateAppArg 3 recordingCallback)).1 rfl),
    (((callback_runs_once_after_successful_mutation execTx execTx_commitsExactlyOnNil
      demoQueries demoWorld).1
        (demoCreateAppArg 0 recordingCallback)).2 _ rfl),
    ((((callback_runs_once_after_successful_mutation execTx execTx_commitsExactlyOnNil
      demoQueries demoWorld).2.1
        (demoDeleteAppArg 3 true recordingCallback)).1 rfl).1 rfl),
    ((((callback_runs_once_after_successful_mutation execTx execTx_commitsExactlyOnNil
      demoQueries demoWorld).2.1
        (demoDeleteAppArg 0 true recordingCallback)).1 rfl).2 _ rfl),
    ((((callback_runs_once_after_successful_mutation execTx execTx_commitsExactlyOnNil
      demoQueries demoWorld).2.1
        (demoDeleteAppArg 3 false recordingCallback)).2 rfl).1 rfl),
    ((((callback_runs_once_after_successful_mutation execTx execTx_commitsExactlyOnNil
      demoQueries demoWorld).2.1
        (demoDeleteAppArg 0 false recordingCallback)).2 rfl).2 _ rfl),
    (((callback_runs_once_after_successful_mutation execTx execTx_commitsExactlyOnNil
      demoQueries demoWorld).2.2.1
        (demoCreateCandidateArg 3 recordingCallback)).1 rfl),
    (((callback_runs_once_after_successful_mutation execTx execTx_commitsExactlyOnNil
      demoQueries demoWorld).2.2.1
        (demoCreateCandidateArg 0 recordingCallback)).2 _ rfl),
    (((callback_runs_once_after_successful_mutation execTx execTx_commitsExactlyOnNil
      demoQueries demoWorld).2.2.2.1
        (demoUpdateCandidateArg 3 recordingCallback)).1 rfl),
    (((callback_runs_once_after_successful_mutation execTx execTx_commitsExactlyOnNil
      demoQueries demoWorld).2.2.2.1
        (demoUpdateCandidateArg 0 recordingCallback)).2 _ rfl),
    (((callback_runs_once_after_successful_mutation execTx execTx_commitsExactlyOnNil
      demoQueries demoWorld).2.2.2.2.1
        (demoCreatePastExperienceArg 3 recordingCallback)).1 rfl),
    (((callback_runs_once_after_successful_mutation execTx execTx_commitsExactlyOnNil
      demoQueries demoWorld).2.2.2.2.1
        (demoCreatePastExperienceArg 0 recordingCallback)).2 _ rfl),
    (((callback_runs_once_after_successful_mutation execTx execTx_commitsExactlyOnNil
      demoQueries demoWorld).2.2.2.2.2.1
        (demoUpdatePastExperienceArg 3 recordingCallback)).1 rfl),
    (((callback_runs_once_after_successful_mutation execTx execTx_commitsExactlyOnNil
      demoQueries demoWorld).2.2.2.2.2.1
        (demoUpdatePastExperienceArg 0 recordingCallback)).2 _ rfl),
    (((callback_runs_once_after_successful_mutation execTx execTx_commitsExactlyOnNil
      demoQueries demoWorld).2.2.2.2.2.2
        (demoDeletePastExperienceArg 3 recordingCallback)).1 rfl),
    (((callback_runs_once_after_successful_mutation execTx execTx_commitsExactlyOnNil
      demoQueries demoWorld).2.2.2.2.2.2
        (demoDeletePastExperienceArg 0 recordingCallback)).2 _ rfl)⟩

/-! ### Task handlers -/

/-- An error wraps itself. -/
theorem GoError.errorsIs_self (e : GoError) : e.errorsIs e = true := by
  cases e <;> simp [GoError.errorsIs]

/-- `json.Unmarshal` into a value that is not a pointer never succeeds. -/
theorem jsonUnmarshal_value_fails {α : Type} (codec : JsonCodec α) (data : Bytes) (v : α) :
    ∃ err, jsonUnmarshal codec data (JsonTarget.value v) = (some err, v) := by
  unfold jsonUnmarshal
  cases codec.checkValid data <;> simp

/-- The method `processCreateApplicationTask` returns the decode failure for
every task, without calling its `processFunc`. -/
theorem processCreateApplicationTask_eq {S : Type} (processor : RedisTaskProcessor S)
    (task : Task) (payload : PayloadCreateApplication)
    (processFunc : String → JsonMap → HandlerWorld S → Option GoError × HandlerWorld S)
    (w : HandlerWorld S) :
    processCreateApplicationTask processor task payload processFunc w =
      (some unmarshalFailure, w) := by
  obtain ⟨err, h⟩ := jsonUnmarshal_value_fails processor.json.createApplication task.payload
    payload
  simp [processCreateApplicationTask, h]

/-- The method `processDeleteApplicationTask` returns the decode failure for
every task, without calling its `processFunc`. -/
theorem processDeleteApplicationTask_eq {S : Type} (processor : RedisTaskProcessor S)
    (task : Task) (payload : PayloadDeleteApplication)
    (processFunc : String → HandlerWorld S → Option GoError × HandlerWorld S)
    (w : HandlerWorld S) :
    processDeleteApplicationTask processor task payload processFunc w =
      (some unmarshalFailure, w) := by
  obtain ⟨err, h⟩ := jsonUnmarshal_value_fails processor.json.deleteApplication task.payload
    payload
  simp [processDeleteApplicationTask, h]

/-- C3 (the code at the scenario's input): the payload of the task is the JSON
encoding of document id `5_7` with document `message: hi`, and it decodes when
`json.Unmarshal` is given a pointer; the processor's store accepts every
document; yet `ProcessTaskCreateCandidateApplication` returns the skip-retry
decode failure, makes no call to the document store, and leaves the store
empty, so the document is not at id `5_7`. -/
theorem create_candidate_application_task_is_not_indexed :
    jsonUnmarshal demoCodecs.createApplication demoCreateApplicationTask.payload
        (JsonTarget.pointer default) = (none, demoCreateApplication) ∧
    (invoke (Call.IndexCandidateApplication "5_7" demoCreateApplication.AppDoc)
        ((demoProcessor none).esClient.IndexCandidateApplication "5_7"
          demoCreateApplication.AppDoc) emptyHandlerWorld).2.ext =
      [("5_7", demoCreateApplication.AppDoc)] ∧
    (ProcessTaskCreateCandidateApplication (demoProcessor none) demoCreateApplicationTask
        emptyHandlerWorld).1 = some unmarshalFailure ∧
    wraps (ProcessTaskCreateCandidateApplication (demoProcessor none)
        demoCreateApplicationTask emptyHandlerWorld).1 GoError.skipRetry = true ∧
    (ProcessTaskCreateCandidateApplication (demoProcessor none) demoCreateApplicationTask
        emptyHandlerWorld).2.calls = [] ∧
    (ProcessTaskCreateCandidateApplication (demoProcessor none) demoCreateApplicationTask
        emptyHandlerWorld).2.ext = [] := by
  refine ⟨by rfl, by rfl, ?_, ?_, ?_, ?_⟩ <;>
    simp [ProcessTaskCreateCandidateApplication, processCreateApplicationTask_eq,
      emptyHandlerWorld, wraps, unmarshalFailure, GoError.errorsIs]

/-- C4: for each of the ten registered handlers, if the payload bytes of the
task do not decode as JSON into the payload type of the handler's task kind,
the handler returns `failed to unmarshal payload` wrapping `asynq.SkipRetry`,
and the world is unchanged: no call is made to the document store or to the
mailer. -/
theorem undecodable_payload_is_skip_retry {S : Type} (processor : RedisTaskProcessor S)
    (h : ProcessFn) (task : Task) (w : HandlerWorld S)
    (hdec : payloadDecodes processor.json h task.payload = false) :
    (runProcessFn processor h task w).1 = some unmarshalFailure ∧
      wraps (runProcessFn processor h task w).1 GoError.skipRetry = true ∧
      (runProcessFn processor h task w).2 = w := by
  have hw : wraps (some unmarshalFailure) GoError.skipRetry = true := by
    simp [wraps, unmarshalFailure, GoError.errorsIs]
  cases h
  case ProcessTaskSendVerifyEmail =>
    rcases hj : jsonUnmarshal processor.json.sendVerifyEmail task.payload
      (JsonTarget.pointer default) with ⟨_ | err, v⟩
    · simp [payloadDecodes, hj] at hdec
    · simp [runProcessFn, ProcessTaskSendVerifyEmail, hj, hw]
  case ProcessTaskCreateCandidate =>
    rcases hj : jsonUnmarshal processor.json.candidate task.payload
      (JsonTarget.pointer default) with ⟨_ | err, v⟩
    · simp [payloadDecodes, hj] at hdec
    · simp [runProcessFn, ProcessTaskCreateCandidate, processCandidateTask, hj, hw]
  case ProcessTaskUpdateCandidate =>
    rcases hj : jsonUnmarshal processor.json.candidate task.payload
      (JsonTarget.pointer default) with ⟨_ | err, v⟩
    · simp [payloadDecodes, hj] at hdec
    · simp [runProcessFn, ProcessTaskUpdateCandidate, processCandidateTask, hj, hw]
  case ProcessTaskAddPastExperience =>
    rcases hj : jsonUnmarshal processor.json.pastExperience task.payload
      (JsonTarget.pointer default) with ⟨_ | err, v⟩
    · simp [payloadDecodes, hj] at hdec
    · simp [runProcessFn, ProcessTaskAddPastExperience, processPastExperienceTask, hj, hw]
  case ProcessTaskUpdatePastExperience =>
    rcases hj : jsonUnmarshal processor.json.pastExperience task.payload
      (JsonTarget.pointer default) with ⟨_ | err, v⟩
    · simp [payloadDecodes, hj] at hdec
    · simp [runProcessFn, ProcessTaskUpdatePastExperience, processPastExperienceTask, hj, hw]
  case ProcessTaskDeletePastExperience =>
    rcases hj : jsonUnmarshal processor.json.deletePastExperience task.payload
      (JsonTarget.pointer default) with ⟨_ | err, v⟩
    · simp [payloadDecodes, hj] at hdec
    · simp [runProcessFn, ProcessTaskDeletePastExperience, processDeletePastExperienceTask,
        hj, hw]
  case ProcessTaskCreateCandidateApplication =>
    simp [runProcessFn, ProcessTaskCreateCandidateApplication,
      processCreateApplicationTask_eq, hw]
  case ProcessTaskCreateEmployerApplication =>
    simp [runProcessFn, ProcessTaskCreateEmployerApplication,
      processCreateApplicationTask_eq, hw]
  case ProcessTaskDeleteCandidateApplication =>
    simp [runProcessFn, ProcessTaskDeleteCandidateApplication,
      processDeleteApplicationTask_eq, hw]
  case ProcessTaskDeleteEmployerApplication =>
    simp [runProcessFn, ProcessTaskDeleteEmployerApplication,
      processDeleteApplicationTask_eq, hw]

/-- The witness of C4: in the concrete processor, each of the ten handlers
given the bytes `not json` returns the skip-retry decode failure and leaves the
world as it was. -/
theorem undecodable_payload_is_skip_retry_witness :
    ((runProcessFn (demoProcessor none) ProcessFn.ProcessTaskSendVerifyEmail
        (NewTask TaskSendVerifyEmail demoGarbage []) emptyHandlerWorld).1 = some unmarshalFailure ∧
      wraps (runProcessFn (demoProcessor none) ProcessFn.ProcessTaskSendVerifyEmail
        (NewTask TaskSendVerifyEmail demoGarbage []) emptyHandlerWorld).1 GoError.skipRetry = true ∧
      (runProcessFn (demoProcessor none) ProcessFn.ProcessTaskSendVerifyEmail
        (NewTask TaskSendVerifyEmail demoGarbage []) emptyHandlerWorld).2 = emptyHandlerWorld) ∧
    ((runProcessFn (demoProcessor none) ProcessFn.ProcessTaskCreateCandidate
        (NewTask TaskCreateCandidate demoGarbage []) emptyHandlerWorld).1 = some unmarshalFailure ∧
      wraps (runProcessFn (demoProcessor none) ProcessFn.ProcessTaskCreateCandidate
        (NewTask TaskCreateCandidate demoGarbage []) emptyHandlerWorld).1 GoError.skipRetry = true ∧
      (runProcessFn (demoProcessor none) ProcessFn.ProcessTaskCreateCandidate
        (NewTask TaskCreateCandidate demoGarbage []) emptyHandlerWorld).2 = emptyHandlerWorld) ∧
    ((runProcessFn (demoProcessor none) ProcessFn.ProcessTaskUpdateCandidate
        (NewTask TaskUpdateCandidate demoGarbage []) emptyHandlerWorld).1 = some unmarshalFailure ∧
      wraps (runProcessFn (demoProcessor none) ProcessFn.ProcessTaskUpdateCandidate
        (NewTask TaskUpdateCandidate demoGarbage []) emptyHandlerWorld).1 GoError.skipRetry = true ∧
      (runProcessFn (demoProcessor none) ProcessFn.ProcessTaskUpdateCandidate
        (NewTask TaskUpdateCandidate demoGarbage []) emptyHandlerWorld).2 = emptyHandlerWorld) ∧
    ((runProcessFn (demoProcessor none) ProcessFn.ProcessTaskAddPastExperience
        (NewTask TaskAddPastExperience demoGarbage []) emptyHandlerWorld).1 = some unmarshalFailure
            ∧
      wraps (runProcessFn (demoProcessor none) ProcessFn.ProcessTaskAddPastExperience
        (NewTask TaskAddPastExperience demoGarbage []) emptyHandlerWorld).1 GoError.skipRetry = true
            ∧
      (runProcessFn (demoProcessor none) ProcessFn.ProcessTaskAddPastExperience
        (NewTask TaskAddPastExperience demoGarbage []) emptyHandlerWorld).2 = emptyHandlerWorld) ∧
    ((runProcessFn (demoProcessor none) ProcessFn.ProcessTaskUpdatePastExperience
        (NewTask TaskUpdatePastExperience demoGarbage []) emptyHandlerWorld).1 = some
            unmarshalFailure ∧
      wraps (runProcessFn (demoProcessor none) ProcessFn.ProcessTaskUpdatePastExperience
        (NewTask TaskUpdatePastExperience demoGarbage []) emptyHandlerWorld).1 GoError.skipRetry =
            true ∧
      (runProcessFn (demoProcessor none) ProcessFn.ProcessTaskUpdatePastExperience
        (NewTask TaskUpdatePastExperience demoGarbage []) emptyHandlerWorld).2 = emptyHandlerWorld)
            ∧
    ((runProcessFn (demoProcessor none) ProcessFn.ProcessTaskDeletePastExperience
        (NewTask TaskDeletePastExperience demoGarbage []) emptyHandlerWorld).1 = some
            unmarshalFailure ∧
      wraps (runProcessFn (demoProcessor none) ProcessFn.ProcessTaskDeletePastExperience
        (NewTask TaskDeletePastExperience demoGarbage []) emptyHandlerWorld).1 GoError.skipRetry =
            true ∧
      (runProcessFn (demoProcessor none) ProcessFn.ProcessTaskDeletePastExperience
        (NewTask TaskDeletePastExperience demoGarbage []) emptyHandlerWorld).2 = emptyHandlerWorld)
            ∧
    ((runProcessFn (demoProcessor none) ProcessFn.ProcessTaskCreateCandidateApplication
        (NewTask TaskCreateCandidateApp demoGarbage []) emptyHandlerWorld).1 = some unmarshalFailure
            ∧
      wraps (runProcessFn (demoProcessor none) ProcessFn.ProcessTaskCreateCandidateApplication
        (NewTask TaskCreateCandidateApp demoGarbage []) emptyHandlerWorld).1 GoError.skipRetry =
            true ∧
      (runProcessFn (demoProcessor none) ProcessFn.ProcessTaskCreateCandidateApplication
        (NewTask TaskCreateCandidateApp demoGarbage []) emptyHandlerWorld).2 = emptyHandlerWorld) ∧
    ((runProcessFn (demoProcessor none) ProcessFn.ProcessTaskCreateEmployerApplication
        (NewTask TaskCreateEmployerApp demoGarbage []) emptyHandlerWorld).1 = some unmarshalFailure
            ∧
      wraps (runProcessFn (demoProcessor none) ProcessFn.ProcessTaskCreateEmployerApplication
        (NewTask TaskCreateEmployerApp demoGarbage []) emptyHandlerWorld).1 GoError.skipRetry = true
            ∧
      (runProcessFn (demoProcessor none) ProcessFn.ProcessTaskCreateEmployerApplication
        (NewTask TaskCreateEmployerApp demoGarbage []) emptyHandlerWorld).2 = emptyHandlerWorld) ∧
    ((runProcessFn (demoProcessor none) ProcessFn.ProcessTaskDeleteCandidateApplication
        (NewTask TaskDeleteCandidateApp demoGarbage []) emptyHandlerWorld).1 = some unmarshalFailure
            ∧
      wraps (runProcessFn (demoProcessor none) ProcessFn.ProcessTaskDeleteCandidateApplication
        (NewTask TaskDeleteCandidateApp demoGarbage []) emptyHandlerWorld).1 GoError.skipRetry =
            true ∧
      (runProcessFn (demoProcessor none) ProcessFn.ProcessTaskDeleteCandidateApplication
        (NewTask TaskDeleteCandidateApp demoGarbage []) emptyHandlerWorld).2 = emptyHandlerWorld) ∧
    ((runProcessFn (demoProcessor none) ProcessFn.ProcessTaskDeleteEmployerApplication
        (NewTask TaskDeleteEmployerApp demoGarbage []) emptyHandlerWorld).1 = some unmarshalFailure
            ∧
      wraps (runProcessFn (demoProcessor none) ProcessFn.ProcessTaskDeleteEmployerApplication
        (NewTask TaskDeleteEmployerApp demoGarbage []) emptyHandlerWorld).1 GoError.skipRetry = true
            ∧
      (runProcessFn (demoProcessor none) ProcessFn.ProcessTaskDeleteEmployerApplication
        (NewTask TaskDeleteEmployerApp demoGarbage []) emptyHandlerWorld).2 = emptyHandlerWorld) :=
  ⟨undecodable_payload_is_skip_retry (demoProcessor none) ProcessFn.ProcessTaskSendVerifyEmail
      (NewTask TaskSendVerifyEmail demoGarbage []) emptyHandlerWorld (by decide),
    undecodable_payload_is_skip_retry (demoProcessor none) ProcessFn.ProcessTaskCreateCandidate
      (NewTask TaskCreateCandidate demoGarbage []) emptyHandlerWorld (by decide),
    undecodable_payload_is_skip_retry (demoProcessor none) ProcessFn.ProcessTaskUpdateCandidate
      (NewTask TaskUpdateCandidate demoGarbage []) emptyHandlerWorld (by decide),
    undecodable_payload_is_skip_retry (demoProcessor none) ProcessFn.ProcessTaskAddPastExperience
      (NewTask TaskAddPastExperience demoGarbage []) emptyHandlerWorld (by decide),
    undecodable_payload_is_skip_retry (demoProcessor none) ProcessFn.ProcessTaskUpdatePastExperience
      (NewTask TaskUpdatePastExperience demoGarbage []) emptyHandlerWorld (by decide),
    undecodable_payload_is_skip_retry (demoProcessor none) ProcessFn.ProcessTaskDeletePastExperience
      (NewTask TaskDeletePastExperience demoGarbage []) emptyHandlerWorld (by decide),
    undecodable_payload_is_skip_retry (demoProcessor none)
        ProcessFn.ProcessTaskCreateCandidateApplication
      (NewTask TaskCreateCandidateApp demoGarbage []) emptyHandlerWorld (by decide),
    undecodable_payload_is_skip_retry (demoProcessor none)
        ProcessFn.ProcessTaskCreateEmployerApplication
      (NewTask TaskCreateEmployerApp demoGarbage []) emptyHandlerWorld (by decide),
    undecodable_payload_is_skip_retry (demoProcessor none)
        ProcessFn.ProcessTaskDeleteCandidateApplication
      (NewTask TaskDeleteCandidateApp demoGarbage []) emptyHandlerWorld (by decide),
    undecodable_payload_is_skip_retry (demoProcessor none)
        ProcessFn.ProcessTaskDeleteEmployerApplication
      (NewTask TaskDeleteEmployerApp demoGarbage []) emptyHandlerWorld (by decide)⟩

/-- An error made by `fmt.Errorf` with `%w` around `e` is non-nil, wraps `e`,
and wraps `asynq.SkipRetry` only if `e` does. -/
theorem wrapf_retryable (msg : String) (e : GoError)
    (hskip : e.errorsIs GoError.skipRetry = false) :
    Option.map (GoError.wrapf msg) (some e) ≠ none ∧
      wraps (Option.map (GoError.wrapf msg) (some e)) e = true ∧
      wraps (Option.map (GoError.wrapf msg) (some e)) GoError.skipRetry = false := by
  simp [wraps, GoError.errorsIs, GoError.errorsIs_self, hskip]

/-- The method `processCandidateTask` on a payload that decodes to `v`: one
call on the decoded candidate, whose error is returned wrapped. -/
theorem processCandidateTask_decoded {S : Type} (processor : RedisTaskProcessor S)
    (task : Task) (w : HandlerWorld S) (v : PayloadCandidate) (call : db.Candidate → Call)
    (f : db.Candidate → S → Option GoError × S)
    (hj : jsonUnmarshal processor.json.candidate task.payload (JsonTarget.pointer default) =
      (none, v)) :
    processCandidateTask processor task (JsonTarget.pointer default)
        (fun c => invoke (call c) (f c)) w =
      (Option.map (GoError.wrapf "failed to process candidate") (f v.Candidate w.ext).1,
        { ext := (f v.Candidate w.ext).2, calls := w.calls ++ [call v.Candidate] }) := by
  simp only [processCandidateTask, hj, invoke]
  cases (f v.Candidate w.ext).1 <;> rfl

/-- The method `processPastExperienceTask` on a payload that decodes to `v`. -/
theorem processPastExperienceTask_decoded {S : Type} (processor : RedisTaskProcessor S)
    (task : Task) (w : HandlerWorld S) (v : PayloadPastExperience)
    (call : String → es.PastExperience → Call)
    (f : String → es.PastExperience → S → Option GoError × S)
    (hj : jsonUnmarshal processor.json.pastExperience task.payload
      (JsonTarget.pointer default) = (none, v)) :
    processPastExperienceTask processor task (JsonTarget.pointer default)
        (fun u x => invoke (call u x) (f u x)) w =
      (Option.map (GoError.wrapf "failed to process candidate")
          (f v.UserUID v.PastExperience w.ext).1,
        { ext := (f v.UserUID v.PastExperience w.ext).2,
          calls := w.calls ++ [call v.UserUID v.PastExperience] }) := by
  simp only [processPastExperienceTask, hj, invoke]
  cases (f v.UserUID v.PastExperience w.ext).1 <;> rfl

/-- The method `processDeletePastExperienceTask` on a payload that decodes to `v`. -/
theorem processDeletePastExperienceTask_decoded {S : Type}
    (processor : RedisTaskProcessor S) (task : Task) (w : HandlerWorld S)
    (v : PayloadDeletePastExperience) (call : String → String → Call)
    (f : String → String → S → Option GoError × S)
    (hj : jsonUnmarshal processor.json.deletePastExperience task.payload
      (JsonTarget.pointer default) = (none, v)) :
    processDeletePastExperienceTask processor task (JsonTarget.pointer default)
        (fun u x => invoke (call u x) (f u x)) w =
      (Option.map (GoError.wrapf "failed to process candidate")
          (f v.UserUID v.PastExperienceID w.ext).1,
        { ext := (f v.UserUID v.PastExperienceID w.ext).2,
          calls := w.calls ++ [call v.UserUID v.PastExperienceID] }) := by
  simp only [processDeletePastExperienceTask, hj, invoke]
  cases (f v.UserUID v.PastExperienceID w.ext).1 <;> rfl

/-- C5: for the candidate, past-experience and verify-email handlers, if the
payload decodes, the handler makes a call `c` to the document store or to the
mailer, and that call returns an error `e` that does not wrap
`asynq.SkipRetry`, then the handler returns a non-nil error that wraps `e` and
does not wrap `asynq.SkipRetry`. -/
theorem backend_error_is_returned_as_retryable {S : Type} (processor : RedisTaskProcessor S)
    (h : ProcessFn) (hh : h ∈ candidateExperienceEmailHandlers) (task : Task)
    (w : HandlerWorld S) (c : Call) (e : GoError)
    (hdec : payloadDecodes processor.json h task.payload = true)
    (hcall : (runProcessFn processor h task w).2.calls = w.calls ++ [c])
    (he : (performCall processor c w.ext).1 = some e)
    (hskip : e.errorsIs GoError.skipRetry = false) :
    (runProcessFn processor h task w).1 ≠ none ∧
      wraps (runProcessFn processor h task w).1 e = true ∧
      wraps (runProcessFn processor h task w).1 GoError.skipRetry = false := by
  simp only [candidateExperienceEmailHandlers, List.mem_cons, List.mem_singleton,
    List.not_mem_nil, or_false] at hh
  rcases hh with rfl | rfl | rfl | rfl | rfl | rfl
  · -- ProcessTaskCreateCandidate
    rcases hj : jsonUnmarshal processor.json.candidate task.payload
      (JsonTarget.pointer default) with ⟨_ | err, v⟩
    · rw [runProcessFn, ProcessTaskCreateCandidate, processCandidateTask_decoded processor task w v
        _ _ hj] at hcall ⊢
      simp only [List.append_cancel_left_eq, List.cons.injEq, and_true] at hcall
      subst hcall
      simp only [performCall] at he
      rw [he]
      exact wrapf_retryable _ e hskip
    · simp [runProcessFn, ProcessTaskCreateCandidate, processCandidateTask, hj] at hcall
  · -- ProcessTaskUpdateCandidate
    rcases hj : jsonUnmarshal processor.json.candidate task.payload
      (JsonTarget.pointer default) with ⟨_ | err, v⟩
    · rw [runProcessFn, ProcessTaskUpdateCandidate, processCandidateTask_decoded processor task w v
        _ _ hj] at hcall ⊢
      simp only [List.append_cancel_left_eq, List.cons.injEq, and_true] at hcall
      subst hcall
      simp only [performCall] at he
      rw [he]
      exact wrapf_retryable _ e hskip
    · simp [runProcessFn, ProcessTaskUpdateCandidate, processCandidateTask, hj] at hcall
  · -- ProcessTaskAddPastExperience
    rcases hj : jsonUnmarshal processor.json.pastExperience task.payload
      (JsonTarget.pointer default) with ⟨_ | err, v⟩
    · rw [runProcessFn, ProcessTaskAddPastExperience, processPastExperienceTask_decoded processor
        task w v _ _ hj] at hcall ⊢
      simp only [List.append_cancel_left_eq, List.cons.injEq, and_true] at hcall
      subst hcall
      simp only [performCall] at he
      rw [he]
      exact wrapf_retryable _ e hskip
    · simp [runProcessFn, ProcessTaskAddPastExperience, processPastExperienceTask, hj] at hcall
  · -- ProcessTaskUpdatePastExperience
    rcases hj : jsonUnmarshal processor.json.pastExperience task.payload
      (JsonTarget.pointer default) with ⟨_ | err, v⟩
    · rw [runProcessFn, ProcessTaskUpdatePastExperience, processPastExperienceTask_decoded processor
        task w v _ _ hj] at hcall ⊢
      simp only [List.append_cancel_left_eq, List.cons.injEq, and_true] at hcall
      subst hcall
      simp only [performCall] at he
      rw [he]
      exact wrapf_retryable _ e hskip
    · simp [runProcessFn, ProcessTaskUpdatePastExperience, processPastExperienceTask, hj] at hcall
  · -- ProcessTaskDeletePastExperience
    rcases hj : jsonUnmarshal processor.json.deletePastExperience task.payload
      (JsonTarget.pointer default) with ⟨_ | err, v⟩
    · rw [runProcessFn, ProcessTaskDeletePastExperience, processDeletePastExperienceTask_decoded
        processor task w v _ _ hj] at hcall ⊢
      simp only [List.append_cancel_left_eq, List.cons.injEq, and_true] at hcall
      subst hcall
      simp only [performCall] at he
      rw [he]
      exact wrapf_retryable _ e hskip
    · simp [runProcessFn, ProcessTaskDeletePastExperience, processDeletePastExperienceTask, hj]
        at hcall
  · -- ProcessTaskSendVerifyEmail
    rcases hj : jsonUnmarshal processor.json.sendVerifyEmail task.payload
      (JsonTarget.pointer default) with ⟨_ | err, v⟩
    · simp only [runProcessFn, ProcessTaskSendVerifyEmail, hj] at hcall ⊢
      split_ifs at hcall ⊢ with h1
      · simp at hcall
      · cases hg : processor.os.Getwd with
        | error err => simp [hg] at hcall
        | ok wd =>
          simp only [hg] at hcall ⊢
          split_ifs at hcall ⊢ with h2 h3
          · simp at hcall
          · simp at hcall
          · simp only [invoke] at hcall ⊢
            rcases hm : processor.mailer.SendEmail "Welcome to Part Timer"
              (processor.verifyEmailContent v.Name v.VerificationLink) [v.Email] [] [] []
              [("logo", processor.os.Join [wd, "assets", "images", "logo.png"]),
                ("email-icon", processor.os.Join [wd, "assets", "images", "email-icon.png"])]
              w.ext with ⟨_ | merr, s1⟩
            · simp only [hm, List.append_cancel_left_eq, List.cons.injEq, and_true] at hcall
              subst hcall
              simp [performCall, hm] at he
            · simp only [hm, List.append_cancel_left_eq, List.cons.injEq, and_true] at hcall
              subst hcall
              simp only [performCall, hm, Option.some.injEq] at he
              subst he
              simp only [hm]
              exact wrapf_retryable _ _ hskip
    · simp [runProcessFn, ProcessTaskSendVerifyEmail, hj] at hcall

/-- The witness of C5: in the concrete processor whose document store and
mailer fail with `connection refused`, each of the six handlers, given a payload
that decodes, returns an error that wraps `connection refused` and does not
wrap `asynq.SkipRetry`. -/
theorem backend_error_is_returned_as_retryable_witness :
    ((runProcessFn (demoProcessor (some backendDown)) ProcessFn.ProcessTaskCreateCandidate
        (NewTask TaskCreateCandidate demoBytes []) emptyHandlerWorld).1 ≠ none ∧
      wraps (runProcessFn (demoProcessor (some backendDown)) ProcessFn.ProcessTaskCreateCandidate
        (NewTask TaskCreateCandidate demoBytes []) emptyHandlerWorld).1 backendDown = true ∧
      wraps (runProcessFn (demoProcessor (some backendDown)) ProcessFn.ProcessTaskCreateCandidate
        (NewTask TaskCreateCandidate demoBytes []) emptyHandlerWorld).1 GoError.skipRetry = false) ∧
    ((runProcessFn (demoProcessor (some backendDown)) ProcessFn.ProcessTaskUpdateCandidate
        (NewTask TaskUpdateCandidate demoBytes []) emptyHandlerWorld).1 ≠ none ∧
      wraps (runProcessFn (demoProcessor (some backendDown)) ProcessFn.ProcessTaskUpdateCandidate
        (NewTask TaskUpdateCandidate demoBytes []) emptyHandlerWorld).1 backendDown = true ∧
      wraps (runProcessFn (demoProcessor (some backendDown)) ProcessFn.ProcessTaskUpdateCandidate
        (NewTask TaskUpdateCandidate demoBytes []) emptyHandlerWorld).1 GoError.skipRetry = false) ∧
    ((runProcessFn (demoProcessor (some backendDown)) ProcessFn.ProcessTaskAddPastExperience
        (NewTask TaskAddPastExperience demoBytes []) emptyHandlerWorld).1 ≠ none ∧
      wraps (runProcessFn (demoProcessor (some backendDown)) ProcessFn.ProcessTaskAddPastExperience
        (NewTask TaskAddPastExperience demoBytes []) emptyHandlerWorld).1 backendDown = true ∧
      wraps (runProcessFn (demoProcessor (some backendDown)) ProcessFn.ProcessTaskAddPastExperience
        (NewTask TaskAddPastExperience demoBytes []) emptyHandlerWorld).1 GoError.skipRetry = false)
            ∧
    ((runProcessFn (demoProcessor (some backendDown)) ProcessFn.ProcessTaskUpdatePastExperience
        (NewTask TaskUpdatePastExperience demoBytes []) emptyHandlerWorld).1 ≠ none ∧
      wraps (runProcessFn (demoProcessor (some backendDown))
          ProcessFn.ProcessTaskUpdatePastExperience
        (NewTask TaskUpdatePastExperience demoBytes []) emptyHandlerWorld).1 backendDown = true ∧
      wraps (runProcessFn (demoProcessor (some backendDown))
          ProcessFn.ProcessTaskUpdatePastExperience
        (NewTask TaskUpdatePastExperience demoBytes []) emptyHandlerWorld).1 GoError.skipRetry =
            false) ∧
    ((runProcessFn (demoProcessor (some backendDown)) ProcessFn.ProcessTaskDeletePastExperience
        (NewTask TaskDeletePastExperience demoBytes []) emptyHandlerWorld).1 ≠ none ∧
      wraps (runProcessFn (demoProcessor (some backendDown))
          ProcessFn.ProcessTaskDeletePastExperience
        (NewTask TaskDeletePastExperience demoBytes []) emptyHandlerWorld).1 backendDown = true ∧
      wraps (runProcessFn (demoProcessor (some backendDown))
          ProcessFn.ProcessTaskDeletePastExperience
        (NewTask TaskDeletePastExperience demoBytes []) emptyHandlerWorld).1 GoError.skipRetry =
            false) ∧
    ((runProcessFn (demoProcessor (some backendDown)) ProcessFn.ProcessTaskSendVerifyEmail
        (NewTask TaskSendVerifyEmail demoBytes []) emptyHandlerWorld).1 ≠ none ∧
      wraps (runProcessFn (demoProcessor (some backendDown)) ProcessFn.ProcessTaskSendVerifyEmail
        (NewTask TaskSendVerifyEmail demoBytes []) emptyHandlerWorld).1 backendDown = true ∧
      wraps (runProcessFn (demoProcessor (some backendDown)) ProcessFn.ProcessTaskSendVerifyEmail
        (NewTask TaskSendVerifyEmail demoBytes []) emptyHandlerWorld).1 GoError.skipRetry = false)
            :=
  ⟨backend_error_is_returned_as_retryable (demoProcessor (some backendDown))
      ProcessFn.ProcessTaskCreateCandidate (by decide) (NewTask TaskCreateCandidate demoBytes [])
      emptyHandlerWorld (Call.IndexCandidate demoCandidate.Candidate) backendDown
      (by decide) (by rfl) (by rfl) (by decide),
    backend_error_is_returned_as_retryable (demoProcessor (some backendDown))
      ProcessFn.ProcessTaskUpdateCandidate (by decide) (NewTask TaskUpdateCandidate demoBytes [])
      emptyHandlerWorld (Call.UpdateCandidate demoCandidate.Candidate) backendDown
      (by decide) (by rfl) (by rfl) (by decide),
    backend_error_is_returned_as_retryable (demoProcessor (some backendDown))
      ProcessFn.ProcessTaskAddPastExperience (by decide) (NewTask TaskAddPastExperience demoBytes
          [])
      emptyHandlerWorld (Call.AddPastExperienceToCandidate "u1" demoPastExperience.PastExperience)
          backendDown
      (by decide) (by rfl) (by rfl) (by decide),
    backend_error_is_returned_as_retryable (demoProcessor (some backendDown))
      ProcessFn.ProcessTaskUpdatePastExperience (by decide) (NewTask TaskUpdatePastExperience
          demoBytes [])
      emptyHandlerWorld (Call.UpdatePastExperienceInCandidate "u1"
          demoPastExperience.PastExperience) backendDown
      (by decide) (by rfl) (by rfl) (by decide),
    backend_error_is_returned_as_retryable (demoProcessor (some backendDown))
      ProcessFn.ProcessTaskDeletePastExperience (by decide) (NewTask TaskDeletePastExperience
          demoBytes [])
      emptyHandlerWorld (Call.DeletePastExperienceFromCandidate "u1" "e1") backendDown
      (by decide) (by rfl) (by rfl) (by decide),
    backend_error_is_returned_as_retryable (demoProcessor (some backendDown))
      ProcessFn.ProcessTaskSendVerifyEmail (by decide) (NewTask TaskSendVerifyEmail demoBytes [])
      emptyHandlerWorld (demoSendEmailCall) backendDown
      (by decide) (by rfl) (by rfl) (by decide)⟩

/-! ### Registration of handlers -/

/-- C7 as stated fails: it is not the case that every task-kind constant
declared in package `worker` has exactly one registration in `Start`. -/
theorem not_every_declared_kind_is_registered :
    ¬ ∀ kind ∈ declaredTaskKinds, registrationCount kind = 1 := by
  decide

/-- C7 amended: `Start` completes without a registration panic; every task-kind
constant declared in package `worker` other than `task:update_candidate_v2` is
registered exactly once; and `task:update_candidate_v2` is registered by no
call of `Start`. -/
theorem declared_kinds_except_update_candidate_v2_registered_once :
    (∃ mux, RedisTaskProcessor.Start = Except.ok mux) ∧
    (∀ kind ∈ declaredTaskKinds, kind ≠ TaskUpdateCandidateV2 → registrationCount kind = 1) ∧
    registrationCount TaskUpdateCandidateV2 = 0 := by
  refine ⟨⟨_, rfl⟩, by decide, by decide⟩

/-- The witness of amended C7, at the kind `task:create_candidate`. -/
theorem declared_kinds_except_update_candidate_v2_registered_once_witness :
    registrationCount TaskCreateCandidate = 1 :=
  declared_kinds_except_update_candidate_v2_registered_once.2.1 TaskCreateCandidate
    (by decide) (by decide)

/-! ### Task distributor -/

/-- The shared body of `distributeTask` and `DistributeTaskSendVerifyEmail`
meets the enqueue contract. -/
theorem enqueueContract_of_body {B α : Type} (client : AsynqClient B)
    (Marshal : α → Except GoError Bytes) (taskType : String) (payload : α)
    (opts : List AsynqOption) (w : BrokerWorld B) :
    EnqueueContract client Marshal taskType payload opts w
      (match Marshal payload with
      | Except.error err => (some (GoError.wrapf "failed to marshal task payload" err), w)
      | Except.ok jsonPayload =>
        match enqueueContext client (NewTask taskType jsonPayload opts) w with
        | (Except.error err, w1) => (some (GoError.wrapf "failed to enqueue task" err), w1)
        | (Except.ok _, w1) => (none, w1)) := by
  unfold EnqueueContract
  cases hm : Marshal payload with
  | error err => simp
  | ok jsonPayload =>
    simp only [enqueueContext]
    cases hb : (client.EnqueueContext (NewTask taskType jsonPayload opts) w.broker).1 with
    | error err =>
      simp only [wraps, GoError.errorsIs]
      refine ⟨by simp, by simp, ?_, by simp⟩
      intro jp err1 hjp herr
      cases hjp
      rw [hb] at herr
      cases herr
      simp [GoError.errorsIs_self]
    | ok info =>
      refine ⟨by simp, by simp, ?_, ?_⟩
      · intro jp err1 hjp herr
        cases hjp
        rw [hb] at herr
        cases herr
      · intro _
        exact ⟨jsonPayload, info, rfl, hb, rfl⟩

/-- C9: `distributeTask` (for every encoder, task type, payload and option
list) and `DistributeTaskSendVerifyEmail` call the broker's enqueue at most
once; they return an error without calling the broker when encoding the payload
fails; they return an error wrapping the broker's error when the broker's
enqueue fails; and they return nil only when the broker accepted the task. -/
theorem enqueue_reports_every_failure {B α : Type} (distributor : RedisTaskDistributor B)
    (Marshal : α → Except GoError Bytes) (taskType : String) (payload : α)
    (email : Option PayloadSendVerifyEmail) (opts : List AsynqOption) (w : BrokerWorld B) :
    EnqueueContract distributor.client Marshal taskType payload opts w
      (distributeTask distributor Marshal taskType payload opts w) ∧
    EnqueueContract distributor.client distributor.json.sendVerifyEmail.Marshal
      TaskSendVerifyEmail email opts w
      (DistributeTaskSendVerifyEmail distributor email opts w) :=
  ⟨enqueueContract_of_body distributor.client Marshal taskType payload opts w,
    enqueueContract_of_body distributor.client distributor.json.sendVerifyEmail.Marshal
      TaskSendVerifyEmail email opts w⟩

/-- The witness of C9, on the concrete distributor: with a failing encoder the
result is an error and the broker world is untouched; with a broker that is
down the result wraps the broker's error after one enqueue call; and a nil
result of `DistributeTaskSendVerifyEmail` comes with an accepted task. -/
theorem enqueue_reports_every_failure_witness :
    ((distributeTask (demoDistributor none) failingMarshal TaskCreateCandidateApp
        (some demoCreateApplication) [] emptyBrokerWorld).1 ≠ none ∧
      (distributeTask (demoDistributor none) failingMarshal TaskCreateCandidateApp
        (some demoCreateApplication) [] emptyBrokerWorld).2 = emptyBrokerWorld) ∧
    ((distributeTask (demoDistributor (some brokerDown)) demoCodecs.createApplication.Marshal
        TaskCreateCandidateApp (some demoCreateApplication) [] emptyBrokerWorld).1 ≠ none ∧
      wraps (distributeTask (demoDistributor (some brokerDown))
        demoCodecs.createApplication.Marshal TaskCreateCandidateApp
        (some demoCreateApplication) [] emptyBrokerWorld).1 brokerDown = true ∧
      (distributeTask (demoDistributor (some brokerDown)) demoCodecs.createApplication.Marshal
        TaskCreateCandidateApp (some demoCreateApplication) [] emptyBrokerWorld).2.enqueueCalls =
        emptyBrokerWorld.enqueueCalls ++
          [NewTask TaskCreateCandidateApp demoCreateApplicationBytes []]) ∧
    (∃ jsonPayload info,
      (demoDistributor none).json.sendVerifyEmail.Marshal (some demoSendVerifyEmail) =
        Except.ok jsonPayload ∧
      ((demoDistributor none).client.EnqueueContext
        (NewTask TaskSendVerifyEmail jsonPayload []) emptyBrokerWorld.broker).1 =
        Except.ok info ∧
      (DistributeTaskSendVerifyEmail (demoDistributor none) (some demoSendVerifyEmail) []
        emptyBrokerWorld).2.enqueueCalls =
        emptyBrokerWorld.enqueueCalls ++ [NewTask TaskSendVerifyEmail jsonPayload []]) :=
  ⟨(enqueue_reports_every_failure (demoDistributor none) failingMarshal
      TaskCreateCandidateApp (some demoCreateApplication) (some demoSendVerifyEmail) []
      emptyBrokerWorld).1.2.1 _ rfl,
    (enqueue_reports_every_failure (demoDistributor (some brokerDown))
      demoCodecs.createApplication.Marshal TaskCreateCandidateApp
      (some demoCreateApplication) (some demoSendVerifyEmail) []
      emptyBrokerWorld).1.2.2.1 _ _ rfl rfl,
    (enqueue_reports_every_failure (demoDistributor none) failingMarshal
      TaskCreateCandidateApp (some demoCreateApplication) (some demoSendVerifyEmail) []
      emptyBrokerWorld).2.2.2.2 rfl⟩

/-! ### Routing of task kinds -/

/-- The body shared by the distribute methods hands the broker no task, or one
task of the given type with the given options. -/
theorem enqueueCalls_of_body {B α : Type} (client : AsynqClient B)
    (Marshal : α → Except GoError Bytes) (taskType : String) (payload : α)
    (opts : List AsynqOption) (w : BrokerWorld B) :
    (match Marshal payload with
      | Except.error err => (some (GoError.wrapf "failed to marshal task payload" err), w)
      | Except.ok jsonPayload =>
        match enqueueContext client (NewTask taskType jsonPayload opts) w with
        | (Except.error err, w1) => (some (GoError.wrapf "failed to enqueue task" err), w1)
        | (Except.ok _, w1) => (none, w1)).2.enqueueCalls = w.enqueueCalls ∨
    ∃ jsonPayload,
      (match Marshal payload with
      | Except.error err => (some (GoError.wrapf "failed to marshal task payload" err), w)
      | Except.ok jsonPayload =>
        match enqueueContext client (NewTask taskType jsonPayload opts) w with
        | (Except.error err, w1) => (some (GoError.wrapf "failed to enqueue task" err), w1)
        | (Except.ok _, w1) => (none, w1)).2.enqueueCalls =
        w.enqueueCalls ++ [NewTask taskType jsonPayload opts] := by
  cases hm : Marshal payload with
  | error err => simp
  | ok jsonPayload =>
    refine Or.inr ⟨jsonPayload, ?_⟩
    simp only [enqueueContext]
    cases (client.EnqueueContext (NewTask taskType jsonPayload opts) w.broker).1 <;> rfl

/-- Each distribute method hands the broker no task, or one task of its own type. -/
theorem runDistributeFn_enqueueCalls {B : Type} (distributor : RedisTaskDistributor B)
    (d : DistributeFn) (payload : Option d.payloadType.type) (opts : List AsynqOption)
    (w : BrokerWorld B) :
    (runDistributeFn distributor d payload opts w).2.enqueueCalls = w.enqueueCalls ∨
    ∃ jsonPayload, (runDistributeFn distributor d payload opts w).2.enqueueCalls =
      w.enqueueCalls ++ [NewTask d.taskType jsonPayload opts] := by
  cases d <;> exact enqueueCalls_of_body distributor.client _ _ payload opts w

/-- The body shared by the distribute methods, when the payload encodes to
`data`, hands the broker exactly one task: the given type with `data` and the
given options. -/
theorem enqueueCalls_of_marshalled {B α : Type} (client : AsynqClient B)
    (Marshal : α → Except GoError Bytes) (taskType : String) (payload : α)
    (opts : List AsynqOption) (w : BrokerWorld B) (data : Bytes)
    (hm : Marshal payload = Except.ok data) :
    (match Marshal payload with
      | Except.error err => (some (GoError.wrapf "failed to marshal task payload" err), w)
      | Except.ok jsonPayload =>
        match enqueueContext client (NewTask taskType jsonPayload opts) w with
        | (Except.error err, w1) => (some (GoError.wrapf "failed to enqueue task" err), w1)
        | (Except.ok _, w1) => (none, w1)).2.enqueueCalls =
      w.enqueueCalls ++ [NewTask taskType data opts] := by
  rw [hm]
  simp only [enqueueContext]
  cases (client.EnqueueContext (NewTask taskType data opts) w.broker).1 <;> rfl

/-- The method `ProcessTaskSendVerifyEmail` on a payload that decodes to `p`
with all three fields set, in a working directory `wd` that holds both images:
the world afterwards is the world after the one `SendEmail` call. -/
theorem processTaskSendVerifyEmail_decoded {S : Type} (processor : RedisTaskProcessor S)
    (task : Task) (w : HandlerWorld S) (p : PayloadSendVerifyEmail) (wd : String)
    (hj : jsonUnmarshal processor.json.sendVerifyEmail task.payload
      (JsonTarget.pointer default) = (none, p))
    (hn : p.Name ≠ "") (he : p.Email ≠ "") (hl : p.VerificationLink ≠ "")
    (hg : processor.os.Getwd = Except.ok wd)
    (h1 : processor.os.statIsNotExist
      (processor.os.Join [wd, "assets", "images", "logo.png"]) = false)
    (h2 : processor.os.statIsNotExist
      (processor.os.Join [wd, "assets", "images", "email-icon.png"]) = false) :
    (ProcessTaskSendVerifyEmail processor task w).2 =
      (invoke
        (Call.SendEmail "Welcome to Part Timer"
          (processor.verifyEmailContent p.Name p.VerificationLink) [p.Email] [] [] []
          [("logo", processor.os.Join [wd, "assets", "images", "logo.png"]),
            ("email-icon", processor.os.Join [wd, "assets", "images", "email-icon.png"])])
        (processor.mailer.SendEmail "Welcome to Part Timer"
          (processor.verifyEmailContent p.Name p.VerificationLink) [p.Email] [] [] []
          [("logo", processor.os.Join [wd, "assets", "images", "logo.png"]),
            ("email-icon", processor.os.Join [wd, "assets", "images", "email-icon.png"])])
        w).2 := by
  simp only [ProcessTaskSendVerifyEmail, hj, hg]
  rw [if_neg (by simp [hn, he, hl])]
  simp only [h1, h2, Bool.false_eq_true, if_false, invoke]
  split <;> rename_i heq <;> simp only [Prod.mk.injEq] at heq <;> rw [← heq.2]

/-- C8: the task-type strings of the ten distribute methods are pairwise
distinct, and each distribute method hands the broker only tasks of its own
type string: exactly one, carrying the encoding of the payload, when the
payload encodes.  `Start` builds its multiplexer without a panic and registers
each type string to the process method of the same name, the handlers the
multiplexer selects for the type strings of two different distribute methods
differ, and for each type string it selects the process method registered to it.  For the candidate and past-experience kinds that process method,
on a payload that decodes into the payload type of the distribute method,
makes exactly the one matching document-store call with the decoded fields;
for the verify-email kind it makes the one `SendEmail` call when the fields
are set and the images exist.  For the four application kinds the process
method selected returns the decode failure for every task and calls nothing:
it decodes no payload type and never makes the matching call. -/
theorem application_kinds_reach_a_handler_that_never_decodes :
    (∀ d d' : DistributeFn, d ≠ d' → d.taskType ≠ d'.taskType) ∧
    (∀ (B : Type) (distributor : RedisTaskDistributor B) (d : DistributeFn)
      (payload : Option d.payloadType.type) (opts : List AsynqOption) (w : BrokerWorld B),
      ∀ task ∈ (runDistributeFn distributor d payload opts w).2.enqueueCalls,
        task ∈ w.enqueueCalls ∨ task.typename = d.taskType) ∧
    (∀ (B : Type) (distributor : RedisTaskDistributor B) (opts : List AsynqOption)
      (w : BrokerWorld B) (data : Bytes),
      (∀ payload, distributor.json.sendVerifyEmail.Marshal payload = Except.ok data →
        (DistributeTaskSendVerifyEmail distributor payload opts w).2.enqueueCalls =
          w.enqueueCalls ++ [NewTask TaskSendVerifyEmail data opts]) ∧
      (∀ payload, distributor.json.candidate.Marshal payload = Except.ok data →
        (DistributeTaskCreateCandidate distributor payload opts w).2.enqueueCalls =
          w.enqueueCalls ++ [NewTask TaskCreateCandidate data opts]) ∧
      (∀ payload, distributor.json.candidate.Marshal payload = Except.ok data →
        (DistributeTaskUpdateCandidate distributor payload opts w).2.enqueueCalls =
          w.enqueueCalls ++ [NewTask TaskUpdateCandidate data opts]) ∧
      (∀ payload, distributor.json.pastExperience.Marshal payload = Except.ok data →
        (DistributeTaskAddPastExperience distributor payload opts w).2.enqueueCalls =
          w.enqueueCalls ++ [NewTask TaskAddPastExperience data opts]) ∧
      (∀ payload, distributor.json.pastExperience.Marshal payload = Except.ok data →
        (DistributeTaskUpdatePastExperience distributor payload opts w).2.enqueueCalls =
          w.enqueueCalls ++ [NewTask TaskUpdatePastExperience data opts]) ∧
      (∀ payload, distributor.json.deletePastExperience.Marshal payload = Except.ok data →
        (DistributeTaskDeletePastExperience distributor payload opts w).2.enqueueCalls =
          w.enqueueCalls ++ [NewTask TaskDeletePastExperience data opts]) ∧
      (∀ payload, distributor.json.createApplication.Marshal payload = Except.ok data →
        (DistributeTaskCreateCandidateApplication distributor payload opts w).2.enqueueCalls =
          w.enqueueCalls ++ [NewTask TaskCreateCandidateApp data opts]) ∧
      (∀ payload, distributor.json.createApplication.Marshal payload = Except.ok data →
        (DistributeTaskCreateEmployerApplication distributor payload opts w).2.enqueueCalls =
          w.enqueueCalls ++ [NewTask TaskCreateEmployerApp data opts]) ∧
      (∀ payload, distributor.json.deleteApplication.Marshal payload = Except.ok data →
        (DistributeTaskDeleteCandidateApplication distributor payload opts w).2.enqueueCalls =
          w.enqueueCalls ++ [NewTask TaskDeleteCandidateApp data opts]) ∧
      (∀ payload, distributor.json.deleteApplication.Marshal payload = Except.ok data →
        (DistributeTaskDeleteEmployerApplication distributor payload opts w).2.enqueueCalls =
          w.enqueueCalls ++ [NewTask TaskDeleteEmployerApp data opts])) ∧
    (∃ mux, RedisTaskProcessor.Start = Except.ok mux ∧
      mux.m =
        [(TaskSendVerifyEmail, ProcessFn.ProcessTaskSendVerifyEmail),
          (TaskCreateCandidate, ProcessFn.ProcessTaskCreateCandidate),
          (TaskUpdateCandidate, ProcessFn.ProcessTaskUpdateCandidate),
          (TaskAddPastExperience, ProcessFn.ProcessTaskAddPastExperience),
          (TaskUpdatePastExperience, ProcessFn.ProcessTaskUpdatePastExperience),
          (TaskDeletePastExperience, ProcessFn.ProcessTaskDeletePastExperience),
          (TaskCreateCandidateApp, ProcessFn.ProcessTaskCreateCandidateApplication),
          (TaskCreateEmployerApp, ProcessFn.ProcessTaskCreateEmployerApplication),
          (TaskDeleteCandidateApp, ProcessFn.ProcessTaskDeleteCandidateApplication),
          (TaskDeleteEmployerApp, ProcessFn.ProcessTaskDeleteEmployerApplication)] ∧
      (∀ d d' : DistributeFn, d ≠ d' →
        mux.matchType d.taskType ≠ mux.matchType d'.taskType) ∧
      mux.matchType TaskSendVerifyEmail = some ProcessFn.ProcessTaskSendVerifyEmail ∧
      mux.matchType TaskCreateCandidate = some ProcessFn.ProcessTaskCreateCandidate ∧
      mux.matchType TaskUpdateCandidate = some ProcessFn.ProcessTaskUpdateCandidate ∧
      mux.matchType TaskAddPastExperience = some ProcessFn.ProcessTaskAddPastExperience ∧
      mux.matchType TaskUpdatePastExperience = some ProcessFn.ProcessTaskUpdatePastExperience ∧
      mux.matchType TaskDeletePastExperience = some ProcessFn.ProcessTaskDeletePastExperience ∧
      mux.matchType TaskCreateCandidateApp =
        some ProcessFn.ProcessTaskCreateCandidateApplication ∧
      mux.matchType TaskCreateEmployerApp =
        some ProcessFn.ProcessTaskCreateEmployerApplication ∧
      mux.matchType TaskDeleteCandidateApp =
        some ProcessFn.ProcessTaskDeleteCandidateApplication ∧
      mux.matchType TaskDeleteEmployerApp =
        some ProcessFn.ProcessTaskDeleteEmployerApplication) ∧
    (∀ (S : Type) (processor : RedisTaskProcessor S) (task : Task) (w : HandlerWorld S),
      (∀ p wd, jsonUnmarshal processor.json.sendVerifyEmail task.payload
          (JsonTarget.pointer default) = (none, p) →
        p.Name ≠ "" → p.Email ≠ "" → p.VerificationLink ≠ "" →
        processor.os.Getwd = Except.ok wd →
        processor.os.statIsNotExist
          (processor.os.Join [wd, "assets", "images", "logo.png"]) = false →
        processor.os.statIsNotExist
          (processor.os.Join [wd, "assets", "images", "email-icon.png"]) = false →
        (runProcessFn processor ProcessFn.ProcessTaskSendVerifyEmail task w).2 =
          (invoke
            (Call.SendEmail "Welcome to Part Timer"
              (processor.verifyEmailContent p.Name p.VerificationLink) [p.Email] [] [] []
              [("logo", processor.os.Join [wd, "assets", "images", "logo.png"]),
                ("email-icon", processor.os.Join [wd, "assets", "images", "email-icon.png"])])
            (processor.mailer.SendEmail "Welcome to Part Timer"
              (processor.verifyEmailContent p.Name p.VerificationLink) [p.Email] [] [] []
              [("logo", processor.os.Join [wd, "assets", "images", "logo.png"]),
                ("email-icon", processor.os.Join [wd, "assets", "images", "email-icon.png"])])
            w).2) ∧
      (∀ p, jsonUnmarshal processor.json.candidate task.payload
          (JsonTarget.pointer default) = (none, p) →
        (runProcessFn processor ProcessFn.ProcessTaskCreateCandidate task w).2 =
          (invoke (Call.IndexCandidate p.Candidate)
            (processor.esClient.IndexCandidate p.Candidate) w).2) ∧
      (∀ p, jsonUnmarshal processor.json.candidate task.payload
          (JsonTarget.pointer default) = (none, p) →
        (runProcessFn processor ProcessFn.ProcessTaskUpdateCandidate task w).2 =
          (invoke (Call.UpdateCandidate p.Candidate)
            (processor.esClient.UpdateCandidate p.Candidate) w).2) ∧
      (∀ p, jsonUnmarshal processor.json.pastExperience task.payload
          (JsonTarget.pointer default) = (none, p) →
        (runProcessFn processor ProcessFn.ProcessTaskAddPastExperience task w).2 =
          (invoke (Call.AddPastExperienceToCandidate p.UserUID p.PastExperience)
            (processor.esClient.AddPastExperienceToCandidate p.UserUID p.PastExperience)
            w).2) ∧
      (∀ p, jsonUnmarshal processor.json.pastExperience task.payload
          (JsonTarget.pointer default) = (none, p) →
        (runProcessFn processor ProcessFn.ProcessTaskUpdatePastExperience task w).2 =
          (invoke (Call.UpdatePastExperienceInCandidate p.UserUID p.PastExperience)
            (processor.esClient.UpdatePastExperienceInCandidate p.UserUID p.PastExperience)
            w).2) ∧
      (∀ p, jsonUnmarshal processor.json.deletePastExperience task.payload
          (JsonTarget.pointer default) = (none, p) →
        (runProcessFn processor ProcessFn.ProcessTaskDeletePastExperience task w).2 =
          (invoke (Call.DeletePastExperienceFromCandidate p.UserUID p.PastExperienceID)
            (processor.esClient.DeletePastExperienceFromCandidate p.UserUID p.PastExperienceID)
            w).2) ∧
      runProcessFn processor ProcessFn.ProcessTaskCreateCandidateApplication task w =
        (some unmarshalFailure, w) ∧
      runProcessFn processor ProcessFn.ProcessTaskCreateEmployerApplication task w =
        (some unmarshalFailure, w) ∧
      runProcessFn processor ProcessFn.ProcessTaskDeleteCandidateApplication task w =
        (some unmarshalFailure, w) ∧
      runProcessFn processor ProcessFn.ProcessTaskDeleteEmployerApplication task w =
        (some unmarshalFailure, w)) := by
  refine ⟨?_, ?_, ?_, ⟨_, rfl, by decide, ?_, by decide, by decide, by decide, by decide,
    by decide, by decide, by decide, by decide, by decide, by decide⟩, ?_⟩
  · intro d d' hne
    cases d <;> cases d' <;> first | exact absurd rfl hne | decide
  · intro B distributor d payload opts w task hmem
    rcases runDistributeFn_enqueueCalls distributor d payload opts w with h | ⟨jp, h⟩
    · exact Or.inl (h ▸ hmem)
    · rw [h, List.mem_append, List.mem_singleton] at hmem
      rcases hmem with hm | rfl
      · exact Or.inl hm
      · exact Or.inr rfl
  · intro B distributor opts w data
    refine ⟨?_, ?_, ?_, ?_, ?_, ?_, ?_, ?_, ?_, ?_⟩ <;> intro payload hm <;>
      exact enqueueCalls_of_marshalled distributor.client _ _ payload opts w data hm
  · intro d d' hne
    cases d <;> cases d' <;> first | exact absurd rfl hne | decide
  · intro S processor task w
    refine ⟨?_, ?_, ?_, ?_, ?_, ?_, ?_, ?_, ?_, ?_⟩
    · intro p wd hj hn he hl hg h1 h2
      exact processTaskSendVerifyEmail_decoded processor task w p wd hj hn he hl hg h1 h2
    · intro p hj
      rw [runProcessFn, ProcessTaskCreateCandidate,
        processCandidateTask_decoded processor task w p _ _ hj]
      rfl
    · intro p hj
      rw [runProcessFn, ProcessTaskUpdateCandidate,
        processCandidateTask_decoded processor task w p _ _ hj]
      rfl
    · intro p hj
      rw [runProcessFn, ProcessTaskAddPastExperience,
        processPastExperienceTask_decoded processor task w p _ _ hj]
      rfl
    · intro p hj
      rw [runProcessFn, ProcessTaskUpdatePastExperience,
        processPastExperienceTask_decoded processor task w p _ _ hj]
      rfl
    · intro p hj
      rw [runProcessFn, ProcessTaskDeletePastExperience,
        processDeletePastExperienceTask_decoded processor task w p _ _ hj]
      rfl
    · rw [runProcessFn, ProcessTaskCreateCandidateApplication, processCreateApplicationTask_eq]
    · rw [runProcessFn, ProcessTaskCreateEmployerApplication, processCreateApplicationTask_eq]
    · rw [runProcessFn, ProcessTaskDeleteCandidateApplication, processDeleteApplicationTask_eq]
    · rw [runProcessFn, ProcessTaskDeleteEmployerApplication, processDeleteApplicationTask_eq]

/-- The witness of C8, at the task of the scenario: the payload with document
id `5_7` encodes, `DistributeTaskCreateCandidateApplication` hands the broker
the one task of type `task:create_candidate_app` carrying the encoding, and
the bytes decode into a `PayloadCreateApplication` when `json.Unmarshal` is
given a pointer; the process method selected for that type string returns the
decode failure and leaves the world as it was.  The task that
`DistributeTaskCreateCandidate` enqueues makes its process method call
`IndexCandidate` once with the candidate of the payload. -/
theorem application_kinds_reach_a_handler_that_never_decodes_witness :
    demoCodecs.createApplication.Marshal (some demoCreateApplication) =
      Except.ok demoCreateApplicationBytes ∧
    (DistributeTaskCreateCandidateApplication (demoDistributor none)
      (some demoCreateApplication) [] emptyBrokerWorld).2.enqueueCalls =
      [demoCreateApplicationTask] ∧
    jsonUnmarshal demoCodecs.createApplication demoCreateApplicationTask.payload
      (JsonTarget.pointer default) = (none, demoCreateApplication) ∧
    runProcessFn (demoProcessor none) ProcessFn.ProcessTaskCreateCandidateApplication
      demoCreateApplicationTask emptyHandlerWorld = (some unmarshalFailure, emptyHandlerWorld) ∧
    (DistributeTaskCreateCandidate (demoDistributor none) (some demoCandidate) []
      emptyBrokerWorld).2.enqueueCalls = [NewTask TaskCreateCandidate demoBytes []] ∧
    (runProcessFn (demoProcessor none) ProcessFn.ProcessTaskCreateCandidate
      (NewTask TaskCreateCandidate demoBytes []) emptyHandlerWorld).2 =
      { ext := [], calls := [Call.IndexCandidate demoCandidate.Candidate] } :=
  ⟨rfl,
    (application_kinds_reach_a_handler_that_never_decodes.2.2.1 _ (demoDistributor none) []
      emptyBrokerWorld demoCreateApplicationBytes).2.2.2.2.2.2.1 (some demoCreateApplication) rfl,
    by rfl,
    (application_kinds_reach_a_handler_that_never_decodes.2.2.2.2 _ (demoProcessor none)
      demoCreateApplicationTask emptyHandlerWorld).2.2.2.2.2.2.1,
    (application_kinds_reach_a_handler_that_never_decodes.2.2.1 _ (demoDistributor none) []
      emptyBrokerWorld demoBytes).2.1 (some demoCandidate) rfl,
    (application_kinds_reach_a_handler_that_never_decodes.2.2.2.2 _ (demoProcessor none)
      (NewTask TaskCreateCandidate demoBytes []) emptyHandlerWorld).2.1 demoCandidate (by rfl)⟩

/-! ### Past-experience endpoints -/

/-- C10: for the create, update and delete past-experience endpoints and every
request that binds and whose authenticated uid is the request's user: if the
task distributor returns an error the response is HTTP 500 with the error body,
and the response is HTTP 200 if and only if the distributor returned nil. -/
theorem past_experience_endpoints_surface_enqueue_errors {W : Type} (server : Server W)
    (w : W) :
    (∀ (ctx : GinContext createPastExperienceRequest) (req : createPastExperienceRequest),
      ctx.ShouldBindJSON = Except.ok req → GetUIDFromClaims ctx = (req.UserUID, none) →
      ReflectsDistributorResult
        (server.taskDistributor.DistributeTaskAddPastExperience
          (some (createPastExperiencePayload server req)) createPastExperienceOpts w).1
        (createPastExperience server ctx w).1) ∧
    (∀ (ctx : GinContext updatePastExperienceRequest) (req : updatePastExperienceRequest),
      ctx.ShouldBindJSON = Except.ok req → GetUIDFromClaims ctx = (req.UserUID, none) →
      ReflectsDistributorResult
        (server.taskDistributor.DistributeTaskUpdatePastExperience
          (some (updatePastExperiencePayload req)) updatePastExperienceOpts w).1
        (updatePastExperience server ctx w).1) ∧
    (∀ (ctx : GinContext deletePastExperienceRequest) (req : deletePastExperienceRequest),
      ctx.ShouldBindJSON = Except.ok req → GetUIDFromClaims ctx = (req.UserUID, none) →
      ReflectsDistributorResult
        (server.taskDistributor.DistributeTaskDeletePastExperience
          (some (deletePastExperiencePayload req)) deletePastExperienceOpts w).1
        (deletePastExperience server ctx w).1) := by
  refine ⟨?_, ?_, ?_⟩
  · intro ctx req hbind hauth
    simp only [createPastExperience, hbind, hauth, ReflectsDistributorResult]
    rcases server.taskDistributor.DistributeTaskAddPastExperience
      (some (createPastExperiencePayload server req)) createPastExperienceOpts w with
      ⟨_ | err, w1⟩ <;>
      simp [StatusOK, StatusInternalServerError]
  · intro ctx req hbind hauth
    simp only [updatePastExperience, hbind, hauth, ReflectsDistributorResult]
    rcases server.taskDistributor.DistributeTaskUpdatePastExperience
      (some (updatePastExperiencePayload req)) updatePastExperienceOpts w with
      ⟨_ | err, w1⟩ <;>
      simp [StatusOK, StatusInternalServerError]
  · intro ctx req hbind hauth
    simp only [deletePastExperience, hbind, hauth, ReflectsDistributorResult]
    rcases server.taskDistributor.DistributeTaskDeletePastExperience
      (some (deletePastExperiencePayload req)) deletePastExperienceOpts w with
      ⟨_ | err, w1⟩ <;>
      simp [StatusOK, StatusInternalServerError]

/-- The witness of C10, on the concrete server: with the broker down the
creation and deletion endpoints answer 500 with the error body, and with the
broker up the update endpoint answers 200. -/
theorem past_experience_endpoints_surface_enqueue_errors_witness :
    ((createPastExperience (demoServer (some brokerDown)) (demoContext demoCreateRequest)
        emptyBrokerWorld).1.status = StatusInternalServerError ∧
      (createPastExperience (demoServer (some brokerDown)) (demoContext demoCreateRequest)
        emptyBrokerWorld).1.body =
        errorResponse (GoError.wrapf "failed to distribute task"
          (GoError.wrapf "failed to enqueue task" brokerDown))) ∧
    (updatePastExperience (demoServer none) (demoContext demoUpdateRequest)
        emptyBrokerWorld).1.status = StatusOK ∧
    ((deletePastExperience (demoServer (some brokerDown)) (demoContext demoDeleteRequest)
        emptyBrokerWorld).1.status = StatusInternalServerError ∧
      (deletePastExperience (demoServer (some brokerDown)) (demoContext demoDeleteRequest)
        emptyBrokerWorld).1.body =
        errorResponse (GoError.wrapf "failed to distribute task"
          (GoError.wrapf "failed to enqueue task" brokerDown))) :=
  ⟨((past_experience_endpoints_surface_enqueue_errors (demoServer (some brokerDown))
      emptyBrokerWorld).1 (demoContext demoCreateRequest) demoCreateRequest rfl rfl).1
      (GoError.wrapf "failed to enqueue task" brokerDown) rfl,
    ((past_experience_endpoints_surface_enqueue_errors (demoServer none)
      emptyBrokerWorld).2.1 (demoContext demoUpdateRequest) demoUpdateRequest rfl rfl).2.mpr
      rfl,
    ((past_experience_endpoints_surface_enqueue_errors (demoServer (some brokerDown))
      emptyBrokerWorld).2.2 (demoContext demoDeleteRequest) demoDeleteRequest rfl rfl).1
      (GoError.wrapf "failed to enqueue task" brokerDown) rfl⟩

/-! ### The document store -/

/-- A member that was just assigned has the assigned value. -/
theorem getField_setField_same (m : JsonMap) (k : String) (v : Json) :
    getField (setField m k v) k = some v := by
  induction m with
  | nil => simp [setField, getField]
  | cons e rest ih =>
    obtain ⟨k0, v0⟩ := e
    by_cases h : k0 = k
    · simp [setField, getField, h]
    · simp [setField, getField, h, ih]

/-- Assignment to one member does not change another. -/
theorem getField_setField_ne (m : JsonMap) (k k1 : String) (v : Json) (hne : k1 ≠ k) :
    getField (setField m k v) k1 = getField m k1 := by
  induction m with
  | nil => simp [setField, getField, Ne.symm hne]
  | cons e rest ih =>
    obtain ⟨k0, v0⟩ := e
    by_cases h : k0 = k
    · subst h
      simp [setField, getField, Ne.symm hne]
    · by_cases h1 : k0 = k1
      · subst h1
        simp [setField, getField, h]
      · simp [setField, getField, h, h1, ih]

/-- Assigning to a member the value it has changes nothing. -/
theorem setField_of_getField (m : JsonMap) (k : String) (v : Json)
    (h : getField m k = some v) : setField m k v = m := by
  induction m with
  | nil => simp [getField] at h
  | cons e rest ih =>
    obtain ⟨k0, v0⟩ := e
    by_cases h0 : k0 = k
    · simp [getField, h0] at h
      simp [setField, h0, h]
    · simp [getField, h0] at h
      simp [setField, h0, ih h]

/-- Setting a document twice is setting it to the last value. -/
theorem putDocument_putDocument (docs : Documents) (index id : String) (b b1 : JsonMap) :
    putDocument (putDocument docs index id b) index id b1 = putDocument docs index id b1 := by
  funext i d
  simp only [putDocument]
  split <;> rfl

/-- Setting a document to the source it has changes nothing. -/
theorem putDocument_of_get (docs : Documents) (index id : String) (b : JsonMap)
    (h : docs index id = some b) : putDocument docs index id b = docs := by
  funext i d
  simp only [putDocument]
  split
  · rename_i hid
    rw [hid.1, hid.2, h]
  · rfl

/-- A document that was just set has the source it was set to. -/
theorem putDocument_get (docs : Documents) (index id : String) (b : JsonMap) :
    putDocument docs index id b index id = some b := by
  simp [putDocument]

/-- A script-update with a script that maps each of its results to itself,
applied twice, leaves the documents that one application leaves. -/
theorem esUpdateScript_twice (index id : String) (script : JsonMap → Except GoError JsonMap)
    (hfix : ∀ source source1, script source = Except.ok source1 →
      script source1 = Except.ok source1)
    (docs : Documents) :
    (esUpdateScript index id script (esUpdateScript index id script docs).2).2 =
      (esUpdateScript index id script docs).2 := by
  unfold esUpdateScript
  cases hd : docs index id with
  | none => simp [hd]
  | some source =>
    cases hs : script source with
    | error err => simp [hd, hs]
    | ok source1 =>
      simp only [hs, putDocument_get, hfix source source1 hs, putDocument_putDocument]

/-! ### The scripts of the past-experience client -/

/-- A conditional copy into one member does not change another. -/
theorem getField_copyIfPresent_ne (p e : JsonMap) (k k1 : String) (hne : k1 ≠ k) :
    getField (copyIfPresent p k e) k1 = getField e k1 := by
  unfold copyIfPresent
  cases getField p k with
  | none => rfl
  | some v => exact getField_setField_ne e k k1 v hne

/-- A conditional copy gives the member the value that the parameters have for it. -/
theorem getField_copyIfPresent_same (p e : JsonMap) (k : String) (v : Json)
    (h : getField p k = some v) : getField (copyIfPresent p k e) k = some v := by
  unfold copyIfPresent
  rw [h]
  exact getField_setField_same e k v

/-- A conditional copy changes nothing when the entry already agrees with the parameters. -/
theorem copyIfPresent_of_agree (p e : JsonMap) (k : String)
    (h : ∀ v, getField p k = some v → getField e k = some v) : copyIfPresent p k e = e := by
  unfold copyIfPresent
  cases hp : getField p k with
  | none => rfl
  | some v => exact setField_of_getField e k v (h v hp)

/-- The assignments of the update script change nothing in an entry that
already agrees with the parameters on the members they assign. -/
theorem applyPastExperience_of_agree (p e : JsonMap)
    (h1 : ∀ v, getField p "industry" = some v → getField e "industry" = some v)
    (h2 : ∀ v, getField p "job_title" = some v → getField e "job_title" = some v)
    (h3 : ∀ v, getField p "description" = some v → getField e "description" = some v)
    (h4 : ∀ v, getField p "start_date" = some v → getField e "start_date" = some v)
    (h5 : ∀ v, getField p "end_date" = some v → getField e "end_date" = some v)
    (h6 : getField e "length" = some (memberOrNull p "length"))
    (h7 : ∀ v, getField p "present" = some v → getField e "present" = some v) :
    applyPastExperience p e = e := by
  unfold applyPastExperience
  simp only [copyIfPresent_of_agree p e _ h1, copyIfPresent_of_agree p e _ h2,
    copyIfPresent_of_agree p e _ h3, copyIfPresent_of_agree p e _ h4,
    copyIfPresent_of_agree p e _ h5, setField_of_getField e _ _ h6,
    copyIfPresent_of_agree p e _ h7]

/-- The member the update script reads after its assignments, for each member
other than `length`: the value of the parameters if they have one. -/
theorem getField_applyPastExperience (p e : JsonMap) (k : String) (v : Json)
    (hk : k = "industry" ∨ k = "job_title" ∨ k = "description" ∨ k = "start_date" ∨
      k = "end_date" ∨ k = "present")
    (hv : getField p k = some v) : getField (applyPastExperience p e) k = some v := by
  unfold applyPastExperience
  rcases hk with rfl | rfl | rfl | rfl | rfl | rfl
  · rw [getField_copyIfPresent_ne _ _ _ _ (by decide), getField_setField_ne _ _ _ _ (by decide),
      getField_copyIfPresent_ne _ _ _ _ (by decide), getField_copyIfPresent_ne _ _ _ _ (by decide),
      getField_copyIfPresent_ne _ _ _ _ (by decide), getField_copyIfPresent_ne _ _ _ _ (by decide)]
    exact getField_copyIfPresent_same _ _ _ _ hv
  · rw [getField_copyIfPresent_ne _ _ _ _ (by decide), getField_setField_ne _ _ _ _ (by decide),
      getField_copyIfPresent_ne _ _ _ _ (by decide), getField_copyIfPresent_ne _ _ _ _ (by decide),
      getField_copyIfPresent_ne _ _ _ _ (by decide)]
    exact getField_copyIfPresent_same _ _ _ _ hv
  · rw [getField_copyIfPresent_ne _ _ _ _ (by decide), getField_setField_ne _ _ _ _ (by decide),
      getField_copyIfPresent_ne _ _ _ _ (by decide), getField_copyIfPresent_ne _ _ _ _ (by decide)]
    exact getField_copyIfPresent_same _ _ _ _ hv
  · rw [getField_copyIfPresent_ne _ _ _ _ (by decide), getField_setField_ne _ _ _ _ (by decide),
      getField_copyIfPresent_ne _ _ _ _ (by decide)]
    exact getField_copyIfPresent_same _ _ _ _ hv
  · rw [getField_copyIfPresent_ne _ _ _ _ (by decide), getField_setField_ne _ _ _ _ (by decide)]
    exact getField_copyIfPresent_same _ _ _ _ hv
  · exact getField_copyIfPresent_same _ _ _ _ hv

/-- After the assignments of the update script, `length` is the parameters' `length`. -/
theorem getField_applyPastExperience_length (p e : JsonMap) :
    getField (applyPastExperience p e) "length" = some (memberOrNull p "length") := by
  unfold applyPastExperience
  rw [getField_copyIfPresent_ne _ _ _ _ (by decide)]
  exact getField_setField_same _ _ _

/-- The assignments of the update script do not change the member `id`. -/
theorem getField_applyPastExperience_id (p e : JsonMap) :
    getField (applyPastExperience p e) "id" = getField e "id" := by
  unfold applyPastExperience
  rw [getField_copyIfPresent_ne _ _ _ _ (by decide), getField_setField_ne _ _ _ _ (by decide),
    getField_copyIfPresent_ne _ _ _ _ (by decide), getField_copyIfPresent_ne _ _ _ _ (by decide),
    getField_copyIfPresent_ne _ _ _ _ (by decide), getField_copyIfPresent_ne _ _ _ _ (by decide),
    getField_copyIfPresent_ne _ _ _ _ (by decide)]

/-- The assignments of the update script, made twice, are the assignments made once. -/
theorem applyPastExperience_twice (p e : JsonMap) :
    applyPastExperience p (applyPastExperience p e) = applyPastExperience p e :=
  applyPastExperience_of_agree p _
    (fun v hv => getField_applyPastExperience p e _ v (by simp) hv)
    (fun v hv => getField_applyPastExperience p e _ v (by simp) hv)
    (fun v hv => getField_applyPastExperience p e _ v (by simp) hv)
    (fun v hv => getField_applyPastExperience p e _ v (by simp) hv)
    (fun v hv => getField_applyPastExperience p e _ v (by simp) hv)
    (getField_applyPastExperience_length p e)
    (fun v hv => getField_applyPastExperience p e _ v (by simp) hv)

/-- The loop of the update script maps its result to itself. -/
theorem updateFirstMatching_fixed (p : JsonMap) (items items1 : List Json)
    (h : updateFirstMatching p items = some items1) :
    updateFirstMatching p items1 = some items1 := by
  induction items generalizing items1 with
  | nil =>
    simp [updateFirstMatching] at h
    subst h
    rfl
  | cons x rest ih =>
    cases x with
    | obj entry =>
      simp only [updateFirstMatching] at h
      split at h
      · rename_i hid
        simp only [Option.some.injEq] at h
        subst h
        simp only [updateFirstMatching, memberOrNull, getField_applyPastExperience_id]
        simp only [memberOrNull] at hid
        simp [hid, applyPastExperience_twice]
      · rename_i hid
        cases hr : updateFirstMatching p rest with
        | none => simp [hr] at h
        | some rest1 =>
          simp only [hr, Option.some.injEq] at h
          subst h
          simp [updateFirstMatching, hid, ih rest1 hr]
    | null => simp [updateFirstMatching] at h
    | bool b => simp [updateFirstMatching] at h
    | num q => simp [updateFirstMatching] at h
    | str s => simp [updateFirstMatching] at h
    | arr a => simp [updateFirstMatching] at h

/-- The script of the update maps its result to itself. -/
theorem updatePastExperienceScript_fixed (p source source1 : JsonMap)
    (h : updatePastExperienceScript p source = Except.ok source1) :
    updatePastExperienceScript p source1 = Except.ok source1 := by
  unfold updatePastExperienceScript at h
  split at h
  · rename_i items hitems
    cases hu : updateFirstMatching p items with
    | none => simp [hu] at h
    | some items1 =>
      simp only [hu, Except.ok.injEq] at h
      subst h
      unfold updatePastExperienceScript
      simp only [getField_setField_same, updateFirstMatching_fixed p items items1 hu]
      rw [setField_of_getField _ _ _ (getField_setField_same _ _ _)]
  · simp at h

/-- The removal of the delete script maps its result to itself. -/
theorem removeMatching_fixed (id : Json) (items items1 : List Json)
    (h : removeMatching id items = some items1) : removeMatching id items1 = some items1 := by
  induction items generalizing items1 with
  | nil =>
    simp [removeMatching] at h
    subst h
    rfl
  | cons x rest ih =>
    cases x with
    | obj entry =>
      simp only [removeMatching] at h
      cases hr : removeMatching id rest with
      | none => simp [hr] at h
      | some rest1 =>
        simp only [hr] at h
        split at h
        · simp only [Option.some.injEq] at h
          subst h
          exact ih rest1 hr
        · rename_i hid
          simp only [Option.some.injEq] at h
          subst h
          simp [removeMatching, ih rest1 hr, hid]
    | null => simp [removeMatching] at h
    | bool b => simp [removeMatching] at h
    | num q => simp [removeMatching] at h
    | str s => simp [removeMatching] at h
    | arr a => simp [removeMatching] at h

/-- The script of the deletion maps its result to itself. -/
theorem deletePastExperienceScript_fixed (id : Json) (source source1 : JsonMap)
    (h : deletePastExperienceScript id source = Except.ok source1) :
    deletePastExperienceScript id source1 = Except.ok source1 := by
  unfold deletePastExperienceScript at h
  split at h
  · rename_i hnone
    simp only [Except.ok.injEq] at h
    subst h
    simp [deletePastExperienceScript, hnone]
  · rename_i hnull
    simp only [Except.ok.injEq] at h
    subst h
    simp [deletePastExperienceScript, hnull]
  · rename_i items hitems
    cases hu : removeMatching id items with
    | none => simp [hu] at h
    | some items1 =>
      simp only [hu, Except.ok.injEq] at h
      subst h
      unfold deletePastExperienceScript
      simp only [getField_setField_same, removeMatching_fixed id items items1 hu]
      rw [setField_of_getField _ _ _ (getField_setField_same _ _ _)]
  · simp at h

/-! ### Partial-document updates -/

/-- The member names of an object with distinct keys are pairwise different. -/
theorem nodup_of_distinctKeys (b : JsonMap) (h : distinctKeys b = true) :
    (b.map Prod.fst).Nodup := by
  induction b with
  | nil => simp
  | cons e rest ih =>
    obtain ⟨k, v⟩ := e
    simp only [distinctKeys, Bool.and_eq_true, Bool.not_eq_true', List.any_eq_false,
      decide_eq_true_eq] at h
    simp only [List.map_cons, List.nodup_cons, List.mem_map, not_exists, not_and]
    refine ⟨?_, ih h.2⟩
    intro e he hek
    exact h.1.1 e he hek

/-- The members of an object with distinct keys have distinct keys themselves. -/
theorem distinctKeys_of_mem (b : JsonMap) (h : distinctKeys b = true) (k : String) (v : Json)
    (hmem : (k, v) ∈ b) : v.distinctKeys = true := by
  induction b with
  | nil => simp at hmem
  | cons e rest ih =>
    obtain ⟨k0, v0⟩ := e
    simp only [distinctKeys, Bool.and_eq_true] at h
    rcases List.mem_cons.mp hmem with heq | hrest
    · cases heq
      exact h.1.2
    · exact ih h.2 hrest

/-- In an object with pairwise different member names, each member is the first of its name. -/
theorem getField_of_mem (b : JsonMap) (h : (b.map Prod.fst).Nodup) (k : String) (v : Json)
    (hmem : (k, v) ∈ b) : getField b k = some v := by
  induction b with
  | nil => simp at hmem
  | cons e rest ih =>
    obtain ⟨k0, v0⟩ := e
    simp only [List.map_cons, List.nodup_cons, List.mem_map, not_exists, not_and] at h
    rcases List.mem_cons.mp hmem with heq | hrest
    · cases heq
      simp [getField]
    · have hne : k0 ≠ k := fun hk => h.1 (k, v) hrest hk.symm
      simp [getField, hne, ih h.2 hrest]

/-- A merge does not change the members that the partial document does not name. -/
theorem getField_mergeMap_of_not_mem (p : JsonMap) (s : JsonMap) (k : String)
    (h : k ∉ p.map Prod.fst) : getField (mergeMap s p) k = getField s k := by
  induction p generalizing s with
  | nil => simp [mergeMap]
  | cons e rest ih =>
    obtain ⟨k0, v0⟩ := e
    simp only [List.map_cons, List.mem_cons, not_or] at h
    rw [mergeMap, ih _ h.2, getField_setField_ne _ _ _ _ h.1]

/-- A merge gives each member that the partial document names its merged value. -/
theorem getField_mergeMap_of_mem (p : JsonMap) (hp : (p.map Prod.fst).Nodup) (s : JsonMap)
    (k : String) (v : Json) (hmem : (k, v) ∈ p) :
    getField (mergeMap s p) k = some (mergeValue (getField s k) v) := by
  induction p generalizing s with
  | nil => simp at hmem
  | cons e rest ih =>
    obtain ⟨k0, v0⟩ := e
    simp only [List.map_cons, List.nodup_cons] at hp
    rcases List.mem_cons.mp hmem with heq | hrest
    · cases heq
      rw [mergeMap, getField_mergeMap_of_not_mem _ _ _ hp.1, getField_setField_same]
    · have hne : k ≠ k0 := by
        intro hk
        apply hp.1
        rw [← hk]
        exact List.mem_map.mpr ⟨(k, v), hrest, rfl⟩
      rw [mergeMap, ih hp.2 _ hrest, getField_setField_ne _ _ _ _ hne]

/-- A merge changes nothing in a source whose members are already the merged values. -/
theorem mergeMap_of_fixed (p m : JsonMap)
    (h : ∀ k v, (k, v) ∈ p → ∃ u, getField m k = some u ∧ mergeValue (some u) v = u) :
    mergeMap m p = m := by
  induction p with
  | nil => simp [mergeMap]
  | cons e rest ih =>
    obtain ⟨k0, v0⟩ := e
    obtain ⟨u, hu, hfix⟩ := h k0 v0 (List.mem_cons_self _ _)
    rw [mergeMap, hu, hfix, setField_of_getField m k0 u hu]
    exact ih (fun k v hkv => h k v (List.mem_cons_of_mem _ hkv))

/-- The size of a member value is below the size of the object. -/
theorem sizeOf_lt_of_mem_obj (b : JsonMap) (k : String) (v : Json) (hmem : (k, v) ∈ b) :
    sizeOf v < sizeOf (Json.obj b) := by
  have h1 : sizeOf (k, v) < sizeOf b := List.sizeOf_lt_of_mem hmem
  have h2 : sizeOf v < sizeOf (k, v) := by
    simp only [Prod.mk.sizeOf_spec]
    omega
  simp only [Json.obj.sizeOf_spec]
  omega

/-- Merging a value with distinct keys a second time changes nothing, and
merging it into itself gives it back (by induction on the size of the value). -/
theorem mergeValue_fixed_aux (n : Nat) : ∀ v : Json, sizeOf v ≤ n → v.distinctKeys = true →
    (∀ o, mergeValue (some (mergeValue o v)) v = mergeValue o v) ∧
      mergeValue (some v) v = v := by
  induction n with
  | zero =>
    intro v hv
    cases v <;> simp at hv
  | succ n ih =>
    intro v hv hd
    cases v with
    | obj b =>
      have hb : distinctKeys b = true := by simpa [Json.distinctKeys] using hd
      have hnodup := nodup_of_distinctKeys b hb
      have hent : ∀ k v1, (k, v1) ∈ b →
          (∀ o, mergeValue (some (mergeValue o v1)) v1 = mergeValue o v1) ∧
            mergeValue (some v1) v1 = v1 := by
        intro k v1 hmem
        have hlt := sizeOf_lt_of_mem_obj b k v1 hmem
        exact ih v1 (by omega) (distinctKeys_of_mem b hb k v1 hmem)
      have hself : mergeMap b b = b :=
        mergeMap_of_fixed b b (fun k v1 hmem =>
          ⟨v1, getField_of_mem b hnodup k v1 hmem, (hent k v1 hmem).2⟩)
      have htwice : ∀ a, mergeMap (mergeMap a b) b = mergeMap a b := fun a =>
        mergeMap_of_fixed b (mergeMap a b) (fun k v1 hmem =>
          ⟨_, getField_mergeMap_of_mem b hnodup a k v1 hmem, (hent k v1 hmem).1 _⟩)
      refine ⟨?_, ?_⟩
      · intro o
        rcases o with _ | o
        · simp [mergeValue, hself]
        · cases o <;> simp [mergeValue, hself, htwice]
      · simp [mergeValue, hself]
    | null => simp [mergeValue]
    | bool x => simp [mergeValue]
    | num q => simp [mergeValue]
    | str x => simp [mergeValue]
    | arr a => simp [mergeValue]

/-- Merging a partial document with distinct keys twice is merging it once. -/
theorem mergeMap_twice (p : JsonMap) (hp : distinctKeys p = true) (s : JsonMap) :
    mergeMap (mergeMap s p) p = mergeMap s p :=
  mergeMap_of_fixed p (mergeMap s p) (fun k v hmem =>
    ⟨_, getField_mergeMap_of_mem p (nodup_of_distinctKeys p hp) s k v hmem,
      (mergeValue_fixed_aux (sizeOf v) v (Nat.le_refl _)
        (distinctKeys_of_mem p hp k v hmem)).1 _⟩)

/-- A partial-document update with distinct keys, applied twice, leaves the
documents that one application leaves. -/
theorem esUpdateDoc_twice (index id : String) (doc : JsonMap) (hdoc : distinctKeys doc = true)
    (docs : Documents) :
    (esUpdateDoc index id doc (esUpdateDoc index id doc docs).2).2 =
      (esUpdateDoc index id doc docs).2 := by
  unfold esUpdateDoc
  cases hd : docs index id with
  | none => simp [hd]
  | some source =>
    simp only [putDocument_get, mergeMap_twice doc hdoc, putDocument_putDocument]

/-- A member of an object after an assignment is the assigned member or was there before. -/
theorem mem_setField (m : JsonMap) (k : String) (v : Json) (e : String × Json)
    (he : e ∈ setField m k v) : e.1 = k ∨ e ∈ m := by
  induction m with
  | nil =>
    simp only [setField, List.mem_singleton] at he
    exact Or.inl (by rw [he])
  | cons e0 rest ih =>
    obtain ⟨k0, v0⟩ := e0
    by_cases h : k0 = k
    · simp only [setField, h, if_true, List.mem_cons] at he
      rcases he with he | he
      · exact Or.inl (by rw [he])
      · exact Or.inr (List.mem_cons_of_mem _ he)
    · simp only [setField, h, if_false, List.mem_cons] at he
      rcases he with he | he
      · exact Or.inr (by rw [he]; exact List.mem_cons_self _ _)
      · rcases ih he with h1 | h1
        · exact Or.inl h1
        · exact Or.inr (List.mem_cons_of_mem _ h1)

/-- Assignment of a value with distinct keys keeps the keys of an object distinct. -/
theorem distinctKeys_setField (m : JsonMap) (k : String) (v : Json)
    (hm : distinctKeys m = true) (hv : v.distinctKeys = true) :
    distinctKeys (setField m k v) = true := by
  induction m with
  | nil => simp [setField, distinctKeys, hv]
  | cons e rest ih =>
    obtain ⟨k0, v0⟩ := e
    simp only [distinctKeys, Bool.and_eq_true, Bool.not_eq_true', List.any_eq_false,
      decide_eq_true_eq] at hm
    by_cases h : k0 = k
    · subst h
      simp only [setField, if_true, distinctKeys, Bool.and_eq_true, Bool.not_eq_true',
        List.any_eq_false, decide_eq_true_eq]
      exact ⟨⟨hm.1.1, hv⟩, hm.2⟩
    · simp only [setField, h, if_false, distinctKeys, Bool.and_eq_true, Bool.not_eq_true',
        List.any_eq_false, decide_eq_true_eq]
      refine ⟨⟨?_, hm.1.2⟩, ih hm.2⟩
      intro e he hek
      rcases mem_setField rest k v e he with h1 | h1
      · exact h (hek ▸ h1)
      · exact hm.1.1 e h1 hek

/-! ### The client, called twice -/

/-- The JSON text of a slice of maps has no object at its top. -/
theorem distinctKeys_sliceJson (maps : List JsonMap) : (sliceJson maps).distinctKeys = true := by
  unfold sliceJson
  split <;> rfl

/-- The method `UpdateCandidate`, called twice with one candidate, leaves the
documents that one call leaves, when decoded maps have distinct keys. -/
theorem UpdateCandidate_twice {R : Type} (env : ESEnv R)
    (hkeys : ∀ data m, env.UnmarshalMap data = Except.ok m → distinctKeys m = true)
    (candidate : db.Candidate) (st : ESState R) :
    (UpdateCandidate env candidate (UpdateCandidate env candidate st).2).2.docs =
      (UpdateCandidate env candidate st).2.docs := by
  unfold UpdateCandidate
  cases hm : structToMap env candidate with
  | error err => simp [hm]
  | ok candidateMap =>
    cases ha : unmarshalTimeAvailabilityJSON env candidate.TimeAvailability with
    | error err => simp [hm, ha]
    | ok availabilities =>
      have hwf : distinctKeys candidateMap = true := by
        unfold structToMap at hm
        cases hj : env.MarshalCandidate candidate with
        | error err => simp [hj] at hm
        | ok data =>
          cases hu : env.UnmarshalMap data with
          | error err => simp [hj, hu] at hm
          | ok m =>
            simp only [hj, hu, Except.ok.injEq] at hm
            subst hm
            exact hkeys data m hu
      have hdoc := distinctKeys_setField candidateMap "time_availability"
        (sliceJson availabilities) hwf (distinctKeys_sliceJson availabilities)
      have key := esUpdateDoc_twice CandidateIdx (toString candidate.ID) _ hdoc st.docs
      have hsplit2 : ∀ (st1 : ESState R) (r : Option GoError × Documents),
          (match r with
            | (some err, docs) =>
              (some (errorfV "error updating candidate" err), ({ st1 with docs := docs } : ESState
                  R))
            | (none, docs) => (none, { st1 with docs := docs })).2.docs = r.2 := by
        intro st1 r
        rcases r with ⟨_ | err, docs⟩ <;> rfl
      simp only [hsplit2, key]

/-- The method `UpdatePastExperienceInCandidate` changes the documents as its
script-update does. -/
theorem UpdatePastExperienceInCandidate_docs {R : Type} (env : ESEnv R) (userUID : String)
    (pastExperience : es.PastExperience) (st : ESState R) :
    (UpdatePastExperienceInCandidate env userUID pastExperience st).2.docs =
      (esUpdateScript CandidateIdx userUID
        (updatePastExperienceScript (updatePastExperienceMap env pastExperience)) st.docs).2 := by
  unfold UpdatePastExperienceInCandidate
  simp only []
  split <;> rename_i heq <;> rw [heq]

/-- The method `UpdatePastExperienceInCandidate`, called twice with the same
arguments, leaves the documents that one call leaves. -/
theorem UpdatePastExperienceInCandidate_twice {R : Type} (env : ESEnv R) (userUID : String)
    (pastExperience : es.PastExperience) (st : ESState R) :
    (UpdatePastExperienceInCandidate env userUID pastExperience
        (UpdatePastExperienceInCandidate env userUID pastExperience st).2).2.docs =
      (UpdatePastExperienceInCandidate env userUID pastExperience st).2.docs := by
  rw [UpdatePastExperienceInCandidate_docs, UpdatePastExperienceInCandidate_docs]
  exact esUpdateScript_twice _ _ _ (updatePastExperienceScript_fixed _) st.docs

/-- The method `DeletePastExperienceFromCandidate` changes the documents as
its script-update does. -/
theorem DeletePastExperienceFromCandidate_docs {R : Type} (userUID : String)
    (pastExperienceID : String) (st : ESState R) :
    (DeletePastExperienceFromCandidate userUID pastExperienceID st).2.docs =
      (esUpdateScript CandidateIdx userUID
        (deletePastExperienceScript (Json.str pastExperienceID)) st.docs).2 := by
  unfold DeletePastExperienceFromCandidate
  split <;> rename_i heq <;> rw [heq]

/-- The method `DeletePastExperienceFromCandidate`, called twice with the same
arguments, leaves the documents that one call leaves. -/
theorem DeletePastExperienceFromCandidate_twice {R : Type} (userUID : String)
    (pastExperienceID : String) (st : ESState R) :
    (DeletePastExperienceFromCandidate userUID pastExperienceID
        (DeletePastExperienceFromCandidate userUID pastExperienceID st).2).2.docs =
      (DeletePastExperienceFromCandidate userUID pastExperienceID st).2.docs := by
  rw [DeletePastExperienceFromCandidate_docs, DeletePastExperienceFromCandidate_docs]
  exact esUpdateScript_twice _ _ _ (deletePastExperienceScript_fixed _) st.docs

/-- The method `IndexCandidate`, called twice with one candidate, leaves the
documents that one call leaves when it starts from the random generator as the
first call left it, that is, when it draws the second rating. -/
theorem IndexCandidate_twice {R : Type} (env : ESEnv R) (candidate : db.Candidate)
    (st : ESState R) :
    (IndexCandidate env candidate (IndexCandidate env candidate st).2).2.docs =
      (IndexCandidate env candidate
        { st with rng := (IndexCandidate env candidate st).2.rng }).2.docs := by
  unfold IndexCandidate
  cases hm : structToMap env candidate with
  | error err => simp [hm]
  | ok candidateMap =>
    cases ha : unmarshalTimeAvailabilityJSON env candidate.TimeAvailability with
    | error err => simp [hm, ha]
    | ok availabilities =>
      simp only [esIndex, putDocument_putDocument]

/-! ### Handlers that write to the document store, run twice -/

/-- An insertion adds one entry. -/
theorem length_insertByStartDate (x : String × Json) (l : List (String × Json)) :
    (insertByStartDate x l).length = l.length + 1 := by
  induction l with
  | nil => rfl
  | cons y ys ih =>
    simp only [insertByStartDate]
    split
    · rfl
    · simp [ih]

/-- The insertions of a sort keep the number of entries. -/
theorem length_foldl_insertByStartDate (keyed acc : List (String × Json)) :
    (keyed.foldl (fun acc x => insertByStartDate x acc) acc).length =
      acc.length + keyed.length := by
  induction keyed generalizing acc with
  | nil => simp
  | cons x rest ih =>
    simp only [List.foldl_cons, ih, length_insertByStartDate, List.length_cons]
    omega

/-- Pairing entries with their start dates keeps the number of entries. -/
theorem length_keyedByStartDate (items : List Json) (keyed : List (String × Json))
    (h : keyedByStartDate items = some keyed) : keyed.length = items.length := by
  induction items generalizing keyed with
  | nil =>
    simp [keyedByStartDate] at h
    subst h
    rfl
  | cons item rest ih =>
    simp only [keyedByStartDate] at h
    split at h
    · rename_i date keyed1 hd hk
      simp only [Option.some.injEq] at h
      subst h
      simp [ih keyed1 hk]
    · simp at h

/-- The sort of the add script keeps the number of entries. -/
theorem length_sortByStartDate (items sorted : List Json)
    (h : sortByStartDate items = some sorted) : sorted.length = items.length := by
  unfold sortByStartDate at h
  split at h
  · simp only [Option.some.injEq] at h
    rw [← h]
  · cases hk : keyedByStartDate items with
    | none => simp [hk] at h
    | some keyed =>
      simp only [hk, Option.some.injEq] at h
      subst h
      simp [length_foldl_insertByStartDate, length_keyedByStartDate items keyed hk]

/-- The add script, when it does not throw, leaves one entry more than it found. -/
theorem addPastExperienceScript_count (p source source1 : JsonMap)
    (h : addPastExperienceScript p source = Except.ok source1) :
    pastExperienceCount (some source1) = pastExperienceCount (some source) + 1 := by
  unfold addPastExperienceScript at h
  split at h
  · rename_i hnone
    simp only [Except.ok.injEq] at h
    subst h
    simp [pastExperienceCount, getField_setField_same, hnone]
  · rename_i hnull
    simp only [Except.ok.injEq] at h
    subst h
    simp [pastExperienceCount, getField_setField_same, hnull]
  · rename_i items hitems
    cases hs : sortByStartDate (items ++ [Json.obj p]) with
    | none => simp [hs] at h
    | some sorted =>
      simp only [hs, Except.ok.injEq] at h
      subst h
      simp [pastExperienceCount, getField_setField_same, hitems,
        length_sortByStartDate _ _ hs]
  · simp at h

/-- The method `AddPastExperienceToCandidate`, when it returns nil, leaves the
candidate's document with one entry more than it found. -/
theorem AddPastExperienceToCandidate_count {R : Type} (env : ESEnv R) (userUID : String)
    (pastExperience : es.PastExperience) (st : ESState R)
    (h : (AddPastExperienceToCandidate env userUID pastExperience st).1 = none) :
    pastExperienceCount
        ((AddPastExperienceToCandidate env userUID pastExperience st).2.docs
          CandidateIdx userUID) =
      pastExperienceCount (st.docs CandidateIdx userUID) + 1 := by
  unfold AddPastExperienceToCandidate esUpdateScript at h ⊢
  cases hd : st.docs CandidateIdx userUID with
  | none => simp [hd] at h
  | some source =>
    cases hs : addPastExperienceScript (addPastExperienceMap env pastExperience) source with
    | error err => simp [hd, hs] at h
    | ok source1 =>
      simp only [hd, hs, putDocument_get]
      exact addPastExperienceScript_count _ _ _ hs

/-- C6 as stated fails, at two inputs.  Add past experience: on a store holding
the document of candidate `u1` without past experience, one run of the handler
leaves one entry in `past_experience` and two runs leave two.  Index candidate:
one run stores the rating first drawn, two runs the rating drawn second.  So it
is not the case that, for every handler that writes to the document store, two
runs on the same task leave the documents that one run leaves. -/
theorem store_writing_handlers_are_not_all_idempotent :
    pastExperienceCount (docsAfter demoESProcessor ProcessFn.ProcessTaskAddPastExperience
      (NewTask TaskAddPastExperience demoBytes []) demoESWorld CandidateIdx "u1") = 1 ∧
    pastExperienceCount (docsAfterTwice demoESProcessor ProcessFn.ProcessTaskAddPastExperience
      (NewTask TaskAddPastExperience demoBytes []) demoESWorld CandidateIdx "u1") = 2 ∧
    ratingOf (docsAfter demoESProcessor ProcessFn.ProcessTaskCreateCandidate
      (NewTask TaskCreateCandidate demoBytes []) demoESWorld CandidateIdx "5") = some 0 ∧
    ratingOf (docsAfterTwice demoESProcessor ProcessFn.ProcessTaskCreateCandidate
      (NewTask TaskCreateCandidate demoBytes []) demoESWorld CandidateIdx "5") = some 1 ∧
    ¬ (∀ h ∈ storeWritingHandlers, ∀ (R : Type) (env : ESEnv R)
        (processor : RedisTaskProcessor (ESState R)), processor.esClient = ESClientImpl env →
        ∀ (task : Task) (w : HandlerWorld (ESState R)),
          docsAfterTwice processor h task w = docsAfter processor h task w) := by
  have h1 : pastExperienceCount (docsAfter demoESProcessor
      ProcessFn.ProcessTaskAddPastExperience (NewTask TaskAddPastExperience demoBytes [])
      demoESWorld CandidateIdx "u1") = 1 := by decide
  have h2 : pastExperienceCount (docsAfterTwice demoESProcessor
      ProcessFn.ProcessTaskAddPastExperience (NewTask TaskAddPastExperience demoBytes [])
      demoESWorld CandidateIdx "u1") = 2 := by decide
  refine ⟨h1, h2, by decide, by decide, ?_⟩
  intro hall
  have h := hall ProcessFn.ProcessTaskAddPastExperience (by decide) Nat demoESEnv
    demoESProcessor rfl (NewTask TaskAddPastExperience demoBytes []) demoESWorld
  rw [h, h1] at h2
  exact absurd h2 (by decide)

/-- C6 amended: with the client of `pkg/elasticsearch` behind the processor and
the store a map from index and id to document: two runs of the update-candidate
handler on one task leave the documents that one run leaves, given that decoded
JSON maps have distinct keys; so do two runs of the update-past-experience
handler and of the delete-past-experience handler; two runs of the
index-candidate handler leave the documents that one run leaves when it starts
from the random generator as the first run left it (the stored rating is the
one drawn last); and a run of the add-past-experience handler that returns nil
leaves the candidate's document with one entry more than before. -/
theorem store_writing_handlers_run_twice {R : Type} (env : ESEnv R)
    (processor : RedisTaskProcessor (ESState R)) (hes : processor.esClient = ESClientImpl env)
    (task : Task) (w : HandlerWorld (ESState R)) :
    ((∀ data m, env.UnmarshalMap data = Except.ok m → distinctKeys m = true) →
      docsAfterTwice processor ProcessFn.ProcessTaskUpdateCandidate task w =
        docsAfter processor ProcessFn.ProcessTaskUpdateCandidate task w) ∧
    docsAfterTwice processor ProcessFn.ProcessTaskUpdatePastExperience task w =
      docsAfter processor ProcessFn.ProcessTaskUpdatePastExperience task w ∧
    docsAfterTwice processor ProcessFn.ProcessTaskDeletePastExperience task w =
      docsAfter processor ProcessFn.ProcessTaskDeletePastExperience task w ∧
    docsAfterTwice processor ProcessFn.ProcessTaskCreateCandidate task w =
      docsAfter processor ProcessFn.ProcessTaskCreateCandidate task
        { w with ext := { w.ext with rng :=
          (runProcessFn processor ProcessFn.ProcessTaskCreateCandidate task w).2.ext.rng } } ∧
    (∀ v, jsonUnmarshal processor.json.pastExperience task.payload
        (JsonTarget.pointer default) = (none, v) →
      (runProcessFn processor ProcessFn.ProcessTaskAddPastExperience task w).1 = none →
      pastExperienceCount (docsAfter processor ProcessFn.ProcessTaskAddPastExperience task w
          CandidateIdx v.UserUID) =
        pastExperienceCount (w.ext.docs CandidateIdx v.UserUID) + 1) := by
  refine ⟨?_, ?_, ?_, ?_, ?_⟩
  · intro hkeys
    unfold docsAfterTwice docsAfter
    simp only [runProcessFn, ProcessTaskUpdateCandidate]
    rcases hj : jsonUnmarshal processor.json.candidate task.payload
      (JsonTarget.pointer default) with ⟨_ | err, v⟩
    · rw [processCandidateTask_decoded processor task w v _ _ hj,
        processCandidateTask_decoded processor task _ v _ _ hj]
      simp only [hes, ESClientImpl]
      exact UpdateCandidate_twice env hkeys _ _
    · simp [processCandidateTask, hj]
  · -- ProcessTaskUpdatePastExperience
    unfold docsAfterTwice docsAfter
    simp only [runProcessFn, ProcessTaskUpdatePastExperience]
    rcases hj : jsonUnmarshal processor.json.pastExperience task.payload
      (JsonTarget.pointer default) with ⟨_ | err, v⟩
    · rw [processPastExperienceTask_decoded processor task w v _ _ hj,
        processPastExperienceTask_decoded processor task _ v _ _ hj]
      simp only [hes, ESClientImpl]
      exact UpdatePastExperienceInCandidate_twice env _ _ _
    · simp [processPastExperienceTask, hj]
  · -- ProcessTaskDeletePastExperience
    unfold docsAfterTwice docsAfter
    simp only [runProcessFn, ProcessTaskDeletePastExperience]
    rcases hj : jsonUnmarshal processor.json.deletePastExperience task.payload
      (JsonTarget.pointer default) with ⟨_ | err, v⟩
    · rw [processDeletePastExperienceTask_decoded processor task w v _ _ hj,
        processDeletePastExperienceTask_decoded processor task _ v _ _ hj]
      simp only [hes, ESClientImpl]
      exact DeletePastExperienceFromCandidate_twice _ _ _
    · simp [processDeletePastExperienceTask, hj]
  · -- ProcessTaskCreateCandidate
    unfold docsAfterTwice docsAfter
    simp only [runProcessFn, ProcessTaskCreateCandidate]
    rcases hj : jsonUnmarshal processor.json.candidate task.payload
      (JsonTarget.pointer default) with ⟨_ | err, v⟩
    · rw [processCandidateTask_decoded processor task w v _ _ hj,
        processCandidateTask_decoded processor task _ v _ _ hj,
        processCandidateTask_decoded processor task _ v _ _ hj]
      simp only [hes, ESClientImpl]
      exact IndexCandidate_twice env _ _
    · simp [processCandidateTask, hj]
  · -- ProcessTaskAddPastExperience
    intro v hj hnil
    unfold docsAfter
    simp only [runProcessFn, ProcessTaskAddPastExperience] at hnil ⊢
    rw [processPastExperienceTask_decoded processor task w v _ _ hj] at hnil ⊢
    simp only [hes, ESClientImpl, Option.map_eq_none'] at hnil ⊢
    exact AddPastExperienceToCandidate_count env _ _ _ hnil

/-- The witness of amended C6, on the concrete processor over the client: the
update-candidate, update-past-experience and delete-past-experience handlers run
twice leave the documents of one run, and a run of the add-past-experience
handler raises the number of entries of candidate `u1` by one. -/
theorem store_writing_handlers_run_twice_witness :
    docsAfterTwice demoESProcessor ProcessFn.ProcessTaskUpdateCandidate
        (NewTask TaskUpdateCandidate demoBytes []) demoESWorld =
      docsAfter demoESProcessor ProcessFn.ProcessTaskUpdateCandidate
        (NewTask TaskUpdateCandidate demoBytes []) demoESWorld ∧
    docsAfterTwice demoESProcessor ProcessFn.ProcessTaskUpdatePastExperience
        (NewTask TaskUpdatePastExperience demoBytes []) demoESWorld =
      docsAfter demoESProcessor ProcessFn.ProcessTaskUpdatePastExperience
        (NewTask TaskUpdatePastExperience demoBytes []) demoESWorld ∧
    docsAfterTwice demoESProcessor ProcessFn.ProcessTaskDeletePastExperience
        (NewTask TaskDeletePastExperience demoBytes []) demoESWorld =
      docsAfter demoESProcessor ProcessFn.ProcessTaskDeletePastExperience
        (NewTask TaskDeletePastExperience demoBytes []) demoESWorld ∧
    pastExperienceCount (docsAfter demoESProcessor ProcessFn.ProcessTaskAddPastExperience
        (NewTask TaskAddPastExperience demoBytes []) demoESWorld
        CandidateIdx demoPastExperience.UserUID) =
      pastExperienceCount (demoESWorld.ext.docs CandidateIdx demoPastExperience.UserUID) + 1 :=
  ⟨(store_writing_handlers_run_twice demoESEnv demoESProcessor rfl
      (NewTask TaskUpdateCandidate demoBytes []) demoESWorld).1
      (fun _ m hm => by cases hm; rfl),
    (store_writing_handlers_run_twice demoESEnv demoESProcessor rfl
      (NewTask TaskUpdatePastExperience demoBytes []) demoESWorld).2.1,
    (store_writing_handlers_run_twice demoESEnv demoESProcessor rfl
      (NewTask TaskDeletePastExperience demoBytes []) demoESWorld).2.2.1,
    (store_writing_handlers_run_twice demoESEnv demoESProcessor rfl
      (NewTask TaskAddPastExperience demoBytes []) demoESWorld).2.2.2.2
      demoPastExperience rfl rfl⟩

/-! ## Request validation -/

/-- C18 (counterexample): with only the candidate id provided (5, 0), with only
the employer id provided (0, 7), and with the ids 0 and -1 of the test case
`InvalidIDs`, at least one id is non-zero and still `validateIDs` returns the
error "either candidate_id or employer_id must be provided". -/
theorem validateIDs_rejects_a_single_provided_id :
    (((5 : Int) ≠ 0 ∨ (0 : Int) ≠ 0) ∧ validateIDs 5 0 =
      some (GoError.errorsNew "either candidate_id or employer_id must be provided")) ∧
    (((0 : Int) ≠ 0 ∨ (7 : Int) ≠ 0) ∧ validateIDs 0 7 =
      some (GoError.errorsNew "either candidate_id or employer_id must be provided")) ∧
    (((0 : Int) ≠ 0 ∨ (-1 : Int) ≠ 0) ∧ validateIDs 0 (-1) =
      some (GoError.errorsNew "either candidate_id or employer_id must be provided")) := by
  decide

/-- C18 (amended): `validateIDs` returns nil exactly when both ids are provided
(non-zero), and returns the error "either candidate_id or employer_id must be
provided" exactly when at least one of them is zero. -/
theorem validateIDs_nil_iff_both_ids_provided (candidateID employerID : Int) :
    (validateIDs candidateID employerID = none ↔ candidateID ≠ 0 ∧ employerID ≠ 0) ∧
    (validateIDs candidateID employerID =
        some (GoError.errorsNew "either candidate_id or employer_id must be provided") ↔
      candidateID = 0 ∨ employerID = 0) := by
  unfold validateIDs
  split <;> simp_all
  tauto

/-! ## The callback arguments of `DeletePastExperienceTx` -/

/-- C19: when the deletion succeeds, `DeletePastExperienceTx` (run by an
executor that commits exactly on nil) hands the callback the `ID` of the delete
parameters for its parameter `candidateID` and their `CandidateID` for its
parameter `pastExperienceID`. -/
theorem delete_past_experience_callback_arguments_are_swapped {M : Models} {σ : Type}
    (exec : Executor σ (List (String × Int))) (hexec : CommitsExactlyOnNil exec)
    (q : Queries M σ) (params : DeletePastExperienceParams)
    (w : TxWorld σ (List (String × Int)))
    (hq : (q.DeletePastExperience params w.db).1 = none) :
    (DeletePastExperienceTx exec q
        { DeletePastExperienceParams := params, AfterDelete := recordDeleteArguments } w).2.ext =
      w.ext ++ [("candidateID", params.ID), ("pastExperienceID", params.CandidateID)] := by
  simp only [DeletePastExperienceTx, hexec _ _ w, DeletePastExperienceTxFn, callExec,
    callCallback, recordDeleteArguments]
  rcases hd : q.DeletePastExperience params w.db with ⟨_ | err, db1⟩
  · simp
  · rw [hd] at hq
    cases hq

/-- The witness of C19: deleting the past experience 7 of candidate 9 makes the
callback receive 7 as `candidateID` and 9 as `pastExperienceID`. -/
theorem delete_past_experience_callback_arguments_are_swapped_witness :
    (demoQueries.DeletePastExperience { ID := 7, CandidateID := 9 } demoDeleteWorld.db).1 = none ∧
    (DeletePastExperienceTx execTx demoQueries
        { DeletePastExperienceParams := { ID := 7, CandidateID := 9 },
          AfterDelete := recordDeleteArguments } demoDeleteWorld).2.ext =
      [("candidateID", 7), ("pastExperienceID", 9)] :=
  ⟨rfl, delete_past_experience_callback_arguments_are_swapped execTx execTx_commitsExactlyOnNil
    demoQueries { ID := 7, CandidateID := 9 } demoDeleteWorld rfl⟩

/-! ## Queue configuration -/

/-- C12: the queue configuration of the processor holds exactly the queue
"critical" with weight 10 and the queue "default" with weight 5, so the weight
of the critical queue is twice the weight of the default queue. -/
theorem processor_queues_are_critical_ten_and_default_five :
    (∀ (queue : String) (weight : Int),
      (queue, weight) ∈ NewRedisTaskProcessorConfig.Queues ↔
        (queue = "critical" ∧ weight = 10) ∨ (queue = "default" ∧ weight = 5)) ∧
    NewRedisTaskProcessorConfig.Queues.length = 2 ∧
    NewRedisTaskProcessorConfig.weight QueueCritical = some 10 ∧
    NewRedisTaskProcessorConfig.weight QueueDefault = some 5 ∧
    (∀ critical default : Int,
      NewRedisTaskProcessorConfig.weight QueueCritical = some critical →
      NewRedisTaskProcessorConfig.weight QueueDefault = some default →
      critical = 2 * default) := by
  refine ⟨?_, rfl, by decide, by decide, ?_⟩
  · intro queue weight
    simp [NewRedisTaskProcessorConfig, QueueCritical, QueueDefault]
  · intro critical default hc hd
    have h1 : NewRedisTaskProcessorConfig.weight QueueCritical = some 10 := by decide
    have h2 : NewRedisTaskProcessorConfig.weight QueueDefault = some 5 := by decide
    rw [h1] at hc
    rw [h2] at hd
    cases hc
    cases hd
    rfl

/-! ## Rate limiter -/

/-- A difference within the range of a duration is kept as it is. -/
theorem saturate_of_inRange (d : Int) (h1 : minDuration ≤ d) (h2 : d ≤ maxDuration) :
    saturate d = d := by
  unfold saturate
  rw [if_neg (not_lt.mpr h1), if_neg (not_lt.mpr h2)]

/-- For a limit above the least duration and at most the greatest, a duration
reaches the limit exactly when the elapsed time it stands for does. -/
theorem le_saturate_iff (limit d : Int) (h1 : minDuration < limit) (h2 : limit ≤ maxDuration) :
    limit ≤ saturate d ↔ limit ≤ d := by
  unfold saturate
  split
  · constructor <;> intro h <;> omega
  · split
    · constructor <;> intro h <;> omega
    · rfl

/-- What `CanSend` returns, by the entry of the map for the user. -/
theorem CanSend_eq (r : RateLimiter) (uid : String) (limit : Int) (t : Instant) :
    r.CanSend uid limit t =
      match r.entry uid with
      | none => true
      | some lastSent => decide (limit ≤ t.Sub lastSent) := by
  unfold RateLimiter.CanSend RateLimiter.GetLastSent
  cases r.entry uid <;> simp

/-- C15: for every rate limiter (also one whose map is nil), user id, limit
and time, `CanSend` is true exactly when the map has no entry for the user or
the recorded time subtracted from the given time (`Time.Sub`) is at least the
limit.  `Time.Sub` is the elapsed time as a duration; for a limit above the
least duration and at most the greatest, comparing the duration and comparing
the elapsed time itself agree. -/
theorem can_send_iff_unrecorded_or_limit_elapsed (r : RateLimiter) (uid : String)
    (limit : Int) (t : Instant) :
    (r.CanSend uid limit t = true ↔
      r.entry uid = none ∨ ∃ lastSent, r.entry uid = some lastSent ∧ limit ≤ t.Sub lastSent) ∧
    (minDuration < limit → limit ≤ maxDuration →
      (r.CanSend uid limit t = true ↔
        r.entry uid = none ∨
          ∃ lastSent, r.entry uid = some lastSent ∧ limit ≤ t.elapsed lastSent)) := by
  rw [CanSend_eq]
  refine ⟨?_, ?_⟩
  · cases r.entry uid <;> simp
  · intro h1 h2
    cases r.entry uid
    · simp
    · simp [Instant.Sub, le_saturate_iff _ _ h1 h2]

/-- The witness of C15: with the last email of `user123` recorded at a clock
reading, and a limit of one minute, `CanSend` is false thirty seconds later and
true sixty-one seconds later, and it is true for a user without an entry. -/
theorem can_send_iff_unrecorded_or_limit_elapsed_witness :
    (NewRateLimiter.SetLastSent "user123" demoNow).map
        (fun r => (r.CanSend "user123" Minute (demoAdd demoNow (30 * Second)),
          r.CanSend "user123" Minute (demoAdd demoNow (61 * Second)),
          r.CanSend "user456" Minute demoNow)) = some (false, true, true) ∧
    (NewRateLimiter.CanSend "user123" Minute demoNow = true ↔
      NewRateLimiter.entry "user123" = none ∨
        ∃ lastSent, NewRateLimiter.entry "user123" = some lastSent ∧
          Minute ≤ demoNow.elapsed lastSent) :=
  ⟨by decide,
    (can_send_iff_unrecorded_or_limit_elapsed NewRateLimiter "user123" Minute demoNow).2
      (by decide) (by decide)⟩

/-- C16, the claim as stated fails: on the zero value of `RateLimiter`, whose
map is nil, `SetLastSent` panics, so no limiter results on which `GetLastSent`
could return the timestamp. -/
theorem set_last_sent_panics_on_nil_map :
    zeroRateLimiter.SetLastSent "user123" demoNow = none ∧
    ¬ ∃ r : RateLimiter, zeroRateLimiter.SetLastSent "user123" demoNow = some r ∧
      r.GetLastSent "user123" = (demoNow, true) := by
  refine ⟨rfl, ?_⟩
  rintro ⟨r, h, _⟩
  cases h

/-- C16, amended: for every rate limiter whose map is not nil, user id and
timestamp, `SetLastSent` returns, the map is still not nil, `GetLastSent` for
that user then returns the timestamp and `true`, and the result for every other
user is unchanged; the limiter returned by `NewRateLimiter` has a map that is
not nil, and `GetLastSent` reports "not found" on it for every user id. -/
theorem get_last_sent_after_set_last_sent (r : RateLimiter) (uid : String) (ts : Instant)
    (hr : r.lastSent ≠ none) :
    (∃ r1 : RateLimiter, r.SetLastSent uid ts = some r1 ∧ r1.lastSent ≠ none ∧
      r1.GetLastSent uid = (ts, true) ∧
      ∀ other : String, other ≠ uid → r1.GetLastSent other = r.GetLastSent other) ∧
    NewRateLimiter.lastSent ≠ none ∧
    ∀ user : String, NewRateLimiter.GetLastSent user = (Instant.zero, false) := by
  refine ⟨?_, by simp [NewRateLimiter], fun user => rfl⟩
  rcases r with ⟨_ | m⟩
  · exact absurd rfl hr
  · refine ⟨_, rfl, by simp, ?_, ?_⟩
    · simp [RateLimiter.GetLastSent, RateLimiter.entry]
    · intro other hne
      simp [RateLimiter.GetLastSent, RateLimiter.entry, hne]

/-- The witness of C16: on a new limiter, after the last email of `user123`
is recorded, `GetLastSent` returns that time for `user123`. -/
theorem get_last_sent_after_set_last_sent_witness :
    NewRateLimiter.lastSent ≠ none ∧
    (NewRateLimiter.SetLastSent "user123" demoNow).map
      (fun r => (r.GetLastSent "user123", r.GetLastSent "user456")) =
        some ((demoNow, true), (Instant.zero, false)) ∧
    ∃ r1 : RateLimiter, NewRateLimiter.SetLastSent "user123" demoNow = some r1 ∧
      r1.GetLastSent "user123" = (demoNow, true) :=
  ⟨by simp [NewRateLimiter], by decide,
    match (get_last_sent_after_set_last_sent NewRateLimiter "user123" demoNow
      (by simp [NewRateLimiter])).1 with
    | ⟨r1, h1, _, h2, _⟩ => ⟨r1, h1, h2⟩⟩

/-! ## Status transactions -/

/-- C20: when the status update succeeds, `UpdateCandidateApplicationStatusTx`
(run by an executor that commits exactly on nil, with the accepted and rejected
constants distinct) with status accepted (resp. rejected) makes the status
update followed by exactly one invocation of `AfterUpdate`, on the candidate id
of the request, the job id made of the decimal candidate id, an underscore and
the decimal employer id, and the swipe accept (resp. reject), and returns the
callback's result; `UpdateEmployerApplicationStatusTx` does the same with the
employer id, the candidate id and the same swipe. -/
theorem status_transactions_invoke_after_update_with_swipe {σ ω : Type}
    (exec : Executor σ ω) (hexec : CommitsExactlyOnNil exec) (k : StatusConstants)
    (hk : k.ApplicationStatusAccepted ≠ k.ApplicationStatusRejected)
    (q : StatusQueries σ) (w : TxWorld σ ω) :
    (∀ arg : UpdateCandidateApplicationStatusTxParams ω,
      (q.UpdateCandidateApplicationStatus arg.UpdateCandidateApplicationStatusParams w.db).1 =
        none →
      (arg.UpdateCandidateApplicationStatusParams.ApplicationStatus =
          k.ApplicationStatusAccepted →
        CallbackOnceAfterMutation w "UpdateCandidateApplicationStatus" "AfterUpdate"
          (arg.AfterUpdate
            { CandidateID := arg.UpdateCandidateApplicationStatusParams.CandidateID,
              JobID := toString arg.UpdateCandidateApplicationStatusParams.CandidateID ++ "_" ++
                toString arg.UpdateCandidateApplicationStatusParams.EmployerID,
              Swipe := k.SwipeAccept })
          (UpdateCandidateApplicationStatusTx exec k q arg w)) ∧
      (arg.UpdateCandidateApplicationStatusParams.ApplicationStatus =
          k.ApplicationStatusRejected →
        CallbackOnceAfterMutation w "UpdateCandidateApplicationStatus" "AfterUpdate"
          (arg.AfterUpdate
            { CandidateID := arg.UpdateCandidateApplicationStatusParams.CandidateID,
              JobID := toString arg.UpdateCandidateApplicationStatusParams.CandidateID ++ "_" ++
                toString arg.UpdateCandidateApplicationStatusParams.EmployerID,
              Swipe := k.SwipeReject })
          (UpdateCandidateApplicationStatusTx exec k q arg w))) ∧
    (∀ arg : UpdateEmployerApplicationStatusTxParams ω,
      (q.UpdateEmployerApplicationStatus arg.UpdateEmployerApplicationStatusParams w.db).1 =
        none →
      (arg.UpdateEmployerApplicationStatusParams.ApplicationStatus =
          k.ApplicationStatusAccepted →
        CallbackOnceAfterMutation w "UpdateEmployerApplicationStatus" "AfterUpdate"
          (arg.AfterUpdate
            { EmployerID := arg.UpdateEmployerApplicationStatusParams.EmployerID,
              CandidateID := arg.UpdateEmployerApplicationStatusParams.CandidateID,
              Swipe := k.SwipeAccept })
          (UpdateEmployerApplicationStatusTx exec k q arg w)) ∧
      (arg.UpdateEmployerApplicationStatusParams.ApplicationStatus =
          k.ApplicationStatusRejected →
        CallbackOnceAfterMutation w "UpdateEmployerApplicationStatus" "AfterUpdate"
          (arg.AfterUpdate
            { EmployerID := arg.UpdateEmployerApplicationStatusParams.EmployerID,
              CandidateID := arg.UpdateEmployerApplicationStatusParams.CandidateID,
              Swipe := k.SwipeReject })
          (UpdateEmployerApplicationStatusTx exec k q arg w))) := by
  refine ⟨?_, ?_⟩
  · intro arg hq
    simp only [UpdateCandidateApplicationStatusTx, CallbackOnceAfterMutation, hexec _ _ w,
      UpdateCandidateApplicationStatusTxFn, callExec, callCallback, sprintfIDs]
    rcases hd : q.UpdateCandidateApplicationStatus arg.UpdateCandidateApplicationStatusParams
      w.db with ⟨_ | err, db1⟩
    · refine ⟨fun hs => ?_, fun hs => ?_⟩
      · simp only [getSwipe, hs, if_true]
        simp
        split <;> simp
      · simp only [getSwipe, hs, if_neg (Ne.symm hk), if_true]
        simp
        split <;> simp
    · rw [hd] at hq
      cases hq
  · intro arg hq
    simp only [UpdateEmployerApplicationStatusTx, CallbackOnceAfterMutation, hexec _ _ w,
      UpdateEmployerApplicationStatusTxFn, callExec, callCallback]
    rcases hd : q.UpdateEmployerApplicationStatus arg.UpdateEmployerApplicationStatusParams
      w.db with ⟨_ | err, db1⟩
    · refine ⟨fun hs => ?_, fun hs => ?_⟩
      · simp only [getSwipe, hs, if_true]
        simp
        split <;> simp
      · simp only [getSwipe, hs, if_neg (Ne.symm hk), if_true]
        simp
        split <;> simp
    · rw [hd] at hq
      cases hq

/-- The witness of C20: accepting the application of candidate 5 to employer 7
stores the candidate swipe (5, "5_7", accept) and returns nil; rejecting it on
the employer side stores the employer swipe (7, 5, reject). -/
theorem status_transactions_invoke_after_update_with_swipe_witness :
    (UpdateCandidateApplicationStatusTx execTx demoStatusConstants demoStatusQueries
        { UpdateCandidateApplicationStatusParams :=
            { CandidateID := 5, EmployerID := 7, ApplicationStatus := "accepted" },
          AfterUpdate := storeSwipe } (demoStatusWorld CreateCandidateSwipeParams)).2.ext =
        [{ CandidateID := 5, JobID := "5_7", Swipe := "accept" }] ∧
    CallbackOnceAfterMutation (demoStatusWorld CreateCandidateSwipeParams)
      "UpdateCandidateApplicationStatus" "AfterUpdate"
      (storeSwipe { CandidateID := 5, JobID := toString (5 : Int) ++ "_" ++ toString (7 : Int),
                    Swipe := "accept" })
      (UpdateCandidateApplicationStatusTx execTx demoStatusConstants demoStatusQueries
        { UpdateCandidateApplicationStatusParams :=
            { CandidateID := 5, EmployerID := 7, ApplicationStatus := "accepted" },
          AfterUpdate := storeSwipe } (demoStatusWorld CreateCandidateSwipeParams)) ∧
    CallbackOnceAfterMutation (demoStatusWorld CreateEmployerSwipesParams)
      "UpdateEmployerApplicationStatus" "AfterUpdate"
      (storeSwipe { EmployerID := 7, CandidateID := 5, Swipe := "reject" })
      (UpdateEmployerApplicationStatusTx execTx demoStatusConstants demoStatusQueries
        { UpdateEmployerApplicationStatusParams :=
            { CandidateID := 5, EmployerID := 7, ApplicationStatus := "rejected" },
          AfterUpdate := storeSwipe } (demoStatusWorld CreateEmployerSwipesParams)) :=
  ⟨by decide,
    ((status_transactions_invoke_after_update_with_swipe execTx execTx_commitsExactlyOnNil
      demoStatusConstants (by decide) demoStatusQueries
      (demoStatusWorld CreateCandidateSwipeParams)).1
      { UpdateCandidateApplicationStatusParams :=
          { CandidateID := 5, EmployerID := 7, ApplicationStatus := "accepted" },
        AfterUpdate := storeSwipe } rfl).1 rfl,
    ((status_transactions_invoke_after_update_with_swipe execTx execTx_commitsExactlyOnNil
      demoStatusConstants (by decide) demoStatusQueries
      (demoStatusWorld CreateEmployerSwipesParams)).2
      { UpdateEmployerApplicationStatusParams :=
          { CandidateID := 5, EmployerID := 7, ApplicationStatus := "rejected" },
        AfterUpdate := storeSwipe } rfl).2 rfl⟩

/-! ## Enqueue callbacks and options of the API handlers -/

/-- C14: for every document id and application document, the callback that
`createApplication` builds for a candidate application makes one call, to
`DistributeTaskCreateCandidateApplication` with the payload holding that id and
document, and returns its result; the callbacks that `deleteApplication` builds
make one call, to the candidate (resp. employer) delete distributor with the
payload holding the id, and return its result. -/
theorem application_callbacks_call_their_distributor_once {W : Type}
    (server : ApplicationServer W) (d : String) (doc : JsonMap) (w : W) :
    afterCandidateCreateApp server d doc w =
      server.taskDistributor.DistributeTaskCreateCandidateApplication
        (some { DocID := d, AppDoc := doc }) enqueueCreateAppTaskOpts w ∧
    afterCandidateDeleteApp server d w =
      server.taskDistributor.DistributeTaskDeleteCandidateApplication
        (some { DocID := d }) enqueueDeleteAppTaskOpts w ∧
    afterEmployerDeleteApp server d w =
      server.taskDistributor.DistributeTaskDeleteEmployerApplication
        (some { DocID := d }) enqueueDeleteAppTaskOpts w := by
  refine ⟨?_, ?_, ?_⟩
  · simp [afterCandidateCreateApp, enqueueCreateAppTask]
  · simp [afterCandidateDeleteApp, enqueueDeleteAppTask]
  · have hne : ¬ TaskDeleteEmployerApp = TaskDeleteCandidateApp := by decide
    simp [afterEmployerDeleteApp, enqueueDeleteAppTask, hne]

/-- C13: at every enqueue call site of the API handlers the options are a
retry budget of 5 or 10, a delay between 2 and 10 seconds inclusive, and a
queue named "critical" or "default", which the processor's configuration
serves. -/
theorem enqueue_call_sites_use_bounded_options (site : String) (opts : List AsynqOption)
    (hsite : (site, opts) ∈ enqueueCallSites) :
    ∃ (n d : Int) (queue : String),
      opts = [AsynqOption.MaxRetry n, AsynqOption.ProcessIn d, AsynqOption.Queue queue] ∧
      (n = 5 ∨ n = 10) ∧ 2 * Second ≤ d ∧ d ≤ 10 * Second ∧
      (queue = "critical" ∨ queue = "default") ∧
      (NewRedisTaskProcessorConfig.weight queue).isSome = true := by
  simp only [enqueueCallSites, List.mem_cons, Prod.mk.injEq, List.mem_nil_iff, or_false] at hsite
  rcases hsite with ⟨_, rfl⟩ | ⟨_, rfl⟩ | ⟨_, rfl⟩ | ⟨_, rfl⟩ | ⟨_, rfl⟩ | ⟨_, rfl⟩ | ⟨_, rfl⟩
  · exact ⟨10, 10 * Second, QueueCritical, rfl, by decide, by decide, by decide, by decide,
      by decide⟩
  · exact ⟨10, 10 * Second, QueueCritical, rfl, by decide, by decide, by decide, by decide,
      by decide⟩
  · exact ⟨5, 5 * Second, QueueDefault, rfl, by decide, by decide, by decide, by decide,
      by decide⟩
  · exact ⟨5, 5 * Second, QueueDefault, rfl, by decide, by decide, by decide, by decide,
      by decide⟩
  · exact ⟨5, 2 * Second, QueueCritical, rfl, by decide, by decide, by decide, by decide,
      by decide⟩
  · exact ⟨10, 10 * Second, QueueCritical, rfl, by decide, by decide, by decide, by decide,
      by decide⟩
  · exact ⟨10, 10 * Second, QueueCritical, rfl, by decide, by decide, by decide, by decide,
      by decide⟩

/-- The witness of C13: the call site in `deletePastExperience`, which has the
smallest retry budget and the shortest delay. -/
theorem enqueue_call_sites_use_bounded_options_witness :
    ("deletePastExperience", deletePastExperienceOpts) ∈ enqueueCallSites ∧
    ∃ (n d : Int) (queue : String),
      deletePastExperienceOpts =
        [AsynqOption.MaxRetry n, AsynqOption.ProcessIn d, AsynqOption.Queue queue] ∧
      (n = 5 ∨ n = 10) ∧ 2 * Second ≤ d ∧ d ≤ 10 * Second ∧
      (queue = "critical" ∨ queue = "default") ∧
      (NewRedisTaskProcessorConfig.weight queue).isSome = true :=
  ⟨by decide,
    enqueue_call_sites_use_bounded_options "deletePastExperience" deletePastExperienceOpts
      (by decide)⟩

/-! ## Firebase authorization middleware -/

/-- C17: the middleware hands the request to the next handler, with the
token's claims stored as the authorization payload, when the `Authorization`
header is non-empty, the token verifies and the `role` claim is a string equal
to the required role; in every other case it runs no next handler, aborts and
leaves the authorization payload as it was: with status 401 when the header is
empty or the token does not verify, with status 403 when the role claim is
missing, not a string or different from the required role. -/
theorem auth_middleware_passes_only_the_required_role (client : AuthClientFirebase)
    (requiredRole : String) (next : MiddlewareContext → MiddlewareContext)
    (ctx : MiddlewareContext) :
    (∀ token : Token, ctx.GetHeader "Authorization" ≠ "" →
      client.VerifyIDToken ( TrimPrefix (ctx.GetHeader "Authorization") "Bearer ") =
        Except.ok token →
      getField token.Claims "role" = some (Json.str requiredRole) →
      AuthMiddleware client requiredRole next ctx =
        next { ctx with authorizationPayload := some (ContextValue.claims token.Claims) }) ∧
    (ctx.GetHeader "Authorization" = "" →
      AuthMiddleware client requiredRole next ctx =
        { ctx with
          response := some { status := 401,
                             body := [("error", Json.str "Authorization header missing")] },
          aborted := true }) ∧
    (∀ err : GoError, ctx.GetHeader "Authorization" ≠ "" →
      client.VerifyIDToken ( TrimPrefix (ctx.GetHeader "Authorization") "Bearer ") =
        Except.error err →
      AuthMiddleware client requiredRole next ctx =
        { ctx with
          response := some { status := 401, body := [("error", Json.str "Invalid ID token")] },
          aborted := true }) ∧
    (∀ token : Token, ctx.GetHeader "Authorization" ≠ "" →
      client.VerifyIDToken ( TrimPrefix (ctx.GetHeader "Authorization") "Bearer ") =
        Except.ok token →
      getField token.Claims "role" ≠ some (Json.str requiredRole) →
      AuthMiddleware client requiredRole next ctx =
        { ctx with
          response := some { status := 403, body := [("error", Json.str "Forbidden")] },
          aborted := true }) := by
  refine ⟨?_, ?_, ?_, ?_⟩
  · intro token hh hv hr
    simp [AuthMiddleware, AuthorizationHeaderKey, hh, hv, hr]
  · intro hh
    simp [AuthMiddleware, AuthorizationHeaderKey, hh, abortWithError, StatusUnauthorized]
  · intro err hh hv
    simp [AuthMiddleware, AuthorizationHeaderKey, hh, hv, abortWithError, StatusUnauthorized]
  · intro token hh hv hr
    simp only [AuthMiddleware, AuthorizationHeaderKey, hh, hv, if_false]
    rcases hf : getField token.Claims "role" with _ | v
    · simp [abortWithError, StatusForbidden]
    · cases v <;> simp [abortWithError, StatusForbidden]
      rename_i role
      intro hrole
      rw [hf, hrole] at hr
      exact absurd rfl hr

/-- The witness of C17: with the role `candidate` required, the token of a
candidate reaches the handler with its claims stored; an empty header and an
invalid token are answered 401, the token of an employer and a token whose role
claim is not a string are answered 403, and none of them reaches the handler. -/
theorem auth_middleware_passes_only_the_required_role_witness :
    AuthMiddleware demoAuthClient "candidate" demoHandler (demoRequest "Bearer good-candidate") =
      demoHandler { demoRequest "Bearer good-candidate" with
        authorizationPayload :=
          some (ContextValue.claims [("uid", Json.str "u1"), ("role", Json.str "candidate")]) } ∧
    AuthMiddleware demoAuthClient "candidate" demoHandler (demoRequest "") =
      { demoRequest "" with
        response := some { status := 401,
                           body := [("error", Json.str "Authorization header missing")] },
        aborted := true } ∧
    AuthMiddleware demoAuthClient "candidate" demoHandler (demoRequest "Bearer forged") =
      { demoRequest "Bearer forged" with
        response := some { status := 401, body := [("error", Json.str "Invalid ID token")] },
        aborted := true } ∧
    AuthMiddleware demoAuthClient "candidate" demoHandler (demoRequest "Bearer good-employer") =
      { demoRequest "Bearer good-employer" with
        response := some { status := 403, body := [("error", Json.str "Forbidden")] },
        aborted := true } ∧
    AuthMiddleware demoAuthClient "candidate" demoHandler (demoRequest "Bearer no-role") =
      { demoRequest "Bearer no-role" with
        response := some { status := 403, body := [("error", Json.str "Forbidden")] },
        aborted := true } :=
  ⟨(auth_middleware_passes_only_the_required_role demoAuthClient "candidate" demoHandler
      (demoRequest "Bearer good-candidate")).1
      { UID := "u1", Claims := [("uid", Json.str "u1"), ("role", Json.str "candidate")] }
      (by decide) rfl rfl,
    (auth_middleware_passes_only_the_required_role demoAuthClient "candidate" demoHandler
      (demoRequest "")).2.1 rfl,
    (auth_middleware_passes_only_the_required_role demoAuthClient "candidate" demoHandler
      (demoRequest "Bearer forged")).2.2.1 (GoError.errorsNew "ID token is invalid")
      (by decide) rfl,
    (auth_middleware_passes_only_the_required_role demoAuthClient "candidate" demoHandler
      (demoRequest "Bearer good-employer")).2.2.2
      { UID := "u2", Claims := [("uid", Json.str "u2"), ("role", Json.str "employer")] }
      (by decide) rfl
      (by
        intro h
        have h2 : some (Json.str "employer") = some (Json.str "candidate") := h
        simp at h2),
    (auth_middleware_passes_only_the_required_role demoAuthClient "candidate" demoHandler
      (demoRequest "Bearer no-role")).2.2.2
      { UID := "u3", Claims := [("uid", Json.str "u3"), ("role", Json.num 1)] }
      (by decide) rfl
      (by
        intro h
        have h2 : some (Json.num 1) = some (Json.str "candidate") := h
        simp at h2)⟩

/-! ## Retries of a failed task -/

/-- A pass over a pending or retrying task whose handler fails with a retryable
error: the handler is invoked once; the task is archived when the budget is
used up, and otherwise one more failed attempt is counted and a retry is due. -/
theorem processTask_of_failure {H : Type} (handler : H → Option GoError × H)
    (p : Processing H) (e : GoError)
    (hs : p.msg.state = TaskState.pending ∨ p.msg.state = TaskState.retry)
    (he : (handler p.world).1 = some e) (hr : e.errorsIs GoError.skipRetry = false) :
    processTask NewRedisTaskProcessorConfig handler p =
      { msg :=
          if p.msg.Retried ≥ p.msg.Retry then { p.msg with state := TaskState.archived }
          else { p.msg with Retried := p.msg.Retried + 1, state := TaskState.retry },
        invocations := p.invocations + 1, world := (handler p.world).2 } := by
  rcases hh : handler p.world with ⟨_ | err, w1⟩
  · rw [hh] at he
    cases he
  · rw [hh] at he
    cases he
    rcases hs with hs | hs <;>
      simp [processTask, hs, hh, handleFailedMessage, AsynqConfig.isFailure,
        NewRedisTaskProcessorConfig, hr]

/-- A pass over an archived task changes nothing. -/
theorem processTask_of_archived {H : Type} (config : AsynqConfig)
    (handler : H → Option GoError × H) (p : Processing H)
    (hs : p.msg.state = TaskState.archived) : processTask config handler p = p := by
  simp [processTask, hs]

/-- While the budget lasts, after `k` passes the handler has been invoked `k`
times, `k` failed attempts are counted and, from the first pass on, a retry is
due. -/
theorem processTask_iterate_within_budget {H : Type} (handler : H → Option GoError × H)
    (hfail : ∀ w : H, ∃ e : GoError, (handler w).1 = some e ∧
      e.errorsIs GoError.skipRetry = false)
    (opts : List AsynqOption) (w0 : H) (k : Nat) (hk : k ≤ composeRetry opts) :
    ((processTask NewRedisTaskProcessorConfig handler)^[k] (enqueued opts w0)).msg.Retry =
        composeRetry opts ∧
    ((processTask NewRedisTaskProcessorConfig handler)^[k] (enqueued opts w0)).msg.Retried = k ∧
    ((processTask NewRedisTaskProcessorConfig handler)^[k] (enqueued opts w0)).invocations = k ∧
    ((processTask NewRedisTaskProcessorConfig handler)^[k] (enqueued opts w0)).msg.state =
      (if k = 0 then TaskState.pending else TaskState.retry) := by
  induction k with
  | zero => simp [enqueued, enqueueMessage]
  | succ k ih =>
    obtain ⟨h1, h2, h3, h4⟩ := ih (by omega)
    obtain ⟨e, he, hr⟩ :=
      hfail ((processTask NewRedisTaskProcessorConfig handler)^[k] (enqueued opts w0)).world
    have hs : ((processTask NewRedisTaskProcessorConfig handler)^[k] (enqueued opts w0)).msg.state
        = TaskState.pending ∨
        ((processTask NewRedisTaskProcessorConfig handler)^[k] (enqueued opts w0)).msg.state
        = TaskState.retry := by
      rw [h4]
      split <;> simp
    rw [Function.iterate_succ_apply', processTask_of_failure handler _ e hs he hr]
    have hlt : ¬ ((processTask NewRedisTaskProcessorConfig handler)^[k]
        (enqueued opts w0)).msg.Retried ≥
        ((processTask NewRedisTaskProcessorConfig handler)^[k] (enqueued opts w0)).msg.Retry := by
      rw [h1, h2]
      omega
    simp only [if_neg hlt]
    exact ⟨h1, by rw [h2], by rw [h3], by simp⟩

/-- From the pass that uses up the budget on, the task is archived and the
number of invocations is the budget plus one. -/
theorem processTask_iterate_budget_used {H : Type} (handler : H → Option GoError × H)
    (hfail : ∀ w : H, ∃ e : GoError, (handler w).1 = some e ∧
      e.errorsIs GoError.skipRetry = false)
    (opts : List AsynqOption) (w0 : H) (j : Nat) :
    ((processTask NewRedisTaskProcessorConfig handler)^[composeRetry opts + 1 + j]
        (enqueued opts w0)).msg.state = TaskState.archived ∧
    ((processTask NewRedisTaskProcessorConfig handler)^[composeRetry opts + 1 + j]
        (enqueued opts w0)).invocations = composeRetry opts + 1 := by
  induction j with
  | zero =>
    obtain ⟨h1, h2, h3, h4⟩ :=
      processTask_iterate_within_budget handler hfail opts w0 (composeRetry opts) le_rfl
    obtain ⟨e, he, hr⟩ := hfail ((processTask NewRedisTaskProcessorConfig handler)^[
      composeRetry opts] (enqueued opts w0)).world
    have hs : ((processTask NewRedisTaskProcessorConfig handler)^[composeRetry opts]
        (enqueued opts w0)).msg.state = TaskState.pending ∨
        ((processTask NewRedisTaskProcessorConfig handler)^[composeRetry opts]
        (enqueued opts w0)).msg.state = TaskState.retry := by
      rw [h4]
      split <;> simp
    rw [Nat.add_zero, Function.iterate_succ_apply',
      processTask_of_failure handler _ e hs he hr]
    have hge : ((processTask NewRedisTaskProcessorConfig handler)^[composeRetry opts]
        (enqueued opts w0)).msg.Retried ≥
        ((processTask NewRedisTaskProcessorConfig handler)^[composeRetry opts]
        (enqueued opts w0)).msg.Retry := by
      rw [h1, h2]
    exact ⟨by rw [if_pos hge], congrArg (· + 1) h3⟩
  | succ j ih =>
    rw [← Nat.add_assoc, Function.iterate_succ_apply',
      processTask_of_archived _ _ _ ih.1]
    exact ih

/-- C11: under the processor's configuration, a task whose handler fails with
a retryable error (one that does not wrap `asynq.SkipRetry`) on every attempt
is handed to the handler on each of the first `max_retry + 1` passes of the
processor, `max_retry` being the retry budget given at enqueue: after the first
attempt and after each of the next `max_retry - 1` the task awaits a retry; the
attempt after that archives it; from then on the task stays archived and the
number of invocations stays `max_retry + 1`, however many more passes are
made. -/
theorem always_failing_handler_is_retried_max_retry_times {H : Type}
    (handler : H → Option GoError × H)
    (hfail : ∀ w : H, ∃ e : GoError, (handler w).1 = some e ∧
      e.errorsIs GoError.skipRetry = false)
    (opts : List AsynqOption) (w0 : H) :
    (∀ k : Nat, k ≤ composeRetry opts + 1 →
      ((processTask NewRedisTaskProcessorConfig handler)^[k]
        (enqueued opts w0)).invocations = k) ∧
    (∀ k : Nat, 1 ≤ k → k ≤ composeRetry opts →
      ((processTask NewRedisTaskProcessorConfig handler)^[k]
        (enqueued opts w0)).msg.state = TaskState.retry) ∧
    (∀ k : Nat, composeRetry opts + 1 ≤ k →
      ((processTask NewRedisTaskProcessorConfig handler)^[k]
        (enqueued opts w0)).msg.state = TaskState.archived ∧
      ((processTask NewRedisTaskProcessorConfig handler)^[k]
        (enqueued opts w0)).invocations = composeRetry opts + 1) := by
  refine ⟨?_, ?_, ?_⟩
  · intro k hk
    rcases Nat.lt_or_ge k (composeRetry opts + 1) with h | h
    · exact (processTask_iterate_within_budget handler hfail opts w0 k (by omega)).2.2.1
    · have hk1 : k = composeRetry opts + 1 + 0 := by omega
      rw [hk1]
      exact (processTask_iterate_budget_used handler hfail opts w0 0).2
  · intro k h1 hk
    have h := (processTask_iterate_within_budget handler hfail opts w0 k hk).2.2.2
    rw [h, if_neg (by omega)]
  · intro k hk
    obtain ⟨j, rfl⟩ := Nat.exists_eq_add_of_le hk
    exact processTask_iterate_budget_used handler hfail opts w0 j

/-- The witness of C11: a task enqueued with the options of
`enqueueCreateAppTask`, whose retry budget is 10, and a handler that always
fails with a retryable error: the handler has been invoked 11 times when the
task is archived after the eleventh pass, and still 11 times after thirty. -/
theorem always_failing_handler_is_retried_max_retry_times_witness :
    composeRetry enqueueCreateAppTaskOpts = 10 ∧
    (∀ w : Nat, ∃ e : GoError, (alwaysFailing w).1 = some e ∧
      e.errorsIs GoError.skipRetry = false) ∧
    ((processTask NewRedisTaskProcessorConfig alwaysFailing)^[10]
      (enqueued enqueueCreateAppTaskOpts 0)).msg.state = TaskState.retry ∧
    (((processTask NewRedisTaskProcessorConfig alwaysFailing)^[11]
        (enqueued enqueueCreateAppTaskOpts 0)).msg.state = TaskState.archived ∧
      ((processTask NewRedisTaskProcessorConfig alwaysFailing)^[11]
        (enqueued enqueueCreateAppTaskOpts 0)).invocations = 10 + 1) ∧
    (((processTask NewRedisTaskProcessorConfig alwaysFailing)^[30]
        (enqueued enqueueCreateAppTaskOpts 0)).msg.state = TaskState.archived ∧
      ((processTask NewRedisTaskProcessorConfig alwaysFailing)^[30]
        (enqueued enqueueCreateAppTaskOpts 0)).invocations = 10 + 1) :=
  ⟨by decide, fun _ => ⟨_, rfl, by decide⟩,
    (always_failing_handler_is_retried_max_retry_times alwaysFailing
      (fun _ => ⟨_, rfl, by decide⟩) enqueueCreateAppTaskOpts 0).2.1 10 (by decide) (by decide),
    (always_failing_handler_is_retried_max_retry_times alwaysFailing
      (fun _ => ⟨_, rfl, by decide⟩) enqueueCreateAppTaskOpts 0).2.2 11 (by decide),
    (always_failing_handler_is_retried_max_retry_times alwaysFailing
      (fun _ => ⟨_, rfl, by decide⟩) enqueueCreateAppTaskOpts 0).2.2 30 (by decide)⟩

/-! ## Status transactions on an invalid status -/

/-- C21: when the status update succeeds and the status is neither accepted
nor rejected, `UpdateCandidateApplicationStatusTx` and
`UpdateEmployerApplicationStatusTx` (run by an executor that commits exactly on
nil) return the error "invalid application status request: use accepted or
rejected"; the status update is the only call made, `AfterUpdate` is not
invoked, and the relational state is the one before the call. -/
theorem invalid_status_is_rejected_without_callback {σ ω : Type}
    (exec : Executor σ ω) (hexec : CommitsExactlyOnNil exec) (k : StatusConstants)
    (q : StatusQueries σ) (w : TxWorld σ ω) :
    (∀ arg : UpdateCandidateApplicationStatusTxParams ω,
      (q.UpdateCandidateApplicationStatus arg.UpdateCandidateApplicationStatusParams w.db).1 =
        none →
      arg.UpdateCandidateApplicationStatusParams.ApplicationStatus ≠
        k.ApplicationStatusAccepted →
      arg.UpdateCandidateApplicationStatusParams.ApplicationStatus ≠
        k.ApplicationStatusRejected →
      CallbackNeverInvoked w "UpdateCandidateApplicationStatus"
          (GoError.errorsNew "invalid application status request: use accepted or rejected")
          (UpdateCandidateApplicationStatusTx exec k q arg w) ∧
        (UpdateCandidateApplicationStatusTx exec k q arg w).2.db = w.db) ∧
    (∀ arg : UpdateEmployerApplicationStatusTxParams ω,
      (q.UpdateEmployerApplicationStatus arg.UpdateEmployerApplicationStatusParams w.db).1 =
        none →
      arg.UpdateEmployerApplicationStatusParams.ApplicationStatus ≠
        k.ApplicationStatusAccepted →
      arg.UpdateEmployerApplicationStatusParams.ApplicationStatus ≠
        k.ApplicationStatusRejected →
      CallbackNeverInvoked w "UpdateEmployerApplicationStatus"
          (GoError.errorsNew "invalid application status request: use accepted or rejected")
          (UpdateEmployerApplicationStatusTx exec k q arg w) ∧
        (UpdateEmployerApplicationStatusTx exec k q arg w).2.db = w.db) := by
  refine ⟨?_, ?_⟩
  · intro arg hq ha hr
    simp only [UpdateCandidateApplicationStatusTx, CallbackNeverInvoked, hexec _ _ w,
      UpdateCandidateApplicationStatusTxFn, callExec, callCallback]
    rcases hd : q.UpdateCandidateApplicationStatus arg.UpdateCandidateApplicationStatusParams
      w.db with ⟨_ | err, db1⟩
    · simp [getSwipe, ha, hr]
    · rw [hd] at hq
      cases hq
  · intro arg hq ha hr
    simp only [UpdateEmployerApplicationStatusTx, CallbackNeverInvoked, hexec _ _ w,
      UpdateEmployerApplicationStatusTxFn, callExec, callCallback]
    rcases hd : q.UpdateEmployerApplicationStatus arg.UpdateEmployerApplicationStatusParams
      w.db with ⟨_ | err, db1⟩
    · simp [getSwipe, ha, hr]
    · rw [hd] at hq
      cases hq

/-- The witness of C21: setting the pending application of candidate 5 to
employer 7 to `submitted` returns the error, stores no swipe and leaves the
application pending, on the candidate side and on the employer side. -/
theorem invalid_status_is_rejected_without_callback_witness :
    (UpdateCandidateApplicationStatusTx execTx demoStatusConstants demoStatusQueries
        { UpdateCandidateApplicationStatusParams :=
            { CandidateID := 5, EmployerID := 7, ApplicationStatus := "submitted" },
          AfterUpdate := storeSwipe } (demoStatusWorld CreateCandidateSwipeParams)).2.db =
        [(5, 7, "pending")] ∧
    (CallbackNeverInvoked (demoStatusWorld CreateCandidateSwipeParams)
        "UpdateCandidateApplicationStatus"
        (GoError.errorsNew "invalid application status request: use accepted or rejected")
        (UpdateCandidateApplicationStatusTx execTx demoStatusConstants demoStatusQueries
          { UpdateCandidateApplicationStatusParams :=
              { CandidateID := 5, EmployerID := 7, ApplicationStatus := "submitted" },
            AfterUpdate := storeSwipe } (demoStatusWorld CreateCandidateSwipeParams)) ∧
      (UpdateCandidateApplicationStatusTx execTx demoStatusConstants demoStatusQueries
          { UpdateCandidateApplicationStatusParams :=
              { CandidateID := 5, EmployerID := 7, ApplicationStatus := "submitted" },
            AfterUpdate := storeSwipe } (demoStatusWorld CreateCandidateSwipeParams)).2.db =
        (demoStatusWorld CreateCandidateSwipeParams).db) ∧
    (CallbackNeverInvoked (demoStatusWorld CreateEmployerSwipesParams)
        "UpdateEmployerApplicationStatus"
        (GoError.errorsNew "invalid application status request: use accepted or rejected")
        (UpdateEmployerApplicationStatusTx execTx demoStatusConstants demoStatusQueries
          { UpdateEmployerApplicationStatusParams :=
              { CandidateID := 5, EmployerID := 7, ApplicationStatus := "pending" },
            AfterUpdate := storeSwipe } (demoStatusWorld CreateEmployerSwipesParams)) ∧
      (UpdateEmployerApplicationStatusTx execTx demoStatusConstants demoStatusQueries
          { UpdateEmployerApplicationStatusParams :=
              { CandidateID := 5, EmployerID := 7, ApplicationStatus := "pending" },
            AfterUpdate := storeSwipe } (demoStatusWorld CreateEmployerSwipesParams)).2.db =
        (demoStatusWorld CreateEmployerSwipesParams).db) :=
  ⟨by decide,
    (invalid_status_is_rejected_without_callback execTx execTx_commitsExactlyOnNil
      demoStatusConstants demoStatusQueries (demoStatusWorld CreateCandidateSwipeParams)).1
      { UpdateCandidateApplicationStatusParams :=
          { CandidateID := 5, EmployerID := 7, ApplicationStatus := "submitted" },
        AfterUpdate := storeSwipe } rfl (by decide) (by decide),
    (invalid_status_is_rejected_without_callback execTx execTx_commitsExactlyOnNil
      demoStatusConstants demoStatusQueries (demoStatusWorld CreateEmployerSwipesParams)).2
      { UpdateEmployerApplicationStatusParams :=
          { CandidateID := 5, EmployerID := 7, ApplicationStatus := "pending" },
        AfterUpdate := storeSwipe } rfl (by decide) (by decide)⟩

/-! ## Handlers of the application-deletion and verification-email tasks -/

/-- C23 (the code at the scenario's input): the payload of the task is the JSON
encoding of `PayloadDeleteApplication` with document id `5_7`, and it decodes
when `json.Unmarshal` is given a pointer; the store holds the document `5_7`
and its deletion succeeds when called; yet
`ProcessTaskDeleteCandidateApplication` and
`ProcessTaskDeleteEmployerApplication` return the skip-retry decode failure,
make no call to the document store and leave the document in place. -/
theorem delete_application_task_is_not_deleted :
    jsonUnmarshal demoDeleteProcessor.json.deleteApplication demoDeleteApplicationBytes
        (JsonTarget.pointer default) = (none, { DocID := "5_7" }) ∧
    (invoke (Call.DeleteCandidateApplication "5_7")
        (demoDeleteProcessor.esClient.DeleteCandidateApplication "5_7")
        demoApplicationWorld).1 = none ∧
    (invoke (Call.DeleteCandidateApplication "5_7")
        (demoDeleteProcessor.esClient.DeleteCandidateApplication "5_7")
        demoApplicationWorld).2.ext = [] ∧
    ProcessTaskDeleteCandidateApplication demoDeleteProcessor
        (NewTask TaskDeleteCandidateApp demoDeleteApplicationBytes []) demoApplicationWorld =
      (some unmarshalFailure, demoApplicationWorld) ∧
    ProcessTaskDeleteEmployerApplication demoDeleteProcessor
        (NewTask TaskDeleteEmployerApp demoDeleteApplicationBytes []) demoApplicationWorld =
      (some unmarshalFailure, demoApplicationWorld) ∧
    wraps (some unmarshalFailure) GoError.skipRetry = true ∧
    demoApplicationWorld.calls = [] ∧
    demoApplicationWorld.ext = [("5_7", [("message", Json.str "hi")])] := by
  refine ⟨rfl, rfl, rfl, ?_, ?_, by decide, rfl, rfl⟩
  · exact processDeleteApplicationTask_eq _ _ _ _ _
  · exact processDeleteApplicationTask_eq _ _ _ _ _

/-- C25: when the payload of the task decodes and the decoded payload has an
empty name, an empty email or an empty verification link,
`ProcessTaskSendVerifyEmail` returns "missing required fields" wrapping
`asynq.SkipRetry`, and makes no call: neither the call log nor the state its
collaborators act on changes, so the mailer is not called. -/
theorem verify_email_with_missing_field_is_skip_retry {S : Type}
    (processor : RedisTaskProcessor S) (task : Task) (w : HandlerWorld S)
    (payload : PayloadSendVerifyEmail)
    (hdecoded : jsonUnmarshal processor.json.sendVerifyEmail task.payload
      (JsonTarget.pointer default) = (none, payload))
    (hempty : payload.Name = "" ∨ payload.Email = "" ∨ payload.VerificationLink = "") :
    ProcessTaskSendVerifyEmail processor task w =
      (some (GoError.wrapf "missing required fields" GoError.skipRetry), w) ∧
    wraps (ProcessTaskSendVerifyEmail processor task w).1 GoError.skipRetry = true ∧
    (ProcessTaskSendVerifyEmail processor task w).2.calls = w.calls := by
  have h : ProcessTaskSendVerifyEmail processor task w =
      (some (GoError.wrapf "missing required fields" GoError.skipRetry), w) := by
    simp only [ProcessTaskSendVerifyEmail, hdecoded]
    rw [if_pos hempty]
  refine ⟨h, ?_, ?_⟩
  · rw [h]
    rfl
  · rw [h]

/-- The witness of C25: a payload with an empty verification link, on a
processor whose mailer accepts every email and whose files all exist. -/
theorem verify_email_with_missing_field_is_skip_retry_witness :
    ProcessTaskSendVerifyEmail
        (demoEmailProcessor { Name := "Ann", Email := "ann@example.com", VerificationLink := "" })
        (NewTask TaskSendVerifyEmail demoBytes []) emptyHandlerWorld =
      (some (GoError.wrapf "missing required fields" GoError.skipRetry), emptyHandlerWorld) ∧
    wraps (ProcessTaskSendVerifyEmail
        (demoEmailProcessor { Name := "Ann", Email := "ann@example.com", VerificationLink := "" })
        (NewTask TaskSendVerifyEmail demoBytes []) emptyHandlerWorld).1 GoError.skipRetry =
      true ∧
    (ProcessTaskSendVerifyEmail
        (demoEmailProcessor { Name := "Ann", Email := "ann@example.com", VerificationLink := "" })
        (NewTask TaskSendVerifyEmail demoBytes []) emptyHandlerWorld).2.calls =
      emptyHandlerWorld.calls :=
  verify_email_with_missing_field_is_skip_retry
    (demoEmailProcessor { Name := "Ann", Email := "ann@example.com", VerificationLink := "" })
    (NewTask TaskSendVerifyEmail demoBytes []) emptyHandlerWorld
    { Name := "Ann", Email := "ann@example.com", VerificationLink := "" } rfl
    (Or.inr (Or.inr rfl))

/-! ## Length of a past experience -/

/-- C29 (the code at a failing input): from January 15, 2020, `YearsBetween`
is 1/6 of a year to February 14, 2020 and 1/12 of a year to the later February
15, 2020, in exact rational arithmetic: it decreases although the end date
grows. -/
theorem years_between_decreases_when_the_end_day_reaches_the_start_day :
    (dateOf 2020 1 15).notAfter (dateOf 2020 2 14) = true ∧
    (dateOf 2020 2 14).notAfter (dateOf 2020 2 15) = true ∧
    YearsBetween (dateOf 2020 1 15) (dateOf 2020 2 14) = 1 / 6 ∧
    YearsBetween (dateOf 2020 1 15) (dateOf 2020 2 15) = 1 / 12 ∧
    ¬ YearsBetween (dateOf 2020 1 15) (dateOf 2020 2 14) ≤
      YearsBetween (dateOf 2020 1 15) (dateOf 2020 2 15) := by
  have h1 : YearsBetween (dateOf 2020 1 15) (dateOf 2020 2 14) = 1 / 6 := by
    norm_num [YearsBetween, dateOf, daysInMonth]
  have h2 : YearsBetween (dateOf 2020 1 15) (dateOf 2020 2 15) = 1 / 12 := by
    norm_num [YearsBetween, dateOf, daysInMonth]
  refine ⟨by decide, by decide, h1, h2, ?_⟩
  rw [h1, h2]
  norm_num

/-! ## Document ids of applications -/

/-- The value of the character of a decimal digit is the digit. -/
theorem digitValue_digitChar (m : Nat) (h : m < 10) : digitValue (Nat.digitChar m) = m := by
  interval_cases m <;> rfl

/-- The character of a decimal digit is a digit character. -/
theorem isDigit_digitChar (m : Nat) (h : m < 10) : (Nat.digitChar m).isDigit = true := by
  interval_cases m <;> rfl

/-- Reading the decimal digits of `n` written in front of `ds` is reading `ds`
after `n`, given fuel for every digit. -/
theorem readDigits_toDigitsCore (fuel : Nat) :
    ∀ (n : Nat) (ds : List Char), n < fuel →
      readDigits 0 (Nat.toDigitsCore 10 fuel n ds) = readDigits n ds := by
  induction fuel with
  | zero => intro n ds h; omega
  | succ fuel ih =>
    intro n ds h
    simp only [Nat.toDigitsCore]
    split
    · rename_i h0
      have hn : n % 10 = n := by omega
      have hd := digitValue_digitChar (n % 10) (Nat.mod_lt _ (by decide))
      rw [hn] at hd
      simp [readDigits, hn, hd]
    · rename_i h0
      rw [ih (n / 10) _ (by omega)]
      simp only [readDigits, List.foldl_cons,
        digitValue_digitChar (n % 10) (Nat.mod_lt _ (by decide))]
      congr 1
      omega

/-- Every character written by `Nat.toDigitsCore` in base ten is a digit. -/
theorem mem_toDigitsCore (fuel : Nat) :
    ∀ (n : Nat) (ds : List Char) (c : Char), c ∈ Nat.toDigitsCore 10 fuel n ds →
      c ∈ ds ∨ c.isDigit = true := by
  induction fuel with
  | zero => intro n ds c h; exact Or.inl h
  | succ fuel ih =>
    intro n ds c h
    simp only [Nat.toDigitsCore] at h
    split at h
    · rcases List.mem_cons.mp h with rfl | h
      · exact Or.inr (isDigit_digitChar _ (Nat.mod_lt _ (by decide)))
      · exact Or.inl h
    · rcases ih _ _ _ h with h | h
      · rcases List.mem_cons.mp h with rfl | h
        · exact Or.inr (isDigit_digitChar _ (Nat.mod_lt _ (by decide)))
        · exact Or.inl h
      · exact Or.inr h

/-- Two natural numbers with the same decimal digits are equal. -/
theorem toDigits_injective (a b : Nat) (h : Nat.toDigits 10 a = Nat.toDigits 10 b) : a = b := by
  have ha := readDigits_toDigitsCore (a + 1) a [] (by omega)
  have hb := readDigits_toDigitsCore (b + 1) b [] (by omega)
  unfold Nat.toDigits at h
  rw [h, hb] at ha
  simpa [readDigits] using ha.symm

/-- Every character of the decimal digits of a natural number is a digit. -/
theorem isDigit_of_mem_toDigits (n : Nat) (c : Char) (h : c ∈ Nat.toDigits 10 n) :
    c.isDigit = true := by
  rcases mem_toDigitsCore _ _ _ _ h with h | h
  · cases h
  · exact h

/-- The decimal text of a non-negative integer is its digits. -/
theorem data_toString_ofNat (m : Nat) : (toString (Int.ofNat m)).data = Nat.toDigits 10 m := rfl

/-- The decimal text of a negative integer is a minus sign and the digits of
its absolute value. -/
theorem data_toString_negSucc (m : Nat) :
    (toString (Int.negSucc m)).data = '-' :: Nat.toDigits 10 (m + 1) := rfl

/-- Two integers with the same decimal text are equal. -/
theorem data_toString_injective (a b : Int) (h : (toString a).data = (toString b).data) :
    a = b := by
  cases a with
  | ofNat m =>
    cases b with
    | ofNat n =>
      rw [data_toString_ofNat, data_toString_ofNat] at h
      rw [toDigits_injective m n h]
    | negSucc n =>
      rw [data_toString_ofNat, data_toString_negSucc] at h
      have hm : '-' ∈ Nat.toDigits 10 m := by rw [h]; exact List.mem_cons_self _ _
      exact absurd (isDigit_of_mem_toDigits m _ hm) (by decide)
  | negSucc m =>
    cases b with
    | ofNat n =>
      rw [data_toString_ofNat, data_toString_negSucc] at h
      have hm : '-' ∈ Nat.toDigits 10 n := by rw [← h]; exact List.mem_cons_self _ _
      exact absurd (isDigit_of_mem_toDigits n _ hm) (by decide)
    | negSucc n =>
      rw [data_toString_negSucc, data_toString_negSucc] at h
      have h2 := toDigits_injective _ _ (List.cons.inj h).2
      have h3 : m = n := by omega
      rw [h3]

/-- The decimal text of an integer holds no underscore. -/
theorem underscore_not_mem_toString (a : Int) : '_' ∉ (toString a).data := by
  intro h
  cases a with
  | ofNat m =>
    rw [data_toString_ofNat] at h
    exact absurd (isDigit_of_mem_toDigits m _ h) (by decide)
  | negSucc m =>
    rw [data_toString_negSucc] at h
    rcases List.mem_cons.mp h with h | h
    · exact absurd h (by decide)
    · exact absurd (isDigit_of_mem_toDigits _ _ h) (by decide)

/-- Two texts joined by a separator that occurs in neither first part are
equal only if the parts are. -/
theorem append_separator_inj (sep : Char) :
    ∀ (l1 m1 l2 m2 : List Char), sep ∉ l1 → sep ∉ m1 →
      l1 ++ sep :: l2 = m1 ++ sep :: m2 → l1 = m1 ∧ l2 = m2 := by
  intro l1
  induction l1 with
  | nil =>
    intro m1 l2 m2 _ hm h
    cases m1 with
    | nil => exact ⟨rfl, (List.cons.inj h).2⟩
    | cons c m1 =>
      have hc : sep = c := (List.cons.inj h).1
      exact absurd (hc ▸ List.mem_cons_self _ _) hm
  | cons c l1 ih =>
    intro m1 l2 m2 hl hm h
    cases m1 with
    | nil =>
      have hc : c = sep := (List.cons.inj h).1
      exact absurd (hc ▸ List.mem_cons_self _ _) hl
    | cons c1 m1 =>
      obtain ⟨hc, ht⟩ := List.cons.inj h
      obtain ⟨h1, h2⟩ := ih m1 l2 m2 (fun hx => hl (List.mem_cons_of_mem _ hx))
        (fun hx => hm (List.mem_cons_of_mem _ hx)) ht
      exact ⟨by rw [hc, h1], h2⟩

/-- The characters of a document id: the first id, an underscore, the second id. -/
theorem data_sprintfIDs (a b : Int) :
    (sprintfIDs a b).data = (toString a).data ++ '_' :: (toString b).data := by
  simp [sprintfIDs, String.data_append]

/-- C30: for all integers a, b, c, d (in particular all 64-bit signed ones), if
the document id built from (a, b) as decimal a, an underscore and decimal b
equals the one built from (c, d), then a = c and b = d. -/
theorem document_id_is_injective (a b c d : Int) (h : sprintfIDs a b = sprintfIDs c d) :
    a = c ∧ b = d := by
  have hd := congrArg String.data h
  rw [data_sprintfIDs, data_sprintfIDs] at hd
  obtain ⟨h1, h2⟩ := append_separator_inj '_' _ _ _ _ (underscore_not_mem_toString a)
    (underscore_not_mem_toString c) hd
  exact ⟨data_toString_injective a c h1, data_toString_injective b d h2⟩

/-- The witness of C30: the id of the pair (12, 3) is `12_3`, it differs from
the id `1_23` of the pair (1, 23), and equal ids come from equal pairs. -/
theorem document_id_is_injective_witness :
    sprintfIDs 12 3 = "12_3" ∧ sprintfIDs 1 23 = "1_23" ∧
    sprintfIDs (-12) 3 = sprintfIDs (-12) 3 ∧ ((-12 : Int) = -12 ∧ (3 : Int) = 3) :=
  ⟨by decide, by decide, rfl, document_id_is_injective (-12) 3 (-12) 3 rfl⟩

/-! ## Verification emails -/

/-- C24 (the code at a failing input): the user `mock-uid` has no last-sent
time recorded, the token verifies, the user's email is not verified and the
link is generated, but the broker is down: `resendEmailVerification` answers
500, nothing is in the queue, and yet the rate limiter now records the clock
reading as the last-sent time of `mock-uid`.  With the broker up the answer is
200 and the same time is recorded. -/
theorem resend_records_last_sent_when_enqueue_fails :
    demoEmailWorld.rateLimiter.entry "mock-uid" = none ∧
    (resendEmailVerification (demoEmailServer (some brokerDown)) demoResendContext
        demoEmailWorld).map
      (fun r => (r.1.status, r.2.rateLimiter.entry "mock-uid", r.2.broker.broker)) =
      some (500, some demoNow, []) ∧
    (resendEmailVerification (demoEmailServer none) demoResendContext demoEmailWorld).map
      (fun r => (r.1.status, r.2.rateLimiter.entry "mock-uid", r.2.broker.broker.length)) =
      some (200, some demoNow, 1) := by
  refine ⟨rfl, ?_, ?_⟩
  · decide
  · decide

/-! ## Employer and candidate endpoints -/

/-- An `int32` expression whose mathematical value is a non-negative `int32`
has that value. -/
theorem wrapInt32_of_inRange (n : Int) (h0 : 0 ≤ n) (h1 : n ≤ maxInt32) : wrapInt32 n = n := by
  unfold wrapInt32
  unfold maxInt32 at h1
  omega

/-- C28 (the code when the ids differ): with the bindings yielding a request
whose employer id is not the authenticated role id, `updateEmployer` writes a
401 first and goes on: it calls the store's `UpdateEmployer` once, on the
employer of the authenticated role id with the fields of the request, the
relational state afterwards is the one that update leaves, and a second
response is written. -/
theorem update_employer_updates_after_answering_unauthorized {σ E C : Type}
    (store : UserStore σ E C) (k : DatabaseErrors)
    (ctx : RequestContext updateEmployerRequest) (w : StoreWorld σ)
    (req0 req : updateEmployerRequest)
    (huri : ctx.ShouldBindUri default = Except.ok req0)
    (hjson : ctx.ShouldBindJSON req0 = Except.ok req)
    (hne : ctx.authorizationPayload.RoleID ≠ req.EmployerID) :
    (updateEmployerArg ctx.authorizationPayload req).ID = ctx.authorizationPayload.RoleID ∧
    (updateEmployer store k ctx w).2.calls =
      w.calls ++ [StoreCall.UpdateEmployer (updateEmployerArg ctx.authorizationPayload req)] ∧
    (updateEmployer store k ctx w).2.db =
      (store.UpdateEmployer (updateEmployerArg ctx.authorizationPayload req) w.db).2 ∧
    ((updateEmployer store k ctx w).1.map (fun r => r.status)).head? =
      some StatusUnauthorized ∧
    (updateEmployer store k ctx w).1.length = 2 := by
  refine ⟨rfl, ?_⟩
  simp only [updateEmployer, huri, hjson, hne, ne_eq, not_false_eq_true, if_true]
  split <;> rename_i heq <;> simp [heq]

/-- The witness of C28: the holder of employer 1 sends an update for the path
of employer 2: the first response is 401, a second response 200 follows, and
employer 1 is renamed in the store. -/
theorem update_employer_updates_after_answering_unauthorized_witness :
    ((updateEmployer demoUserStore demoDatabaseErrors
        (demoRequestContext 1 { (default : updateEmployerRequest) with
          EmployerID := 2, BusinessName := "Mallory" }) demoStoreWorld).1.map
      (fun r => r.status)) = [401, 200] ∧
    (updateEmployer demoUserStore demoDatabaseErrors
        (demoRequestContext 1 { (default : updateEmployerRequest) with
          EmployerID := 2, BusinessName := "Mallory" }) demoStoreWorld).2.db =
      [(1, "Mallory"), (2, "Bob's")] ∧
    (updateEmployer demoUserStore demoDatabaseErrors
        (demoRequestContext 1 { (default : updateEmployerRequest) with
          EmployerID := 2, BusinessName := "Mallory" }) demoStoreWorld).2.calls =
      demoStoreWorld.calls ++ [StoreCall.UpdateEmployer
        (updateEmployerArg { Username := "ann", Role := "employer", RoleID := 1 }
          { (default : updateEmployerRequest) with
            EmployerID := 2, BusinessName := "Mallory" })] :=
  ⟨by decide, by decide,
    (update_employer_updates_after_answering_unauthorized demoUserStore demoDatabaseErrors
      (demoRequestContext 1 { (default : updateEmployerRequest) with
        EmployerID := 2, BusinessName := "Mallory" }) demoStoreWorld _ _ rfl rfl
      (by decide)).2.1⟩

/-- C27, the claim as stated fails: the list request with `page_id` 429496731
and `page_size` 5 passes validation, and `listEmployer` and `listCandidates`
pass the offset -2147483646 to the store, which is negative and is not the
integer (429496731 - 1) * 5 = 2147483650. -/
theorem list_offset_overflows_int32 :
    listRequest.passesValidation { PageID := 429496731, PageSize := 5 } ∧
    (listEmployer demoUserStore
        (demoRequestContext 1 { PageID := 429496731, PageSize := 5 }) demoStoreWorld).2.calls =
      [StoreCall.ListEmployers { Username := "ann", Limit := 5, Offset := -2147483646 }] ∧
    (listCandidates demoUserStore
        (demoRequestContext 1 { PageID := 429496731, PageSize := 5 }) demoStoreWorld).2.calls =
      [StoreCall.ListCandidates { Username := "ann", Limit := 5, Offset := -2147483646 }] ∧
    ((429496731 : Int) - 1) * 5 = 2147483650 ∧ (-2147483646 : Int) < 0 := by
  refine ⟨⟨by decide, by decide, by decide, by decide⟩, by decide, by decide, by decide,
    by decide⟩

/-- C27, amended: for every list request that passes validation, `listEmployer`
and `listCandidates` call the store once, with the user name of the payload,
Limit equal to `page_size` and Offset equal to (page_id - 1) * page_size
computed in `int32`; whenever that product is at most 2147483647, the offset is
the mathematical integer (page_id - 1) * page_size, which is non-negative. -/
theorem list_handlers_pass_limit_and_int32_offset {σ E C : Type} (store : UserStore σ E C)
    (ctx : RequestContext listRequest) (w : StoreWorld σ) (req : listRequest)
    (hbind : ctx.ShouldBindQuery default = Except.ok req)
    (hvalid : req.passesValidation) :
    (listEmployer store ctx w).2.calls =
      w.calls ++ [StoreCall.ListEmployers
        { Username := ctx.authorizationPayload.Username, Limit := req.PageSize,
          Offset := wrapInt32 ((req.PageID - 1) * req.PageSize) }] ∧
    (listCandidates store ctx w).2.calls =
      w.calls ++ [StoreCall.ListCandidates
        { Username := ctx.authorizationPayload.Username, Limit := req.PageSize,
          Offset := wrapInt32 ((req.PageID - 1) * req.PageSize) }] ∧
    ((req.PageID - 1) * req.PageSize ≤ maxInt32 →
      wrapInt32 ((req.PageID - 1) * req.PageSize) = (req.PageID - 1) * req.PageSize ∧
      0 ≤ (req.PageID - 1) * req.PageSize) := by
  obtain ⟨h1, h2, h3, h4⟩ := hvalid
  have hw : wrapInt32 (req.PageID - 1) = req.PageID - 1 :=
    wrapInt32_of_inRange _ (by omega) (by omega)
  have hnn : 0 ≤ (req.PageID - 1) * req.PageSize := mul_nonneg (by omega) (by omega)
  refine ⟨?_, ?_, fun hle => ⟨wrapInt32_of_inRange _ hnn hle, hnn⟩⟩
  · simp only [listEmployer, hbind, listParams, hw]
    split <;> rfl
  · simp only [listCandidates, hbind, listParams, hw]
    split <;> rfl

/-- The witness of C27: the third page of size 5 is listed with limit 5 and
offset 10. -/
theorem list_handlers_pass_limit_and_int32_offset_witness :
    listRequest.passesValidation { PageID := 3, PageSize := 5 } ∧
    (listEmployer demoUserStore (demoRequestContext 1 { PageID := 3, PageSize := 5 })
        demoStoreWorld).2.calls =
      demoStoreWorld.calls ++ [StoreCall.ListEmployers
        { Username := "ann", Limit := 5, Offset := wrapInt32 ((3 - 1) * 5) }] ∧
    wrapInt32 ((3 - 1) * 5) = 10 :=
  ⟨⟨by decide, by decide, by decide, by decide⟩,
    (list_handlers_pass_limit_and_int32_offset demoUserStore
      (demoRequestContext 1 { PageID := 3, PageSize := 5 }) demoStoreWorld
      { PageID := 3, PageSize := 5 } rfl ⟨by decide, by decide, by decide, by decide⟩).1,
    by decide⟩

/-! ## Application endpoints -/

/-- C22: for every candidate id c and employer id e (both provided, that is
non-zero), when the request is that of candidate c and the relational write
succeeds (the insert returning the row it stored), candidate-application
creation calls the insert with the row of (c, e) and the document id made of
decimal c, an underscore and decimal e, then enqueues the indexing task with
that document id once; candidate-application deletion for the same (c, e)
calls the deletion and then enqueues the deletion task with exactly that same
document id. The store's executor commits exactly on nil. -/
theorem candidate_application_is_indexed_and_deleted_under_one_id {σ W CR ER : Type}
    (server : ApplicationServer W) (store : ApplicationStore σ W CR ER)
    (hexec : CommitsExactlyOnNil store.execTx) (roles : RoleConstants)
    (unmarshalMap : Bytes → Except GoError JsonMap) (c e : Int) (hc : c ≠ 0) (he : e ≠ 0)
    (w : TxWorld σ W) :
    (∀ (ctx : RequestContext createApplicationRequest) (req : createApplicationRequest)
        (appDoc : JsonMap),
      ctx.ShouldBindJSON default = Except.ok req →
      req.CandidateID = c → req.EmployerID = e →
      ctx.authorizationPayload.Role = roles.RoleCandidate →
      ctx.authorizationPayload.RoleID = c →
      unmarshalMap req.ApplicationDoc = Except.ok appDoc →
      (store.queries.CreateCandidateApplication
        { CandidateID := c, EmployerID := e, ElasticsearchDocID := sprintfIDs c e,
          JobDocID := req.JobDocID, ApplicationStatus := req.ApplicationStatus } w.db).1.2 =
        none →
      (store.queries.CreateCandidateApplication
        { CandidateID := c, EmployerID := e, ElasticsearchDocID := sprintfIDs c e,
          JobDocID := req.JobDocID, ApplicationStatus := req.ApplicationStatus }
        w.db).1.1.ElasticsearchDocID = sprintfIDs c e →
      (createApplication server store roles unmarshalMap false ctx w).2.log =
          w.log ++ [TxEvent.query "CreateCandidateApplication", TxEvent.callback "AfterCreate"] ∧
        (createApplication server store roles unmarshalMap false ctx w).2.ext =
          (server.taskDistributor.DistributeTaskCreateCandidateApplication
            (some { DocID := toString c ++ "_" ++ toString e, AppDoc := appDoc })
            enqueueCreateAppTaskOpts w.ext).2 ∧
        ((server.taskDistributor.DistributeTaskCreateCandidateApplication
            (some { DocID := toString c ++ "_" ++ toString e, AppDoc := appDoc })
            enqueueCreateAppTaskOpts w.ext).1 = none →
          (createApplication server store roles unmarshalMap false ctx w).2.db =
            (store.queries.CreateCandidateApplication
              { CandidateID := c, EmployerID := e, ElasticsearchDocID := sprintfIDs c e,
                JobDocID := req.JobDocID, ApplicationStatus := req.ApplicationStatus }
              w.db).2 ∧
          (createApplication server store roles unmarshalMap false ctx w).1.map
            (fun r => r.status) = [StatusOK])) ∧
    (∀ (ctx : RequestContext deleteApplicationRequest) (req0 req : deleteApplicationRequest),
      ctx.ShouldBindUri default = Except.ok req0 →
      ctx.ShouldBindJSON req0 = Except.ok req →
      req.CandidateID = c → req.EmployerID = e →
      ctx.authorizationPayload.Role = roles.RoleCandidate →
      ctx.authorizationPayload.RoleID = c →
      (store.queries.DeleteCandidateApplication { CandidateID := c, EmployerID := e }
        w.db).1 = none →
      (deleteApplication server store roles false ctx w).2.log =
          w.log ++ [TxEvent.query "DeleteCandidateApplication", TxEvent.callback "AfterDelete"] ∧
        (deleteApplication server store roles false ctx w).2.ext =
          (server.taskDistributor.DistributeTaskDeleteCandidateApplication
            (some { DocID := toString c ++ "_" ++ toString e })
            enqueueDeleteAppTaskOpts w.ext).2) := by
  have hv : validateIDs c e = none := by simp [validateIDs, hc, he]
  refine ⟨?_, ?_⟩
  · intro ctx req appDoc hbind hrc hre hrole hid hdoc hq hrow
    subst hrc hre
    simp only [createApplication, hbind, hv, convertApplicationDoc, hdoc, hrole, hid,
      CreateCandidateApplicationTx, hexec _ _ w, CreateCandidateApplicationTxFn, callQuery,
      callCallback, afterCandidateCreateApp, enqueueCreateAppTask, sprintfIDs] at hq hrow ⊢
    rcases hd : store.queries.CreateCandidateApplication
      { CandidateID := req.CandidateID, EmployerID := req.EmployerID,
        ElasticsearchDocID := toString req.CandidateID ++ "_" ++ toString req.EmployerID,
        JobDocID := req.JobDocID, ApplicationStatus := req.ApplicationStatus } w.db
      with ⟨⟨row, _ | err⟩, db1⟩
    · rw [hd] at hrow
      simp at hrow
      simp only [hd, hrow]
      generalize server.taskDistributor.DistributeTaskCreateCandidateApplication
        (some { AppDoc := appDoc,
                DocID := toString req.CandidateID ++ "_" ++ toString req.EmployerID })
        enqueueCreateAppTaskOpts w.ext = r
      rcases r with ⟨_ | derr, ext1⟩ <;> simp
    · rw [hd] at hq
      cases hq
  · intro ctx req0 req huri hjson hrc hre hrole hid hq
    subst hrc hre
    simp only [deleteApplication, huri, hjson, hv, hrole, hid, DeleteApplicationTx,
      hexec _ _ w, DeleteApplicationTxFn, callExec, callCallback, afterCandidateDeleteApp,
      enqueueDeleteAppTask, sprintfIDs] at hq ⊢
    rcases hd : store.queries.DeleteCandidateApplication
      { CandidateID := req.CandidateID, EmployerID := req.EmployerID } w.db
      with ⟨_ | err, db1⟩
    · simp only [hd]
      generalize server.taskDistributor.DistributeTaskDeleteCandidateApplication
        (some { DocID := toString req.CandidateID ++ "_" ++ toString req.EmployerID })
        enqueueDeleteAppTaskOpts w.ext = r
      rcases r with ⟨_ | derr, ext1⟩ <;> simp
    · rw [hd] at hq
      cases hq

/-- The witness of C22: candidate 5 applies to employer 7 and later deletes the
application: the row stored carries the document id `5_7`, the indexing task
and the deletion task are enqueued with that id, and both requests are
answered 200. -/
theorem candidate_application_is_indexed_and_deleted_under_one_id_witness :
    sprintfIDs 5 7 = "5_7" ∧
    ((createApplication (demoApplicationServer none) demoApplicationStore demoRoles
        demoUnmarshalMap false (demoCandidateContext demoCreateApplicationRequest)
        demoApplicationTxWorld).2.db.map (fun row => row.ElasticsearchDocID)) = ["5_7"] ∧
    ((createApplication (demoApplicationServer none) demoApplicationStore demoRoles
        demoUnmarshalMap false (demoCandidateContext demoCreateApplicationRequest)
        demoApplicationTxWorld).1.map (fun r => r.status)) = [200] ∧
    ((deleteApplication (demoApplicationServer none) demoApplicationStore demoRoles false
        (demoCandidateContext demoDeleteApplicationRequest)
        (createApplication (demoApplicationServer none) demoApplicationStore demoRoles
          demoUnmarshalMap false (demoCandidateContext demoCreateApplicationRequest)
          demoApplicationTxWorld).2).1.map (fun r => r.status)) = [200] ∧
    ((createApplication (demoApplicationServer none) demoApplicationStore demoRoles
          demoUnmarshalMap false (demoCandidateContext demoCreateApplicationRequest)
          demoApplicationTxWorld).2.log =
        demoApplicationTxWorld.log ++
          [TxEvent.query "CreateCandidateApplication", TxEvent.callback "AfterCreate"] ∧
      (createApplication (demoApplicationServer none) demoApplicationStore demoRoles
          demoUnmarshalMap false (demoCandidateContext demoCreateApplicationRequest)
          demoApplicationTxWorld).2.ext =
        ((demoApplicationServer none).taskDistributor.DistributeTaskCreateCandidateApplication
          (some { DocID := toString (5 : Int) ++ "_" ++ toString (7 : Int),
                  AppDoc := [("message", Json.str "hi")] })
          enqueueCreateAppTaskOpts demoApplicationTxWorld.ext).2) ∧
    ((deleteApplication (demoApplicationServer none) demoApplicationStore demoRoles false
          (demoCandidateContext demoDeleteApplicationRequest) demoApplicationTxWorld).2.log =
        demoApplicationTxWorld.log ++
          [TxEvent.query "DeleteCandidateApplication", TxEvent.callback "AfterDelete"] ∧
      (deleteApplication (demoApplicationServer none) demoApplicationStore demoRoles false
          (demoCandidateContext demoDeleteApplicationRequest) demoApplicationTxWorld).2.ext =
        ((demoApplicationServer none).taskDistributor.DistributeTaskDeleteCandidateApplication
          (some { DocID := toString (5 : Int) ++ "_" ++ toString (7 : Int) })
          enqueueDeleteAppTaskOpts demoApplicationTxWorld.ext).2) :=
  ⟨by decide, by decide, by decide, by decide,
    ⟨((candidate_application_is_indexed_and_deleted_under_one_id (demoApplicationServer none)
        demoApplicationStore execTx_commitsExactlyOnNil demoRoles demoUnmarshalMap 5 7
        (by decide) (by decide) demoApplicationTxWorld).1
        (demoCandidateContext demoCreateApplicationRequest) demoCreateApplicationRequest
        [("message", Json.str "hi")] rfl rfl rfl rfl rfl rfl rfl rfl).1,
      ((candidate_application_is_indexed_and_deleted_under_one_id (demoApplicationServer none)
        demoApplicationStore execTx_commitsExactlyOnNil demoRoles demoUnmarshalMap 5 7
        (by decide) (by decide) demoApplicationTxWorld).1
        (demoCandidateContext demoCreateApplicationRequest) demoCreateApplicationRequest
        [("message", Json.str "hi")] rfl rfl rfl rfl rfl rfl rfl rfl).2.1⟩,
    (candidate_application_is_indexed_and_deleted_under_one_id (demoApplicationServer none)
      demoApplicationStore execTx_commitsExactlyOnNil demoRoles demoUnmarshalMap 5 7
      (by decide) (by decide) demoApplicationTxWorld).2
      (demoCandidateContext demoDeleteApplicationRequest) demoDeleteApplicationRequest
      demoDeleteApplicationRequest rfl rfl rfl rfl rfl rfl rfl⟩

/-! ## The update of a past experience in a candidate document -/

/-- A conditional assignment leaves the other members as they were. -/
theorem getField_setFieldIf_ne (c : Prop) [Decidable c] (m : JsonMap) (k k1 : String)
    (v : Json) (hne : k1 ≠ k) : getField (setFieldIf c m k v) k1 = getField m k1 := by
  unfold setFieldIf
  split
  · exact getField_setField_ne m k k1 v hne
  · rfl

/-- A conditional assignment gives the member the value when the condition holds. -/
theorem getField_setFieldIf_same (c : Prop) [Decidable c] (m : JsonMap) (k : String)
    (v : Json) : getField (setFieldIf c m k v) k = if c then some v else getField m k := by
  unfold setFieldIf
  split
  · exact getField_setField_same m k v
  · rfl

/-- The map that `UpdatePastExperienceInCandidate` passes to its script, as a
sequence of assignments. -/
theorem updatePastExperienceMap_eq {R : Type} (env : ESEnv R) (pe : es.PastExperience) :
    updatePastExperienceMap env pe =
      setField (setField
        (setFieldIf ((!pe.EndDate.IsZero) = true)
          (setFieldIf ((!pe.StartDate.IsZero) = true)
            (setFieldIf (pe.Description ≠ "")
              (setFieldIf (pe.JobTitle ≠ "")
                (setFieldIf (pe.Industry ≠ "") (setField [] "id" (Json.str pe.ID))
                  "industry" (Json.str pe.Industry))
                "job_title" (Json.str pe.JobTitle))
              "description" (Json.str pe.Description))
            "start_date" (Json.str (env.formatTime pe.StartDate)))
          "end_date" (Json.str (env.formatTime pe.EndDate)))
        "present" (Json.bool pe.Present))
        "length" (Json.num (if (!pe.StartDate.IsZero && !pe.EndDate.IsZero) = true then
          YearsBetween pe.StartDate pe.EndDate else 0)) := rfl

/-- The members of the map that `UpdatePastExperienceInCandidate` passes to
its script: the id, the present flag and the length always; the industry, the
job title and the description when not empty; a date when not zero. -/
theorem getField_updatePastExperienceMap {R : Type} (env : ESEnv R)
    (pe : es.PastExperience) :
    getField (updatePastExperienceMap env pe) "id" = some (Json.str pe.ID) ∧
    getField (updatePastExperienceMap env pe) "industry" =
      (if pe.Industry ≠ "" then some (Json.str pe.Industry) else none) ∧
    getField (updatePastExperienceMap env pe) "job_title" =
      (if pe.JobTitle ≠ "" then some (Json.str pe.JobTitle) else none) ∧
    getField (updatePastExperienceMap env pe) "description" =
      (if pe.Description ≠ "" then some (Json.str pe.Description) else none) ∧
    getField (updatePastExperienceMap env pe) "start_date" =
      (if (!pe.StartDate.IsZero) = true then some (Json.str (env.formatTime pe.StartDate))
        else none) ∧
    getField (updatePastExperienceMap env pe) "end_date" =
      (if (!pe.EndDate.IsZero) = true then some (Json.str (env.formatTime pe.EndDate))
        else none) ∧
    getField (updatePastExperienceMap env pe) "present" = some (Json.bool pe.Present) ∧
    getField (updatePastExperienceMap env pe) "length" =
      some (Json.num (if (!pe.StartDate.IsZero && !pe.EndDate.IsZero) = true then
        YearsBetween pe.StartDate pe.EndDate else 0)) := by
  rw [updatePastExperienceMap_eq]
  refine ⟨?_, ?_, ?_, ?_, ?_, ?_, ?_, ?_⟩
  · rw [getField_setField_ne _ _ _ _ (by decide), getField_setField_ne _ _ _ _ (by decide),
      getField_setFieldIf_ne _ _ _ _ _ (by decide), getField_setFieldIf_ne _ _ _ _ _ (by decide),
      getField_setFieldIf_ne _ _ _ _ _ (by decide), getField_setFieldIf_ne _ _ _ _ _ (by decide),
      getField_setFieldIf_ne _ _ _ _ _ (by decide), getField_setField_same]
  · rw [getField_setField_ne _ _ _ _ (by decide), getField_setField_ne _ _ _ _ (by decide),
      getField_setFieldIf_ne _ _ _ _ _ (by decide), getField_setFieldIf_ne _ _ _ _ _ (by decide),
      getField_setFieldIf_ne _ _ _ _ _ (by decide), getField_setFieldIf_ne _ _ _ _ _ (by decide),
      getField_setFieldIf_same, getField_setField_ne _ _ _ _ (by decide)]
    rfl
  · rw [getField_setField_ne _ _ _ _ (by decide), getField_setField_ne _ _ _ _ (by decide),
      getField_setFieldIf_ne _ _ _ _ _ (by decide), getField_setFieldIf_ne _ _ _ _ _ (by decide),
      getField_setFieldIf_ne _ _ _ _ _ (by decide), getField_setFieldIf_same,
      getField_setFieldIf_ne _ _ _ _ _ (by decide), getField_setField_ne _ _ _ _ (by decide)]
    rfl
  · rw [getField_setField_ne _ _ _ _ (by decide), getField_setField_ne _ _ _ _ (by decide),
      getField_setFieldIf_ne _ _ _ _ _ (by decide), getField_setFieldIf_ne _ _ _ _ _ (by decide),
      getField_setFieldIf_same, getField_setFieldIf_ne _ _ _ _ _ (by decide),
      getField_setFieldIf_ne _ _ _ _ _ (by decide), getField_setField_ne _ _ _ _ (by decide)]
    rfl
  · rw [getField_setField_ne _ _ _ _ (by decide), getField_setField_ne _ _ _ _ (by decide),
      getField_setFieldIf_ne _ _ _ _ _ (by decide), getField_setFieldIf_same,
      getField_setFieldIf_ne _ _ _ _ _ (by decide), getField_setFieldIf_ne _ _ _ _ _ (by decide),
      getField_setFieldIf_ne _ _ _ _ _ (by decide), getField_setField_ne _ _ _ _ (by decide)]
    rfl
  · rw [getField_setField_ne _ _ _ _ (by decide), getField_setField_ne _ _ _ _ (by decide),
      getField_setFieldIf_same, getField_setFieldIf_ne _ _ _ _ _ (by decide),
      getField_setFieldIf_ne _ _ _ _ _ (by decide), getField_setFieldIf_ne _ _ _ _ _ (by decide),
      getField_setFieldIf_ne _ _ _ _ _ (by decide), getField_setField_ne _ _ _ _ (by decide)]
    rfl
  · rw [getField_setField_ne _ _ _ _ (by decide), getField_setField_same]
  · rw [getField_setField_same]

/-- A conditional copy from parameters that lack the member changes nothing. -/
theorem copyIfPresent_of_none (p e : JsonMap) (k : String) (h : getField p k = none) :
    copyIfPresent p k e = e := by
  unfold copyIfPresent
  rw [h]

/-- The assignments of the update script leave a member for which the
parameters have no value as it was, the length apart. -/
theorem getField_applyPastExperience_absent (p e : JsonMap) (k : String)
    (hlen : k ≠ "length") (hk : getField p k = none) :
    getField (applyPastExperience p e) k = getField e k := by
  have step : ∀ (name : String) (entry : JsonMap),
      getField (copyIfPresent p name entry) k = getField entry k := by
    intro name entry
    by_cases hn : k = name
    · subst hn
      rw [copyIfPresent_of_none p entry k hk]
    · exact getField_copyIfPresent_ne p entry name k hn
  unfold applyPastExperience
  rw [step, getField_setField_ne _ _ _ _ hlen, step, step, step, step, step]

/-- The loop of the update script rewrites the first entry with the id of the
parameters and leaves the entries before and after it as they were. -/
theorem updateFirstMatching_append (p : JsonMap) (before after : List Json)
    (entry : JsonMap)
    (hbefore : ∀ x ∈ before, ∃ e : JsonMap, x = Json.obj e ∧
      (memberOrNull e "id").equals (memberOrNull p "id") = false)
    (hentry : (memberOrNull entry "id").equals (memberOrNull p "id") = true) :
    updateFirstMatching p (before ++ Json.obj entry :: after) =
      some (before ++ Json.obj (applyPastExperience p entry) :: after) := by
  induction before with
  | nil => simp [updateFirstMatching, hentry]
  | cons x rest ih =>
    obtain ⟨e, rfl, hx⟩ := hbefore x (List.mem_cons_self _ _)
    have hrest := ih (fun y hy => hbefore y (List.mem_cons_of_mem _ hy))
    simp [updateFirstMatching, hx, hrest]

/-- C26, the claim as stated fails: the stored experience `e1` has length 2 and
is present; an update that carries only a new industry (no dates) leaves the
employer, replaces the industry, and also sets the length to 0 and the present
flag to false. -/
theorem update_without_dates_resets_length_and_present :
    (!demoIndustryUpdate.StartDate.IsZero) = false ∧
    (!demoIndustryUpdate.EndDate.IsZero) = false ∧
    (UpdatePastExperienceInCandidate demoESEnv "u1" demoIndustryUpdate
        { docs := demoExperienceDocuments, rng := 0 }).1 = none ∧
    (UpdatePastExperienceInCandidate demoESEnv "u1" demoIndustryUpdate
        { docs := demoExperienceDocuments, rng := 0 }).2.docs CandidateIdx "u1" =
      some [("user_uid", Json.str "u1"),
        ("past_experience", Json.arr [Json.obj
          [("id", Json.str "e1"), ("industry", Json.str "retail"),
           ("employer", Json.str "cafe"), ("length", Json.num 0),
           ("present", Json.bool false)]])] := by
  refine ⟨by decide, by decide, ?_, ?_⟩
  · rfl
  · rfl

/-- The assignments of the update script leave every member they do not name
as it was. -/
theorem getField_applyPastExperience_other (p e : JsonMap) (k : String)
    (h1 : k ≠ "industry") (h2 : k ≠ "job_title") (h3 : k ≠ "description")
    (h4 : k ≠ "start_date") (h5 : k ≠ "end_date") (h6 : k ≠ "length") (h7 : k ≠ "present") :
    getField (applyPastExperience p e) k = getField e k := by
  unfold applyPastExperience
  rw [getField_copyIfPresent_ne _ _ _ _ h7, getField_setField_ne _ _ _ _ h6,
    getField_copyIfPresent_ne _ _ _ _ h5, getField_copyIfPresent_ne _ _ _ _ h4,
    getField_copyIfPresent_ne _ _ _ _ h3, getField_copyIfPresent_ne _ _ _ _ h2,
    getField_copyIfPresent_ne _ _ _ _ h1]

/-- What the assignments of the update script make of a member they copy when
the parameters have it. -/
theorem getField_applyPastExperience_copied (p e : JsonMap) (k : String) (c : Prop)
    [Decidable c] (v : Json)
    (hk : k = "industry" ∨ k = "job_title" ∨ k = "description" ∨ k = "start_date" ∨
      k = "end_date" ∨ k = "present")
    (hp : getField p k = if c then some v else none) :
    getField (applyPastExperience p e) k = if c then some v else getField e k := by
  by_cases hc : c
  · rw [if_pos hc] at hp ⊢
    exact getField_applyPastExperience p e k v hk hp
  · rw [if_neg hc] at hp ⊢
    refine getField_applyPastExperience_absent p e k ?_ hp
    rcases hk with rfl | rfl | rfl | rfl | rfl | rfl <;> decide

/-- C26, amended: applied to a candidate document whose `past_experience`
array has, as its first entry with the update's id, the object `entry`,
`UpdatePastExperienceInCandidate` returns nil and replaces that entry by one in
which industry, job title and description are those of the update when not
empty, start date and end date are those of the update when not zero, the
present flag is always that of the update, and the length is always that
computed from the update (`YearsBetween` of its dates when both are not zero,
0 otherwise); every other member of the entry, the employer left aside, every
other entry and every other member of the document are unchanged. -/
theorem update_past_experience_rewrites_first_matching_entry {R : Type} (env : ESEnv R)
    (userUID : String) (pe : es.PastExperience) (st : ESState R) (source : JsonMap)
    (before after : List Json) (entry : JsonMap)
    (hdoc : st.docs CandidateIdx userUID = some source)
    (hpe : getField source "past_experience" =
      some (Json.arr (before ++ Json.obj entry :: after)))
    (hbefore : ∀ x ∈ before, ∃ e : JsonMap, x = Json.obj e ∧
      (memberOrNull e "id").equals (Json.str pe.ID) = false)
    (hentry : (memberOrNull entry "id").equals (Json.str pe.ID) = true) :
    ∃ entry1 : JsonMap,
      UpdatePastExperienceInCandidate env userUID pe st =
        (none,
          { st with
            docs := putDocument st.docs CandidateIdx userUID
              (setField source "past_experience"
                (Json.arr (before ++ Json.obj entry1 :: after))) }) ∧
      getField entry1 "industry" =
        (if pe.Industry ≠ "" then some (Json.str pe.Industry)
          else getField entry "industry") ∧
      getField entry1 "job_title" =
        (if pe.JobTitle ≠ "" then some (Json.str pe.JobTitle)
          else getField entry "job_title") ∧
      getField entry1 "description" =
        (if pe.Description ≠ "" then some (Json.str pe.Description)
          else getField entry "description") ∧
      getField entry1 "start_date" =
        (if (!pe.StartDate.IsZero) = true then some (Json.str (env.formatTime pe.StartDate))
          else getField entry "start_date") ∧
      getField entry1 "end_date" =
        (if (!pe.EndDate.IsZero) = true then some (Json.str (env.formatTime pe.EndDate))
          else getField entry "end_date") ∧
      getField entry1 "present" = some (Json.bool pe.Present) ∧
      getField entry1 "length" =
        some (Json.num (if (!pe.StartDate.IsZero && !pe.EndDate.IsZero) = true then
          YearsBetween pe.StartDate pe.EndDate else 0)) ∧
      ∀ k : String, k ≠ "industry" → k ≠ "job_title" → k ≠ "description" →
        k ≠ "start_date" → k ≠ "end_date" → k ≠ "present" → k ≠ "length" →
        k ≠ "employer" → getField entry1 k = getField entry k := by
  obtain ⟨gid, gind, gjob, gdesc, gstart, gend, gpres, glen⟩ :=
    getField_updatePastExperienceMap env pe
  have hid : memberOrNull (updatePastExperienceMap env pe) "id" = Json.str pe.ID := by
    simp [memberOrNull, gid]
  have hloop := updateFirstMatching_append (updatePastExperienceMap env pe) before after entry
    (by rw [hid]; exact hbefore) (by rw [hid]; exact hentry)
  refine ⟨applyPastExperience (updatePastExperienceMap env pe) entry, ?_,
    getField_applyPastExperience_copied _ _ _ _ _ (by simp) gind,
    getField_applyPastExperience_copied _ _ _ _ _ (by simp) gjob,
    getField_applyPastExperience_copied _ _ _ _ _ (by simp) gdesc,
    getField_applyPastExperience_copied _ _ _ _ _ (by simp) gstart,
    getField_applyPastExperience_copied _ _ _ _ _ (by simp) gend, ?_, ?_, ?_⟩
  · simp [UpdatePastExperienceInCandidate, esUpdateScript, hdoc, updatePastExperienceScript,
      hpe, hloop]
  · exact getField_applyPastExperience _ _ _ _ (by simp) gpres
  · rw [getField_applyPastExperience_length]
    simp [memberOrNull, glen]
  · intro k h1 h2 h3 h4 h5 h6 h7 _
    exact getField_applyPastExperience_other _ _ k h1 h2 h3 h4 h5 h7 h6

/-- The witness of C26: the update of `e1` that carries only a new industry,
on the document of `u1`, whose only entry is `e1`: the update returns nil, the
industry of the entry becomes that of the update, its present flag becomes
that of the update, and its id stays. -/
theorem update_past_experience_rewrites_first_matching_entry_witness :
    demoExperienceDocuments CandidateIdx "u1" =
      some [("user_uid", Json.str "u1"),
        ("past_experience", Json.arr [Json.obj
          [("id", Json.str "e1"), ("industry", Json.str "food"),
           ("employer", Json.str "cafe"), ("length", Json.num 2),
           ("present", Json.bool true)]])] ∧
    ∃ entry1 : JsonMap,
      (UpdatePastExperienceInCandidate demoESEnv "u1" demoIndustryUpdate
        { docs := demoExperienceDocuments, rng := 0 }).1 = none ∧
      getField entry1 "industry" = some (Json.str "retail") ∧
      getField entry1 "present" = some (Json.bool false) ∧
      getField entry1 "id" = some (Json.str "e1") :=
  ⟨rfl,
    match update_past_experience_rewrites_first_matching_entry demoESEnv "u1"
      demoIndustryUpdate { docs := demoExperienceDocuments, rng := 0 }
      [("user_uid", Json.str "u1"),
        ("past_experience", Json.arr [Json.obj
          [("id", Json.str "e1"), ("industry", Json.str "food"),
           ("employer", Json.str "cafe"), ("length", Json.num 2),
           ("present", Json.bool true)]])]
      [] []
      [("id", Json.str "e1"), ("industry", Json.str "food"), ("employer", Json.str "cafe"),
        ("length", Json.num 2), ("present", Json.bool true)]
      rfl rfl (fun _ h => absurd h (List.not_mem_nil _)) rfl with
    | ⟨entry1, hrun, hindustry, _, _, _, _, hpresent, _, hother⟩ =>
      ⟨entry1, congrArg Prod.fst hrun, hindustry, hpresent,
        hother "id" (by decide) (by decide) (by decide) (by decide) (by decide) (by decide)
          (by decide) (by decide)⟩⟩

end Ptmr
